import Mathlib

/-!
# Targeting engine (src/target.c): shallow embedding and verified properties

The global target record of `target.c` (`target_set`, `target_who`,
`target_what`, `target_x`, `target_y`) is modelled as an explicit state value
passed through every operation.  Everything the file reads from the rest of
the game (player, monster and object tables, the visibility oracle, the cave
grids, the terminal viewport and the header constants) is collected in a
`World` value that the operations take as a parameter.

Machine integers are `Int` with explicit wrap-around at the stores into the
16-bit globals.
-/

namespace Target

/-! ## Machine integers -/

/-- Conversion of a C `int` to `u16b` (store into `target_who`, `target_what`). -/
def u16b (v : Int) : Int := v % 65536

/-- Conversion of a C `int` to `s16b` (store into `target_x`, `target_y`, and the
return value of `target_get_monster`). -/
def s16b (v : Int) : Int := (v + 32768) % 65536 - 32768

/-! ## Data model -/

/-- The fields of `monster_type` that `target.c` reads.  `fy` and `fx` are
declared `byte` in the monster header. -/
structure monster_type where
  r_idx : Int
  fy : Fin 256
  fx : Fin 256
  ml : Bool
deriving DecidableEq

/-- The fields of `object_type` that `target.c` reads.  `iy`, `ix` are declared
`byte`; `next_o_idx` is the index of the next object of the same stack, or 0. -/
structure object_type where
  k_idx : Int
  iy : Fin 256
  ix : Fin 256
  tval : Nat
  next_o_idx : Nat
  marked : Bool
deriving DecidableEq

/-- A grid point, `struct loc` of the point set. -/
structure loc where
  x : Int
  y : Int
deriving DecidableEq

/-- Everything `target.c` consumes from the rest of the program: the player
(`p_ptr->py`, `p_ptr->px`, `p_ptr->timed[TMD_IMAGE]`), the monster and object
tables, the projection oracle, the cave grids, the viewport of `Term`, and the
constants of the headers that are used by the embedded functions. -/
structure World where
  py : Int
  px : Int
  timed_image : Int
  m_list : List monster_type
  o_list : List object_type
  projectable : Int → Int → Int → Int → Int → Bool
  PROJECT_NONE : Int
  TV_GOLD : Nat
  DUNGEON_HGT : Int
  DUNGEON_WID : Int
  cave_m_idx : Int → Int → Int
  cave_o_idx : Int → Int → Int
  cave_visible_trap : Int → Int → Bool
  objects_at : Int → Int → List object_type
  squelch_hide_item : object_type → Bool
  cave_mark : Int → Int → Bool
  cave_feat : Int → Int → Nat
  tf_interesting : Nat → Bool
  offset_y : Int
  offset_x : Int
  SCREEN_HGT : Int
  SCREEN_WID : Int
  TARGET_KILL : Nat
  TARGET_OBJ : Nat

/-- A wiped monster slot (all fields zero). -/
def monster_wiped : monster_type := ⟨0, 0, 0, false⟩

/-- A wiped object slot (all fields zero). -/
def object_wiped : object_type := ⟨0, 0, 0, 0, 0, false⟩

/-- The slot `m_list[i]`; a slot past the end of the table holds no monster. -/
def World.mon (w : World) (i : Nat) : monster_type := w.m_list.getD i monster_wiped

/-- The slot `o_list[i]`; a slot past the end of the table holds no object. -/
def World.obj (w : World) (i : Nat) : object_type := w.o_list.getD i object_wiped

/-- The file-wide target record: `target_set`, `target_who`, `target_what`,
`target_x`, `target_y`. -/
structure TargetState where
  target_set : Bool
  target_who : Int
  target_what : Int
  target_x : Int
  target_y : Int
deriving DecidableEq

/-- The record at program start: the file-wide variables are zero-initialised. -/
def TargetState.initial : TargetState := ⟨false, 0, 0, 0, 0⟩

/-! ## Admissibility predicates -/

/-- Embedding of `target_able` (target.c 123-158). -/
def target_able (w : World) (m_idx : Int) : Bool :=
  if m_idx ≤ 0 then false
  else
    let m_ptr := w.mon m_idx.toNat
    if m_ptr.r_idx = 0 then false
    else if !m_ptr.ml then false
    else if !w.projectable w.py w.px m_ptr.fy.val m_ptr.fx.val w.PROJECT_NONE then false
    else if w.timed_image ≠ 0 then false
    else true

/-- The scan loop of `target_able_obj` (target.c 190-202), started at a
non-zero index.  It returns the index `o_ptr` points to when the loop is left,
and the flag `only_gold`.  The loop follows `next_o_idx` and need not
terminate on a cyclic chain, so it is run with a bound on the number of
iterations; `none` means the bound was reached. -/
def scan_stack (w : World) : Nat → Nat → Option (Nat × Bool)
  | 0, _ => none
  | fuel + 1, this_o_idx =>
    let o_ptr := w.obj this_o_idx
    if o_ptr.tval ≠ w.TV_GOLD then some (this_o_idx, false)
    else if o_ptr.next_o_idx = 0 then some (this_o_idx, true)
    else scan_stack w fuel o_ptr.next_o_idx

/-- Embedding of `target_able_obj` (target.c 174-222).  `fuel` bounds the
iterations of the scan loop. -/
def target_able_obj (w : World) (fuel : Nat) (o_idx : Int) : Option Bool :=
  if o_idx ≤ 0 then some false
  else
    match scan_stack w fuel o_idx.toNat with
    | none => none
    | some (p, only_gold) =>
      let o_ptr := w.obj p
      if o_ptr.k_idx = 0 then some false
      else if only_gold then some false
      else if !w.projectable w.py w.px o_ptr.iy.val o_ptr.ix.val 0 then some false
      else if w.timed_image ≠ 0 then some false
      else some true

/-- Modelled from the spec: the header definition of `in_bounds_fully(Y, X)` is
not under src/.  A cell is in bounds when it lies strictly inside the map,
`1 <= y <= DUNGEON_HGT - 2` and `1 <= x <= DUNGEON_WID - 2`, the same bounds
the selector slides the cursor into (target.c 2018-2028). -/
def in_bounds_fully (w : World) (y x : Int) : Bool :=
  decide (0 < y) && decide (y < w.DUNGEON_HGT - 1) && decide (0 < x) && decide (x < w.DUNGEON_WID - 1)

/-! ## The target record -/

/-- Embedding of `target_set_monster` (target.c 283-306). -/
def target_set_monster (w : World) (_t : TargetState) (m_idx : Int) : TargetState :=
  if decide (0 < m_idx) && target_able w m_idx then
    let m_ptr := w.mon m_idx.toNat
    ⟨true, u16b m_idx, 0, s16b m_ptr.fx.val, s16b m_ptr.fy.val⟩
  else
    ⟨false, 0, 0, 0, 0⟩

/-- Embedding of `target_set_object` (target.c 312-335). -/
def target_set_object (w : World) (fuel : Nat) (_t : TargetState) (o_idx : Int) :
    Option TargetState :=
  if 0 < o_idx then
    match target_able_obj w fuel o_idx with
    | none => none
    | some true =>
      let o_ptr := w.obj o_idx.toNat
      some ⟨true, 0, u16b o_idx, s16b o_ptr.ix.val, s16b o_ptr.iy.val⟩
    | some false => some ⟨false, 0, 0, 0, 0⟩
  else
    some ⟨false, 0, 0, 0, 0⟩

/-- Embedding of `target_set_location` (target.c 341-362). -/
def target_set_location (w : World) (_t : TargetState) (y x : Int) : TargetState :=
  if in_bounds_fully w y x then
    ⟨true, 0, 0, s16b x, s16b y⟩
  else
    ⟨false, 0, 0, 0, 0⟩

/-- Embedding of `target_okay` (target.c 231-277): the returned flag and the
record after the call. -/
def target_okay (w : World) (fuel : Nat) (t : TargetState) : Option (Bool × TargetState) :=
  if !t.target_set then some (false, t)
  else if t.target_who = 0 ∧ t.target_what = 0 then some (true, t)
  else if 0 < t.target_who ∧ target_able w t.target_who = true then
    let m_ptr := w.mon t.target_who.toNat
    some (true, { t with target_y := s16b m_ptr.fy.val, target_x := s16b m_ptr.fx.val })
  else if 0 < t.target_what then
    match target_able_obj w fuel t.target_what with
    | none => none
    | some true =>
      let o_ptr := w.obj t.target_what.toNat
      some (true, { t with target_y := s16b o_ptr.iy.val, target_x := s16b o_ptr.ix.val })
    | some false => some (false, t)
  else some (false, t)

/-- Embedding of `target_get` (target.c 2084-2091): the pair `(*col, *row)`. -/
def target_get (t : TargetState) : Int × Int := (t.target_x, t.target_y)

/-- Embedding of `target_get_monster` (target.c 2097-2100): `target_who`
returned as `s16b`. -/
def target_get_monster (t : TargetState) : Int := s16b t.target_who

/-- Embedding of `target_is_set` (target.c 2104-2107). -/
def target_is_set (t : TargetState) : Bool := t.target_set

/-- The states of the target record reachable from the zero-initialised record
by calls of `target_set_monster`, `target_set_object`, `target_set_location`
and `target_okay`, each with arbitrary arguments in an arbitrary world. -/
inductive Reachable : TargetState → Prop
  | initial : Reachable TargetState.initial
  | set_monster (w : World) (t : TargetState) (m_idx : Int) :
      Reachable t → Reachable (target_set_monster w t m_idx)
  | set_object (w : World) (fuel : Nat) (t t' : TargetState) (o_idx : Int) :
      Reachable t → target_set_object w fuel t o_idx = some t' → Reachable t'
  | set_location (w : World) (t : TargetState) (y x : Int) :
      Reachable t → Reachable (target_set_location w t y x)
  | okay (w : World) (fuel : Nat) (t t' : TargetState) (b : Bool) :
      Reachable t → target_okay w fuel t = some (b, t') → Reachable t'

/-- The `ABS` of the headers. -/
def ABS (v : Int) : Int := if v < 0 then -v else v

/-- Embedding of `cmp_distance` (target.c 372-410). -/
def cmp_distance (w : World) (pa pb : loc) : Int :=
  let kx := ABS (pa.x - w.px)
  let ky := ABS (pa.y - w.py)
  let da := if kx > ky then kx + kx + ky else ky + ky + kx
  let kx := ABS (pb.x - w.px)
  let ky := ABS (pb.y - w.py)
  let db := if kx > ky then kx + kx + ky else ky + ky + kx
  if da < db then -1
  else if da > db then 1
  else 0

/-- The distance metric in the words of the specification:
`d = 2*max(|dx|,|dy|) + min(|dx|,|dy|)` relative to the actor. -/
def distance_metric (w : World) (p : loc) : Int :=
  2 * max |p.x - w.px| |p.y - w.py| + min |p.x - w.px| |p.y - w.py|

/-- Modelled from the spec: the insertion step of the `sort` helper, which is
not under src/.  The point is placed before the first entry that does not
compare lower than it. -/
def sort_insert (cmp : loc → loc → Int) (p : loc) : List loc → List loc
  | [] => [p]
  | q :: qs => if cmp p q ≤ 0 then p :: q :: qs else q :: sort_insert cmp p qs

/-- Modelled from the spec: `sort(base, nmemb, smemb, comp)` is defined outside
src/; the specification requires it to order the candidates ascending under the
comparison hook and to be stable, so that ties preserve scan order.  It is
modelled as the stable insertion sort. -/
def sort (cmp : loc → loc → Int) (pts : List loc) : List loc :=
  pts.foldr (sort_insert cmp) []

/-- Embedding of `target_set_interactive_accept` (target.c 473-519). -/
def target_set_interactive_accept (w : World) (y x : Int) : Bool :=
  if w.cave_m_idx y x < 0 then true
  else if w.timed_image ≠ 0 then false
  else if 0 < w.cave_m_idx y x ∧ (w.mon (w.cave_m_idx y x).toNat).ml = true then true
  else if w.cave_visible_trap y x then true
  else if (w.objects_at y x).any (fun o_ptr => o_ptr.marked && !w.squelch_hide_item o_ptr) then true
  else if w.cave_mark y x = true ∧ w.tf_interesting (w.cave_feat y x) = true then true
  else false

/-- The body of the scan loops of `target_set_interactive_prepare`
(target.c 532-563) for one cell: whether the cell is added to the point set.
`none` means that `target_able_obj` did not finish within `fuel`. -/
def prepare_keep (w : World) (fuel mode : Nat) (y x : Int) : Option Bool :=
  if !in_bounds_fully w y x then some false
  else if !target_set_interactive_accept w y x then some false
  else if mode &&& w.TARGET_KILL ≠ 0 ∧ ¬ (0 < w.cave_m_idx y x) then some false
  else if mode &&& w.TARGET_KILL ≠ 0 ∧ target_able w (w.cave_m_idx y x) = false then some false
  else if mode &&& w.TARGET_OBJ ≠ 0 then
    if ¬ (0 < w.cave_o_idx y x) then some false
    else target_able_obj w fuel (w.cave_o_idx y x)
  else some true

/-- The inner loop of `target_set_interactive_prepare` over the columns `xs` of
row `y`: the points added, in the order they are added. -/
def prepare_row (w : World) (fuel mode : Nat) (y : Int) : List Int → Option (List loc)
  | [] => some []
  | x :: xs =>
    match prepare_keep w fuel mode y x with
    | none => none
    | some keep =>
      match prepare_row w fuel mode y xs with
      | none => none
      | some rest => some (if keep then ⟨x, y⟩ :: rest else rest)

/-- The outer loop of `target_set_interactive_prepare` over the rows `ys`. -/
def prepare_rows (w : World) (fuel mode : Nat) (xs : List Int) : List Int → Option (List loc)
  | [] => some []
  | y :: ys =>
    match prepare_row w fuel mode y xs with
    | none => none
    | some row =>
      match prepare_rows w fuel mode xs ys with
      | none => none
      | some rest => some (row ++ rest)

/-- The rows `Term->offset_y <= y < Term->offset_y + SCREEN_HGT`, increasing. -/
def panel_rows (w : World) : List Int :=
  (List.range w.SCREEN_HGT.toNat).map (fun (i : Nat) => w.offset_y + (i : Int))

/-- The columns `Term->offset_x <= x < Term->offset_x + SCREEN_WID`, increasing. -/
def panel_cols (w : World) : List Int :=
  (List.range w.SCREEN_WID.toNat).map (fun (i : Nat) => w.offset_x + (i : Int))

/-- The point set of `target_set_interactive_prepare` before it is sorted:
the cells kept by the scan of the current panel, in scan order. -/
def prepare_scan (w : World) (fuel mode : Nat) : Option (List loc) :=
  prepare_rows w fuel mode (panel_cols w) (panel_rows w)

/-- Embedding of `target_set_interactive_prepare` (target.c 524-569). -/
def target_set_interactive_prepare (w : World) (fuel mode : Nat) : Option (List loc) :=
  match prepare_scan w fuel mode with
  | none => none
  | some pts => some (sort (cmp_distance w) pts)

/-- Scan order of the panel: rows by increasing `y`, and increasing `x` within
a row. -/
def scan_before (a b : loc) : Prop := a.y < b.y ∨ (a.y = b.y ∧ a.x < b.x)

/-! ## Directional pick -/

/-- The value `da` (and `db`) that `cmp_distance` computes for a point, the
`Approximate Double Distance` to the player (target.c 382-391, 393-402). -/
def cmp_distance_value (w : World) (p : loc) : Int :=
  let kx := ABS (p.x - w.px)
  let ky := ABS (p.y - w.py)
  if kx > ky then kx + kx + ky else ky + ky + kx

/-- The value `v` that `target_pick` computes for the candidate `p` from its
offset to the origin `(y1, x1)` (target.c 428-452). -/
def target_pick_v (y1 x1 : Int) (p : loc) : Int :=
  let x2 := p.x
  let y2 := p.y
  let x3 := x2 - x1
  let y3 := y2 - y1
  let x4 := ABS x3
  let y4 := ABS y3
  if x4 > y4 then x4 + x4 + y4 else y4 + y4 + x4

/-- The scan loop of `target_pick` (target.c 425-463) over the candidates that
are left, with the loop counter `i` and the best index and value so far. -/
def target_pick_loop (y1 x1 dy dx : Int) : List loc → Int → Int → Int → Int
  | [], _, b_i, _ => b_i
  | p :: ps, i, b_i, b_v =>
    let x2 := p.x
    let y2 := p.y
    let x3 := x2 - x1
    let y3 := y2 - y1
    if dx ≠ 0 ∧ x3 * dx ≤ 0 then target_pick_loop y1 x1 dy dx ps (i + 1) b_i b_v
    else if dy ≠ 0 ∧ y3 * dy ≤ 0 then target_pick_loop y1 x1 dy dx ps (i + 1) b_i b_v
    else
      let x4 := ABS x3
      let y4 := ABS y3
      if dy ≠ 0 ∧ dx = 0 ∧ x4 > y4 then target_pick_loop y1 x1 dy dx ps (i + 1) b_i b_v
      else if dx ≠ 0 ∧ dy = 0 ∧ y4 > x4 then target_pick_loop y1 x1 dy dx ps (i + 1) b_i b_v
      else
        let v := target_pick_v y1 x1 p
        if b_i ≥ 0 ∧ v ≥ b_v then target_pick_loop y1 x1 dy dx ps (i + 1) b_i b_v
        else target_pick_loop y1 x1 dy dx ps (i + 1) i v

/-- Embedding of `target_pick` (target.c 415-467); the result is returned as
`s16b`, and -1 stands for no candidate. -/
def target_pick (y1 x1 dy dx : Int) (targets : List loc) : Int :=
  s16b (target_pick_loop y1 x1 dy dx targets 0 (-1) 9999)

/-- The admission rule of the directional picker in the words of the
specification: along each non-zero axis of `(dy, dx)` the offset of the
candidate from the origin is non-zero with the same sign, and for a purely
horizontal (resp. vertical) direction `|Δx| >= |Δy|` (resp. `|Δy| >= |Δx|`). -/
def pick_admitted (y1 x1 dy dx : Int) (p : loc) : Prop :=
  (dx ≠ 0 → p.x - x1 ≠ 0 ∧ Int.sign (p.x - x1) = Int.sign dx) ∧
  (dy ≠ 0 → p.y - y1 ≠ 0 ∧ Int.sign (p.y - y1) = Int.sign dy) ∧
  (dx ≠ 0 ∧ dy = 0 → |p.x - x1| ≥ |p.y - y1|) ∧
  (dy ≠ 0 ∧ dx = 0 → |p.y - y1| ≥ |p.x - x1|)

/-- The distance metric of the specification relative to the origin of a
directional pick: `2*max(|Δx|,|Δy|) + min(|Δx|,|Δy|)`. -/
def pick_metric (y1 x1 : Int) (p : loc) : Int :=
  2 * max |p.x - x1| |p.y - y1| + min |p.x - x1| |p.y - y1|

/-- The reference definition of the directional pick in the words of the
specification: the result `r` is -1 when no candidate is admitted, and is
otherwise the index of an admitted candidate whose metric is minimal among the
admitted candidates and strictly smaller than that of every admitted candidate
before it (first match wins ties). -/
def pick_reference (y1 x1 dy dx : Int) (ts : List loc) (r : Int) : Prop :=
  (r = -1 ∧ ∀ p ∈ ts, ¬ pick_admitted y1 x1 dy dx p) ∨
  (∃ (n : Nat) (p : loc), r = (n : Int) ∧ ts[n]? = some p ∧ pick_admitted y1 x1 dy dx p ∧
    (∀ (j : Nat) (q : loc), ts[j]? = some q → pick_admitted y1 x1 dy dx q →
      pick_metric y1 x1 p ≤ pick_metric y1 x1 q) ∧
    (∀ (j : Nat) (q : loc), j < n → ts[j]? = some q → pick_admitted y1 x1 dy dx q →
      pick_metric y1 x1 p < pick_metric y1 x1 q))

/-! ## Path overlay -/

/-- Modelled from the spec: `panel_contains(y, x)` is defined outside src/; a
cell is on screen when it lies inside the currently visible viewport, the rows
and columns that `target_set_interactive_prepare` scans. -/
def panel_contains (w : World) (y x : Int) : Bool :=
  decide (w.offset_y ≤ y) && decide (y < w.offset_y + w.SCREEN_HGT) &&
    decide (w.offset_x ≤ x) && decide (x < w.offset_x + w.SCREEN_WID)

/-- What `draw_path` and `load_path` consume from the headers and the cave
besides the `World`: the decoding of a path grid, the two cave queries of the
colour choice, the colour constants and the marker glyph. -/
structure Display where
  GRID_Y : Int → Int
  GRID_X : Int → Int
  cave_project : Int → Int → Bool
  player_can_see_bold : Int → Int → Bool
  TERM_L_RED : Int
  TERM_YELLOW : Int
  TERM_BLUE : Int
  TERM_L_DARK : Int
  TERM_WHITE : Int
  STAR : Int

/-- The screen contents: the `(colour, glyph)` pair shown at the screen cell
that displays the map cell `(y, x)`. -/
abbrev Screen := Int → Int → Int × Int

/-- The state `draw_path` and `load_path` work on: the screen, the overlay
buffers `a` (colours) and `c` (glyphs) indexed by path step, and the record of
the path steps on which a marker has been drawn, latest first. -/
structure Overlay where
  scr : Screen
  a : Nat → Int
  c : Nat → Int
  drawn : List Nat

/-- Modelled from the spec: `move_cursor_relative(y, x)` followed by
`Term_addch(a, c)` (both outside src/) writes the pair at the screen cell of
the map cell `(y, x)` and leaves every other cell as it was. -/
def screen_put (scr : Screen) (y x : Int) (a c : Int) : Screen :=
  fun y2 x2 => if y2 = y ∧ x2 = x then (a, c) else scr y2 x2

/-- The store into entry `i` of an overlay buffer. -/
def buf_set (b : Nat → Int) (i : Nat) (v : Int) : Nat → Int :=
  fun j => if j = i then v else b j

/-- The colour choice of `draw_path` (target.c 1334-1357). -/
def path_colour (w : World) (d : Display) (y x : Int) : Int :=
  if w.cave_m_idx y x ≠ 0 ∧ (w.mon (w.cave_m_idx y x).toNat).ml = true then d.TERM_L_RED
  else if w.cave_o_idx y x ≠ 0 ∧ (w.obj (w.cave_o_idx y x).toNat).marked = true then d.TERM_YELLOW
  else if d.cave_project y x = false ∧
      (w.cave_mark y x = true ∨ d.player_can_see_bold y x = true) then d.TERM_BLUE
  else if w.cave_mark y x = false ∧ d.player_can_see_bold y x = false then d.TERM_L_DARK
  else d.TERM_WHITE

/-- The body of the loop of `draw_path` for a visible square (target.c
1328-1360): `Term_what` saves the pair shown at the cell into entry `i` of the
buffers, and `Term_addch` draws the marker in the chosen colour. -/
def draw_path_mark (w : World) (d : Display) (ov : Overlay) (i : Nat) (y x : Int) : Overlay :=
  { scr := screen_put ov.scr y x (path_colour w d y x) d.STAR
    a := buf_set ov.a i (ov.scr y x).1
    c := buf_set ov.c i (ov.scr y x).2
    drawn := i :: ov.drawn }

/-- The loop of `draw_path` (target.c 1311-1362) over the path steps that are
left, with the loop counter `i` and the flag `on_screen`; it returns the value
of `i` when the loop is left. -/
def draw_path_loop (w : World) (d : Display) : List Int → Nat → Bool → Overlay → Nat × Overlay
  | [], i, _, ov => (i, ov)
  | g :: gs, i, on_screen, ov =>
    let y := d.GRID_Y g
    let x := d.GRID_X g
    if panel_contains w y x then
      draw_path_loop w d gs (i + 1) true (draw_path_mark w d ov i y x)
    else if on_screen then (i, ov)
    else draw_path_loop w d gs (i + 1) false ov

/-- Embedding of `draw_path` (target.c 1296-1365); `path_g` holds the `path_n`
grids of the path. -/
def draw_path (w : World) (d : Display) (path_g : List Int) (ov : Overlay) (y1 x1 : Int) :
    Nat × Overlay :=
  if path_g.length < 1 then (0, ov)
  else draw_path_loop w d path_g 0 (panel_contains w y1 x1) ov

/-- The loop of `load_path` (target.c 1373-1380) over the path steps that are
left. -/
def load_path_loop (w : World) (d : Display) : List Int → Nat → Overlay → Overlay
  | [], _, ov => ov
  | g :: gs, i, ov =>
    let y := d.GRID_Y g
    let x := d.GRID_X g
    if !panel_contains w y x then load_path_loop w d gs (i + 1) ov
    else load_path_loop w d gs (i + 1) { ov with scr := screen_put ov.scr y x (ov.a i) (ov.c i) }

/-- Embedding of `load_path` (target.c 1371-1383). -/
def load_path (w : World) (d : Display) (path_g : List Int) (ov : Overlay) : Overlay :=
  load_path_loop w d path_g 0 ov

/-- The on-screen flags of the start cell followed by those of the path steps. -/
def path_flags (w : World) (d : Display) (path_g : List Int) (y1 x1 : Int) : List Bool :=
  panel_contains w y1 x1 :: path_g.map (fun g => panel_contains w (d.GRID_Y g) (d.GRID_X g))

/-- The cells of the path steps. -/
def path_cells (d : Display) (path_g : List Int) : List (Int × Int) :=
  path_g.map (fun g => (d.GRID_Y g, d.GRID_X g))

/-- The flags that are set form one contiguous run. -/
def one_run (fl : List Bool) : Prop :=
  ∀ i j k : Nat, i < j → j < k → fl[i]? = some true → fl[k]? = some true → fl[j]? = some true

/-! ## Panel scrolling -/

/-- The fields of a `term` that `adjust_panel_help` reads. -/
structure term_win where
  offset_y : Int
  offset_x : Int
  hgt : Int
  wid : Int
deriving DecidableEq

/-- A sub-window `angband_term[j]`, `j > 0`: whether the pointer is set,
whether `op_ptr->window_flag[j]` has `PW_MAP`, and the fields of the term. -/
structure sub_window where
  present : Bool
  map_flag : Bool
  win : term_win
deriving DecidableEq

/-- A key code `press.key.code`: the `ESCAPE` constant, a character, or any
other code. -/
inductive keycode where
  | ESCAPE : keycode
  | chr (c : Char) : keycode
  | other (n : Nat) : keycode
deriving DecidableEq

/-- The fields of a `ui_event` that the selector reads: whether the type is
`EVT_MOUSE`, the mouse button, modifiers and position, and the key code. -/
structure ui_event where
  is_mouse : Bool
  button : Int
  mods : Nat
  mouse_x : Int
  mouse_y : Int
  code : keycode
deriving DecidableEq

/-- What the interactive selector consumes from the rest of the program besides
the `World`: header constants, the main window size, the tables `ddy`, `ddx`,
and the helpers defined outside src/ (`modify_panel`, `change_panel`,
`verify_panel`, `target_dir`, `distance`, `town_adjust`, `KEY_GRID_Y`,
`KEY_GRID_X`).  A panel helper yields the new offsets of the window when it
reports a change and nothing when it reports none; `verify_panel` yields the
offsets of the main window after the call.  `Term` is the main window
`angband_term[0]`, whose offsets are `offset_y`, `offset_x` of the `World`. -/
structure UI where
  TARGET_GRID : Nat
  TARGET_LOOK : Nat
  KC_MOD_CONTROL : Nat
  KC_MOD_ALT : Nat
  FEAT_PERM_SOLID : Nat
  ROW_MAP : Int
  COL_MAP : Int
  tile_width : Int
  tile_height : Int
  term_hgt : Int
  term_wid : Int
  depth : Int
  ddy : Int → Int
  ddx : Int → Int
  target_dir : keycode → Int
  distance : Int → Int → Int → Int → Int
  town_adjust : Int → Int → Int × Int
  KEY_GRID_Y : World → ui_event → Int
  KEY_GRID_X : World → ui_event → Int
  modify_panel : World → term_win → Int → Int → Option (Int × Int)
  change_panel : World → Int → Option (Int × Int)
  verify_panel : World → Int × Int

/-- The world after the offsets of the main window have been set. -/
def World.scrolled (w : World) (wy wx : Int) : World :=
  { w with offset_y := wy, offset_x := wx }

/-- The loop `while (y >= wy + screen_hgt) wy += screen_hgt / 2;` of
`adjust_panel_help` (target.c 612-613, and 618-619 for columns), run for at
most `fuel` tests of its condition. -/
def adjust_forward : Nat → Int → Int → Int → Option Int
  | 0, _, _, _ => none
  | fuel + 1, y, wy, screen_hgt =>
    if y ≥ wy + screen_hgt then adjust_forward fuel y (wy + Int.tdiv screen_hgt 2) screen_hgt
    else some wy

/-- The loop `while (y < wy) wy -= screen_hgt / 2;` of `adjust_panel_help`
(target.c 614-615, and 620-621 for columns), run for at most `fuel` tests of
its condition. -/
def adjust_backward : Nat → Int → Int → Int → Option Int
  | 0, _, _, _ => none
  | fuel + 1, y, wy, screen_hgt =>
    if y < wy then adjust_backward fuel y (wy - Int.tdiv screen_hgt 2) screen_hgt
    else some wy

/-- The offsets `(wy, wx)` that `adjust_panel_help` computes for one window
(target.c 601-621) from its old offsets and its size in screen cells. -/
def adjust_offsets (ui : UI) (fuel : Nat) (y x wy wx screen_hgt0 screen_wid0 : Int) :
    Option (Int × Int) :=
  let screen_wid := Int.tdiv screen_wid0 ui.tile_width
  let screen_hgt := Int.tdiv screen_hgt0 ui.tile_height
  match adjust_forward fuel y wy screen_hgt with
  | none => none
  | some wy1 =>
    match adjust_backward fuel y wy1 screen_hgt with
    | none => none
    | some wy2 =>
      match adjust_forward fuel x wx screen_wid with
      | none => none
      | some wx1 =>
        match adjust_backward fuel x wx1 screen_wid with
        | none => none
        | some wx2 => some (wy2, wx2)

/-- The iterations `j > 0` of the window scan of `adjust_panel_help`: the flag
`changed` and the sub-windows after the scan. -/
def adjust_sub_windows (ui : UI) (fuel : Nat) (w : World) (y x : Int) :
    List sub_window → Bool → Option (Bool × List sub_window)
  | [], changed => some (changed, [])
  | sw :: rest, changed =>
    if !sw.present then
      (adjust_sub_windows ui fuel w y x rest changed).map (fun r => (r.1, sw :: r.2))
    else if !sw.map_flag then
      (adjust_sub_windows ui fuel w y x rest changed).map (fun r => (r.1, sw :: r.2))
    else
      match adjust_offsets ui fuel y x sw.win.offset_y sw.win.offset_x sw.win.hgt sw.win.wid with
      | none => none
      | some (wy, wx) =>
        match ui.modify_panel w sw.win wy wx with
        | some (ny, nx) =>
          (adjust_sub_windows ui fuel w y x rest true).map
            (fun r => (r.1, { sw with win := { sw.win with offset_y := ny, offset_x := nx } } :: r.2))
        | none =>
          (adjust_sub_windows ui fuel w y x rest changed).map (fun r => (r.1, sw :: r.2))

/-- Embedding of `adjust_panel_help` (target.c 577-629): the returned flag, the
world with the offsets of the main window after the call, and the sub-windows
after the call.  `fuel` bounds the iterations of each `while` loop. -/
def adjust_panel_help (ui : UI) (fuel : Nat) (w : World) (subs : List sub_window)
    (y x : Int) (help : Bool) : Option (Bool × World × List sub_window) :=
  let screen_hgt_main : Int :=
    if help then ui.term_hgt - ui.ROW_MAP - 3 else ui.term_hgt - ui.ROW_MAP - 1
  match adjust_offsets ui fuel y x w.offset_y w.offset_x screen_hgt_main
      (ui.term_wid - ui.COL_MAP - 1) with
  | none => none
  | some (wy, wx) =>
    match ui.modify_panel w ⟨w.offset_y, w.offset_x, ui.term_hgt, ui.term_wid⟩ wy wx with
    | some (ny, nx) =>
      (adjust_sub_windows ui fuel (w.scrolled ny nx) y x subs true).map
        (fun r => (r.1, w.scrolled ny nx, r.2))
    | none =>
      (adjust_sub_windows ui fuel w y x subs false).map (fun r => (r.1, w, r.2))

/-! ## Interactive selector -/

/-- The local state of `target_set_interactive` together with the globals it
changes: the world (its viewport offsets), the sub-windows, the target record,
the mode, the cursor `(x, y)`, the index `m`, the flags `flag`, `done`, `help`
and `failure_message`, the point set `targets`, the number of `bell` calls made
and the `CMD_PATHFIND` requests posted.  What the function writes to the screen
is not part of the state. -/
structure SelState where
  w : World
  subs : List sub_window
  t : TargetState
  mode : Nat
  x : Int
  y : Int
  m : Int
  flag : Bool
  done : Bool
  help : Bool
  failure_message : Bool
  targets : List loc
  bells : Nat
  pathfind : List (Int × Int)

/-- The three branches of the body of the selector loop (target.c 1499, 1756,
1762): interesting grids (CycleMode), the failure of object targeting, and
arbitrary grids (FreeMode). -/
inductive SelBranch where
  | cycle : SelBranch
  | failure : SelBranch
  | free : SelBranch
deriving DecidableEq

/-- The statement `mode &= ~flag`. -/
def clear_flag (mode flag : Nat) : Nat := mode ^^^ (mode &&& flag)

/-- The branch the loop body takes in a state (target.c 1499, 1756, 1762). -/
def sel_branch (s : SelState) : SelBranch :=
  if s.flag = true ∧ s.targets.length ≠ 0 then SelBranch.cycle
  else if s.mode &&& s.w.TARGET_OBJ ≠ 0 then SelBranch.failure
  else SelBranch.free

/-- The main window as a `term`. -/
def main_window (ui : UI) (w : World) : term_win :=
  ⟨w.offset_y, w.offset_x, ui.term_hgt, ui.term_wid⟩

/-- The help update of the CycleMode branch (target.c 1512-1521) changes no
state, but it calls `target_able_obj`, which has to return. -/
def sel_help_check (fuel : Nat) (s : SelState) : Option Unit :=
  if s.help = true ∧ s.mode &&& s.w.TARGET_OBJ ≠ 0 ∧ 0 < s.w.cave_o_idx s.y s.x then
    (target_able_obj s.w fuel (s.w.cave_o_idx s.y s.x)).map (fun _ => ())
  else some ()

/-- The search `for (i = 0; i < point_set_size(targets); i++)` for the cell
`(y, x)` in the point set (target.c 1594-1600, 1880-1886). -/
def sel_find (targets : List loc) (y x : Int) : Option Nat :=
  targets.findIdx? (fun p => decide (y = p.y) && decide (x = p.x))

/-- The confirm keys `t`, `5`, `0`, `.` in CycleMode (target.c 1650-1676). -/
def sel_cycle_confirm (fuel : Nat) (s : SelState) : Option SelState :=
  if s.mode &&& s.w.TARGET_KILL ≠ 0 then
    let m_idx := s.w.cave_m_idx s.y s.x
    if 0 < m_idx ∧ target_able s.w m_idx = true then
      some { s with t := target_set_monster s.w s.t m_idx, done := true }
    else some { s with bells := s.bells + 1 }
  else if s.mode &&& s.w.TARGET_OBJ ≠ 0 then
    let o_idx := s.w.cave_o_idx s.y s.x
    if 0 < o_idx then
      match target_able_obj s.w fuel o_idx with
      | none => none
      | some true =>
        match target_set_object s.w fuel s.t o_idx with
        | none => none
        | some t2 => some { s with t := t2, done := true }
      | some false => some { s with bells := s.bells + 1 }
    else some { s with bells := s.bells + 1 }
  else some s

/-- The analysis of the event in CycleMode (target.c 1540-1712): the state
after it and the direction `d`. -/
def sel_cycle_event (ui : UI) (fuel : Nat) (s : SelState) (press : ui_event) :
    Option (SelState × Int) :=
  if press.is_mouse then
    let button : Int := if press.button = 3 then 2 else press.button
    let mods : Nat := if press.button = 3 then ui.KC_MOD_CONTROL else press.mods
    let y := ui.KEY_GRID_Y s.w press
    let x := ui.KEY_GRID_X s.w press
    if button = 2 then
      if mods &&& ui.KC_MOD_CONTROL ≠ 0 then
        let m_idx := s.w.cave_m_idx y x
        if 0 < m_idx ∧ target_able s.w m_idx = true then
          some ({ s with y := y, x := x, t := target_set_monster s.w s.t m_idx, done := true }, 0)
        else some ({ s with y := y, x := x, bells := s.bells + 1 }, 0)
      else if mods &&& ui.KC_MOD_ALT ≠ 0 then
        some ({ s with y := y, x := x, pathfind := s.pathfind ++ [(y, x)], done := true }, 0)
      else some ({ s with y := y, x := x, done := true }, 0)
    else
      if s.w.cave_m_idx y x ≠ 0 ∨ s.w.cave_o_idx y x ≠ 0 then
        match sel_find s.targets y x with
        | some i => some ({ s with y := y, x := x, m := (i : Int), flag := true }, 0)
        | none => some ({ s with y := y, x := x, flag := false }, 0)
      else some ({ s with y := y, x := x, flag := false }, 0)
  else
    match press.code with
    | keycode.ESCAPE => some ({ s with done := true }, 0)
    | keycode.chr 'q' => some ({ s with done := true }, 0)
    | keycode.chr ' ' | keycode.chr '*' | keycode.chr '+' =>
      some ({ s with m := if s.m + 1 = (s.targets.length : Int) then 0 else s.m + 1 }, 0)
    | keycode.chr '-' =>
      some ({ s with m := if s.m = 0 then (s.targets.length : Int) - 1 else s.m - 1 }, 0)
    | keycode.chr 'p' =>
      let o := ui.verify_panel s.w
      some ({ s with w := s.w.scrolled o.1 o.2, y := s.w.py, x := s.w.px, flag := false }, 0)
    | keycode.chr 'o' => some ({ s with flag := false }, 0)
    | keycode.chr 'm' => some (s, 0)
    | keycode.chr 't' | keycode.chr '5' | keycode.chr '0' | keycode.chr '.' =>
      (sel_cycle_confirm fuel s).map (fun s2 => (s2, 0))
    | keycode.chr 'g' =>
      some ({ s with pathfind := s.pathfind ++ [(s.y, s.x)], done := true }, 0)
    | keycode.chr '?' => some ({ s with help := !s.help }, 0)
    | k =>
      let d := ui.target_dir k
      if d = 0 then some ({ s with bells := s.bells + 1 }, d) else some (s, d)

/-- The part `Hack -- move around` of CycleMode (target.c 1715-1753) for a
direction `d != 0`. -/
def sel_cycle_direction (ui : UI) (fuel : Nat) (s : SelState) (d : Int) : Option SelState :=
  match (if 0 ≤ s.m then s.targets[s.m.toNat]? else none) with
  | none => none
  | some old =>
    let i := target_pick old.y old.x (ui.ddy d) (ui.ddx d) s.targets
    if i < 0 then
      let old_wy := s.w.offset_y
      let old_wx := s.w.offset_x
      match ui.change_panel s.w d with
      | some (ny, nx) =>
        let w2 := s.w.scrolled ny nx
        match target_set_interactive_prepare w2 fuel s.mode with
        | none => none
        | some targets2 =>
          let i2 := target_pick old.y old.x (ui.ddy d) (ui.ddx d) targets2
          if i2 < 0 then
            match ui.modify_panel w2 (main_window ui w2) old_wy old_wx with
            | some (ry, rx) =>
              let w3 := w2.scrolled ry rx
              match target_set_interactive_prepare w3 fuel s.mode with
              | none => none
              | some targets3 => some { s with w := w3, targets := targets3 }
            | none => some { s with w := w2, targets := targets2 }
          else some { s with w := w2, targets := targets2, m := i2 }
      | none => some s
    else some { s with m := i }

/-- The CycleMode branch of the loop body (target.c 1500-1753) for the event
`press` that `target_set_interactive_aux` returns. -/
def sel_cycle (ui : UI) (fuel : Nat) (s : SelState) (press : ui_event) : Option SelState :=
  match (if 0 ≤ s.m then s.targets[s.m.toNat]? else none) with
  | none => none
  | some pt =>
    match adjust_panel_help ui fuel s.w s.subs pt.y pt.x s.help with
    | none => none
    | some (_, w1, subs1) =>
      let s1 : SelState := { s with y := pt.y, x := pt.x, w := w1, subs := subs1 }
      match sel_help_check fuel s1 with
      | none => none
      | some _ =>
        match sel_cycle_event ui fuel s1 press with
        | none => none
        | some (s2, d) => if d ≠ 0 then sel_cycle_direction ui fuel s2 d else some s2

/-- The failure branch of the loop body (target.c 1756-1760). -/
def sel_failure (s : SelState) : SelState :=
  { s with done := true, failure_message := true }

/-- The loop of the key `m` in FreeMode that picks the candidate nearest to the
cursor (target.c 1929-1938): the index `m` and the distance `bd` after it. -/
def sel_nearest (ui : UI) (y x : Int) : List loc → Int → Int → Int → Int × Int
  | [], _, m, bd => (m, bd)
  | p :: ps, i, m, bd =>
    let t := ui.distance y x p.y p.x
    if t < bd then sel_nearest ui y x ps (i + 1) i t
    else sel_nearest ui y x ps (i + 1) m bd

/-- The part `Handle "direction"` of FreeMode (target.c 1997-2040) for a
direction `d != 0`. -/
def sel_free_direction (ui : UI) (fuel : Nat) (s : SelState) (d : Int) : Option SelState :=
  let dims : Int × Int :=
    if ui.depth = 0 then ui.town_adjust s.w.DUNGEON_HGT s.w.DUNGEON_WID
    else (s.w.DUNGEON_HGT, s.w.DUNGEON_WID)
  let dungeon_hgt := dims.1
  let dungeon_wid := dims.2
  let dy0 := ui.ddy d
  let dx0 := ui.ddx d
  let dy := if ui.depth = 0 ∧ s.w.cave_feat (s.y + dy0) s.x = ui.FEAT_PERM_SOLID then 0 else dy0
  let dx := if ui.depth = 0 ∧ s.w.cave_feat s.y (s.x + dx0) = ui.FEAT_PERM_SOLID then 0 else dx0
  let x1 := s.x + dx
  let y1 := s.y + dy
  let x2 := if x1 ≥ dungeon_wid - 1 then x1 - 1 else if x1 ≤ 0 then x1 + 1 else x1
  let y2 := if y1 ≥ dungeon_hgt - 1 then y1 - 1 else if y1 ≤ 0 then y1 + 1 else y1
  match adjust_panel_help ui fuel s.w s.subs y2 x2 s.help with
  | none => none
  | some (true, w1, subs1) =>
    match target_set_interactive_prepare w1 fuel s.mode with
    | none => none
    | some targets1 => some { s with x := x2, y := y2, w := w1, subs := subs1, targets := targets1 }
  | some (false, w1, subs1) => some { s with x := x2, y := y2, w := w1, subs := subs1 }

/-- The analysis of the event in FreeMode (target.c 1792-1994): the state after
it and the direction `d`. -/
def sel_free_event (ui : UI) (fuel : Nat) (s : SelState) (press : ui_event) :
    Option (SelState × Int) :=
  if press.is_mouse then
    let button : Int := if press.button = 3 then 2 else press.button
    let mods : Nat := if press.button = 3 then ui.KC_MOD_CONTROL else press.mods
    let gy := ui.KEY_GRID_Y s.w press
    let gx := ui.KEY_GRID_X s.w press
    if button = 2 then
      let d : Int := if s.mode &&& s.w.TARGET_KILL ≠ 0 ∧ s.y = gy ∧ s.x = gx then -1 else 0
      if mods &&& ui.KC_MOD_CONTROL ≠ 0 then
        some ({ s with y := gy, x := gx, t := target_set_location s.w s.t gy gx, done := true }, d)
      else if mods &&& ui.KC_MOD_ALT ≠ 0 then
        some ({ s with y := gy, x := gx, pathfind := s.pathfind ++ [(gy, gx)], done := true }, d)
      else if d = -1 then
        some ({ s with y := gy, x := gx, t := target_set_location s.w s.t gy gx, done := true }, 0)
      else some ({ s with y := gy, x := gx, done := true }, d)
    else
      let dims : Int × Int :=
        if ui.depth = 0 then ui.town_adjust s.w.DUNGEON_HGT s.w.DUNGEON_WID
        else (s.w.DUNGEON_HGT, s.w.DUNGEON_WID)
      let dungeon_hgt := dims.1
      let dungeon_wid := dims.2
      let y1 := if press.mouse_y ≤ 1 then gy - 1
        else if press.mouse_y ≥ ui.term_hgt - 2 then gy + 1 else gy
      let x1 := if press.mouse_y ≤ 1 then gx
        else if press.mouse_y ≥ ui.term_hgt - 2 then gx
        else if press.mouse_x ≤ ui.COL_MAP then gx - 1
        else if press.mouse_x ≥ ui.term_wid - 2 then gx + 1 else gx
      let y2 := if y1 < 0 then 0 else y1
      let x2 := if x1 < 0 then 0 else x1
      let y3 := if y2 ≥ dungeon_hgt - 1 then dungeon_hgt - 1 else y2
      let x3 := if x2 ≥ dungeon_wid - 1 then dungeon_wid - 1 else x2
      match adjust_panel_help ui fuel s.w s.subs y3 x3 s.help with
      | none => none
      | some (changed, w1, subs1) =>
        match (if changed then target_set_interactive_prepare w1 fuel s.mode
               else some s.targets) with
        | none => none
        | some targets1 =>
          let s1 : SelState :=
            { s with y := y3, x := x3, w := w1, subs := subs1, targets := targets1 }
          if w1.cave_m_idx y3 x3 ≠ 0 ∨ w1.cave_o_idx y3 x3 ≠ 0 then
            match sel_find targets1 y3 x3 with
            | some i => some ({ s1 with m := (i : Int), flag := true }, 0)
            | none => some (s1, 0)
          else some ({ s1 with flag := false }, 0)
  else
    match press.code with
    | keycode.ESCAPE => some ({ s with done := true }, 0)
    | keycode.chr 'q' => some ({ s with done := true }, 0)
    | keycode.chr ' ' | keycode.chr '*' | keycode.chr '+' | keycode.chr '-' => some (s, 0)
    | keycode.chr 'p' =>
      let o := ui.verify_panel s.w
      some ({ s with w := s.w.scrolled o.1 o.2, y := s.w.py, x := s.w.px }, 0)
    | keycode.chr 'o' => some (s, 0)
    | keycode.chr 'm' =>
      let r := sel_nearest ui s.y s.x s.targets 0 0 999
      some ({ s with m := r.1, flag := decide (r.2 ≠ 999) }, 0)
    | keycode.chr 't' | keycode.chr '5' | keycode.chr '0' | keycode.chr '.' =>
      some ({ s with t := target_set_location s.w s.t s.y s.x, done := true }, 0)
    | keycode.chr 'g' =>
      some ({ s with pathfind := s.pathfind ++ [(s.y, s.x)], done := true }, 0)
    | keycode.chr '?' => some ({ s with help := !s.help }, 0)
    | k =>
      let d := ui.target_dir k
      if d = 0 then some ({ s with bells := s.bells + 1 }, d) else some (s, d)

/-- The FreeMode branch of the loop body (target.c 1763-2041) for the event
`press` that `target_set_interactive_aux` returns. -/
def sel_free (ui : UI) (fuel : Nat) (s : SelState) (press : ui_event) : Option SelState :=
  match sel_free_event ui fuel s press with
  | none => none
  | some (s2, d) => if d ≠ 0 then sel_free_direction ui fuel s2 d else some s2

/-- The loop `while (!done)` of `target_set_interactive` (target.c 1495-2042),
fed with the events that the calls of `target_set_interactive_aux` return.  It
yields the state in which the loop is left and the events not read; there is
no result when an iteration has none or when the events run out before `done`
is set. -/
def sel_loop (ui : UI) (fuel : Nat) : SelState → List ui_event →
    Option (SelState × List ui_event)
  | s, [] =>
    if s.done then some (s, [])
    else
      match sel_branch s with
      | SelBranch.failure => some (sel_failure s, [])
      | _ => none
  | s, press :: rest =>
    if s.done then some (s, press :: rest)
    else
      match sel_branch s with
      | SelBranch.failure => some (sel_failure s, press :: rest)
      | SelBranch.cycle =>
        match sel_cycle ui fuel s press with
        | none => none
        | some s2 => sel_loop ui fuel s2 rest
      | SelBranch.free =>
        match sel_free ui fuel s press with
        | none => none
        | some s2 => sel_loop ui fuel s2 rest

/-- The state in which `target_set_interactive(mode, x, y)` enters its loop
(target.c 1456-1492), in world `w` with target record `t`. -/
def sel_enter (ui : UI) (fuel : Nat) (w : World) (subs : List sub_window) (t : TargetState)
    (mode : Nat) (x y : Int) : Option SelState :=
  let no_start : Bool := decide (x = -1) || decide (y = -1)
  let x0 := if no_start then w.px else x
  let y0 := if no_start then w.py else y
  let flag0 : Bool := no_start
  let flag1 : Bool := if mode &&& ui.TARGET_GRID ≠ 0 then false else flag0
  let mode1 : Nat := if mode &&& ui.TARGET_GRID ≠ 0 then clear_flag mode ui.TARGET_GRID else mode
  match target_set_interactive_prepare w fuel mode1 with
  | none => none
  | some targets =>
    some { w := w, subs := subs, t := target_set_monster w t 0, mode := mode1,
           x := x0, y := y0, m := 0, flag := flag1, done := false, help := false,
           failure_message := false, targets := targets, bells := 0, pathfind := [] }

/-- What a call of `target_set_interactive` leaves behind: the value returned,
the state after the part that follows the loop, the number of times the
message `There is nothing within reach.` was reported, and the events that
were not read. -/
structure SelResult where
  ret : Bool
  final : SelState
  reports : Nat
  unread : List ui_event

/-- Embedding of `target_set_interactive` (target.c 1433-2075). -/
def target_set_interactive (ui : UI) (fuel : Nat) (w : World) (subs : List sub_window)
    (t : TargetState) (mode : Nat) (x y : Int) (events : List ui_event) : Option SelResult :=
  match sel_enter ui fuel w subs t mode x y with
  | none => none
  | some s0 =>
    match sel_loop ui fuel s0 events with
    | none => none
    | some (s1, rest) =>
      let o := ui.verify_panel s1.w
      let s2 : SelState := { s1 with w := s1.w.scrolled o.1 o.2 }
      if !s2.t.target_set then
        some ⟨false, s2, if s2.failure_message then 1 else 0, rest⟩
      else some ⟨true, s2, 0, rest⟩

/-! ## Derived forms and predicates of the statements -/

/-- The scan of `adjust_panel_help` reaches the sub-window `sw` (the pointer is
set and the window shows the map) and the call of `modify_panel` for it, with
the offsets computed for it, reports a change. -/
def panel_change_reported (ui : UI) (fuel : Nat) (w : World) (y x : Int) (sw : sub_window) :
    Prop :=
  sw.present = true ∧ sw.map_flag = true ∧
    ∃ wy wx, adjust_offsets ui fuel y x sw.win.offset_y sw.win.offset_x sw.win.hgt sw.win.wid =
        some (wy, wx) ∧
      ui.modify_panel w sw.win wy wx ≠ none

/-- The dispatch on the key code of `sel_cycle_event` written as a chain of
tests, the form in which the key cases are analysed. -/
def sel_cycle_key (ui : UI) (fuel : Nat) (s : SelState) (code : keycode) :
    Option (SelState × Int) :=
  if code = keycode.ESCAPE ∨ code = keycode.chr 'q' then some ({ s with done := true }, 0)
  else if code = keycode.chr ' ' ∨ code = keycode.chr '*' ∨ code = keycode.chr '+' then
    some ({ s with m := if s.m + 1 = (s.targets.length : Int) then 0 else s.m + 1 }, 0)
  else if code = keycode.chr '-' then
    some ({ s with m := if s.m = 0 then (s.targets.length : Int) - 1 else s.m - 1 }, 0)
  else if code = keycode.chr 'p' then
    some ({ s with w := s.w.scrolled (ui.verify_panel s.w).1 (ui.verify_panel s.w).2,
                   y := s.w.py, x := s.w.px, flag := false }, 0)
  else if code = keycode.chr 'o' then some ({ s with flag := false }, 0)
  else if code = keycode.chr 'm' then some (s, 0)
  else if code = keycode.chr 't' ∨ code = keycode.chr '5' ∨ code = keycode.chr '0' ∨
      code = keycode.chr '.' then
    (sel_cycle_confirm fuel s).map (fun s2 => (s2, 0))
  else if code = keycode.chr 'g' then
    some ({ s with pathfind := s.pathfind ++ [(s.y, s.x)], done := true }, 0)
  else if code = keycode.chr '?' then some ({ s with help := !s.help }, 0)
  else if ui.target_dir code = 0 then some ({ s with bells := s.bells + 1 }, ui.target_dir code)
  else some (s, ui.target_dir code)

/-- The dispatch on the key code of `sel_free_event` written as a chain of
tests. -/
def sel_free_key (ui : UI) (s : SelState) (code : keycode) : Option (SelState × Int) :=
  if code = keycode.ESCAPE ∨ code = keycode.chr 'q' then some ({ s with done := true }, 0)
  else if code = keycode.chr ' ' ∨ code = keycode.chr '*' ∨ code = keycode.chr '+' ∨
      code = keycode.chr '-' then some (s, 0)
  else if code = keycode.chr 'p' then
    some ({ s with w := s.w.scrolled (ui.verify_panel s.w).1 (ui.verify_panel s.w).2,
                   y := s.w.py, x := s.w.px }, 0)
  else if code = keycode.chr 'o' then some (s, 0)
  else if code = keycode.chr 'm' then
    some ({ s with m := (sel_nearest ui s.y s.x s.targets 0 0 999).1,
                   flag := decide ((sel_nearest ui s.y s.x s.targets 0 0 999).2 ≠ 999) }, 0)
  else if code = keycode.chr 't' ∨ code = keycode.chr '5' ∨ code = keycode.chr '0' ∨
      code = keycode.chr '.' then
    some ({ s with t := target_set_location s.w s.t s.y s.x, done := true }, 0)
  else if code = keycode.chr 'g' then
    some ({ s with pathfind := s.pathfind ++ [(s.y, s.x)], done := true }, 0)
  else if code = keycode.chr '?' then some ({ s with help := !s.help }, 0)
  else if ui.target_dir code = 0 then some ({ s with bells := s.bells + 1 }, ui.target_dir code)
  else some (s, ui.target_dir code)

/-- Modelled from the spec: `modify_panel(t, wy, wx)` is defined outside src/.
The selector uses it to scroll a window and to undo a scroll: the window is
moved to the requested offsets, and a change is reported exactly when they
differ from the offsets the window had.  The result is the new pair of offsets
when a change is reported. -/
def modify_panel_spec (t : term_win) (wy wx : Int) : Option (Int × Int) :=
  if wy = t.offset_y ∧ wx = t.offset_x then none else some (wy, wx)

/-- The part `Hack -- move around` of CycleMode (target.c 1715-1753), as
`sel_cycle_direction`, together with the number of calls of `target_pick` it
makes. -/
def sel_cycle_direction_counted (ui : UI) (fuel : Nat) (s : SelState) (d : Int) :
    Option (SelState × Nat) :=
  match (if 0 ≤ s.m then s.targets[s.m.toNat]? else none) with
  | none => none
  | some old =>
    let i := target_pick old.y old.x (ui.ddy d) (ui.ddx d) s.targets
    if i < 0 then
      let old_wy := s.w.offset_y
      let old_wx := s.w.offset_x
      match ui.change_panel s.w d with
      | some (ny, nx) =>
        let w2 := s.w.scrolled ny nx
        match target_set_interactive_prepare w2 fuel s.mode with
        | none => none
        | some targets2 =>
          let i2 := target_pick old.y old.x (ui.ddy d) (ui.ddx d) targets2
          if i2 < 0 then
            match ui.modify_panel w2 (main_window ui w2) old_wy old_wx with
            | some (ry, rx) =>
              let w3 := w2.scrolled ry rx
              match target_set_interactive_prepare w3 fuel s.mode with
              | none => none
              | some targets3 => some ({ s with w := w3, targets := targets3 }, 2)
            | none => some ({ s with w := w2, targets := targets2 }, 2)
          else some ({ s with w := w2, targets := targets2, m := i2 }, 2)
      | none => some (s, 1)
    else some ({ s with m := i }, 1)

/-- The map size `dungeon_hgt`, `dungeon_wid` that FreeMode works with (target.c
1997-2003): the header constants, adjusted by `town_adjust` on level 0. -/
def map_dims (ui : UI) (w : World) : Int × Int :=
  if ui.depth = 0 then ui.town_adjust w.DUNGEON_HGT w.DUNGEON_WID
  else (w.DUNGEON_HGT, w.DUNGEON_WID)

/-- The cell `(y, x)` to which the direction part of FreeMode moves the cursor
for the direction `d` (target.c 2005-2028): the step `ddy[d]`, `ddx[d]`, held
back by the permanent wall of the town, and the slide back off the edge of the
map. -/
def sel_free_target (ui : UI) (s : SelState) (d : Int) : Int × Int :=
  let dungeon_hgt := (map_dims ui s.w).1
  let dungeon_wid := (map_dims ui s.w).2
  let dy0 := ui.ddy d
  let dx0 := ui.ddx d
  let dy := if ui.depth = 0 ∧ s.w.cave_feat (s.y + dy0) s.x = ui.FEAT_PERM_SOLID then 0 else dy0
  let dx := if ui.depth = 0 ∧ s.w.cave_feat s.y (s.x + dx0) = ui.FEAT_PERM_SOLID then 0 else dx0
  let x1 := s.x + dx
  let y1 := s.y + dy
  let x2 := if x1 ≥ dungeon_wid - 1 then x1 - 1 else if x1 ≤ 0 then x1 + 1 else x1
  let y2 := if y1 ≥ dungeon_hgt - 1 then y1 - 1 else if y1 ≤ 0 then y1 + 1 else y1
  (y2, x2)

/-- Embedding of `target_set_closest` (target.c 1217-1276): the value returned
and the target record after the call.  The messages, the tracking calls and
the visual cue are not part of the state.  The test `point_set_size(targets) < 1`
and the read of `targets->pts[0]` are the match on the point set. -/
def target_set_closest (w : World) (fuel : Nat) (t : TargetState) (mode : Nat) :
    Option (Bool × TargetState) :=
  let t0 := target_set_monster w t 0
  match target_set_interactive_prepare w fuel mode with
  | none => none
  | some targets =>
    match targets with
    | [] => some (false, t0)
    | p :: _ =>
      let m_idx := w.cave_m_idx p.y p.x
      if m_idx ≤ 0 ∨ target_able w m_idx = false then some (false, t0)
      else some (true, target_set_monster w t0 m_idx)

/-- The iterations of the loop of `target_set_interactive` that read the events
`evs`, one event per iteration in CycleMode or FreeMode: the state at the loop
test after the last of them.  There is no result when an iteration has none,
when `done` is set before every event is read, or when the failure branch is
taken, which reads no event. -/
def sel_steps (ui : UI) (fuel : Nat) : SelState → List ui_event → Option SelState
  | s, [] => some s
  | s, press :: rest =>
    if s.done then none
    else
      match sel_branch s with
      | SelBranch.failure => none
      | SelBranch.cycle =>
        match sel_cycle ui fuel s press with
        | none => none
        | some s2 => sel_steps ui fuel s2 rest
      | SelBranch.free =>
        match sel_free ui fuel s press with
        | none => none
        | some s2 => sel_steps ui fuel s2 rest

/-- The index condition of the selector: `m` is not negative and, while `flag`
is set, it is 0 or a position in the point set.  In CycleMode, where `flag` is
set and the point set is not empty, this is `0 <= m < point_set_size(targets)`,
the condition under which `targets->pts[m]` is read inside the set. -/
def index_ok (s : SelState) : Prop :=
  0 ≤ s.m ∧ (s.flag = true → s.m = 0 ∨ s.m < (s.targets.length : Int))

/-- The case of the direction part of CycleMode (target.c 1715-1753) in which
`target_pick` fails on the point set in hand, `change_panel` changes the
panel, and `target_pick` fails again on the point set rebuilt for it. -/
def pick_fails_twice (ui : UI) (fuel : Nat) (s : SelState) (d : Int) : Prop :=
  ∃ (old : loc) (ny nx : Int) (targets2 : List loc),
    s.targets[s.m.toNat]? = some old ∧
    target_pick old.y old.x (ui.ddy d) (ui.ddx d) s.targets < 0 ∧
    ui.change_panel s.w d = some (ny, nx) ∧
    target_set_interactive_prepare (s.w.scrolled ny nx) fuel s.mode = some targets2 ∧
    target_pick old.y old.x (ui.ddy d) (ui.ddx d) targets2 < 0

/-- The property of its argument that `draw_path` relies on, `path[] is a
straight line` (target.c 1317): on the way from the start cell through the
steps of the path the row never turns back, the column never turns back, and
no cell comes twice.  The callers pass the paths of `project_path`, which is
defined outside src/. -/
def straight_path (d : Display) (path_g : List Int) (y1 x1 : Int) : Prop :=
  (((y1, x1) :: path_cells d path_g).Pairwise (fun p q => p.1 ≤ q.1) ∨
    ((y1, x1) :: path_cells d path_g).Pairwise (fun p q => q.1 ≤ p.1)) ∧
  (((y1, x1) :: path_cells d path_g).Pairwise (fun p q => p.2 ≤ q.2) ∨
    ((y1, x1) :: path_cells d path_g).Pairwise (fun p q => q.2 ≤ p.2)) ∧
  ((y1, x1) :: path_cells d path_g).Nodup

/-- The state of the candidates in monster-restricted mode: the mode holds the
flag `TARGET_KILL`, and every cell of the point set holds a monster that
`target_able` accepts. -/
def kill_cells (w : World) (mode : Nat) (targets : List loc) : Prop :=
  mode &&& w.TARGET_KILL ≠ 0 ∧
    ∀ p ∈ targets, 0 < w.cave_m_idx p.y p.x ∧ target_able w (w.cave_m_idx p.y p.x) = true

/-! ## A sample world

A small concrete world used to evaluate the embedded functions: the player
stands at `(y, x) = (3, 3)`, monster 1 is visible at `(3, 4)`, monster 2 is an
unseen monster at `(5, 9)`, and the object table holds a gold item chained to a
stale slot (1 -> 2), a plain object (3), and a gold item chained to a plain
object (4 -> 5). -/

/-- The sample world. -/
def sampleWorld : World where
  py := 3
  px := 3
  timed_image := 0
  m_list := [monster_wiped, ⟨7, 3, 4, true⟩, ⟨9, 5, 9, false⟩]
  o_list := [object_wiped, ⟨1, 2, 2, 100, 2, true⟩, ⟨0, 2, 2, 40, 0, false⟩,
    ⟨5, 3, 6, 40, 0, true⟩, ⟨1, 4, 4, 100, 5, true⟩, ⟨6, 4, 4, 40, 0, true⟩]
  projectable := fun _ _ _ _ _ => true
  PROJECT_NONE := 0
  TV_GOLD := 100
  DUNGEON_HGT := 66
  DUNGEON_WID := 198
  cave_m_idx := fun y x => if y = 3 ∧ x = 3 then -1 else if y = 3 ∧ x = 4 then 1
    else if y = 5 ∧ x = 9 then 2 else 0
  cave_o_idx := fun y x => if y = 2 ∧ x = 2 then 1 else if y = 3 ∧ x = 6 then 3
    else if y = 4 ∧ x = 4 then 4 else 0
  cave_visible_trap := fun _ _ => false
  objects_at := fun _ _ => []
  squelch_hide_item := fun _ => false
  cave_mark := fun _ _ => false
  cave_feat := fun _ _ => 0
  tf_interesting := fun _ => false
  offset_y := 0
  offset_x := 0
  SCREEN_HGT := 8
  SCREEN_WID := 12
  TARGET_KILL := 1
  TARGET_OBJ := 32

/-- The sample world after monster 1 has moved from `(3, 4)` to `(4, 5)`. -/
def sampleWorldMoved : World :=
  { sampleWorld with m_list := [monster_wiped, ⟨7, 4, 5, true⟩, ⟨9, 5, 9, false⟩] }

/-- The scenario of the specification, with cells written `(x, y)` as in its
data model: the actor at `(x, y) = (5, 0)` and traps in view at the cells
`(5, 5)`, `(5, 7)` and `(9, 5)`. -/
def scenarioWorld : World :=
  { sampleWorld with
    py := 0
    px := 5
    m_list := [monster_wiped]
    o_list := [object_wiped]
    cave_m_idx := fun y x => if y = 0 ∧ x = 5 then -1 else 0
    cave_o_idx := fun _ _ => 0
    cave_visible_trap := fun y x =>
      decide ((y = 5 ∧ x = 5) ∨ (y = 7 ∧ x = 5) ∨ (y = 5 ∧ x = 9))
    SCREEN_HGT := 9
    SCREEN_WID := 11 }

/-- A sample display environment: a path grid `g` encodes the cell
`(g / 256, g % 256)`. -/
def sampleDisplay : Display where
  GRID_Y := fun g => g / 256
  GRID_X := fun g => g % 256
  cave_project := fun _ _ => true
  player_can_see_bold := fun _ _ => true
  TERM_L_RED := 12
  TERM_YELLOW := 11
  TERM_BLUE := 6
  TERM_L_DARK := 8
  TERM_WHITE := 1
  STAR := 42

/-- A sample overlay state: every screen cell shows a white `.`, and the
overlay buffers are zeroed. -/
def sampleOverlay : Overlay := ⟨fun _ _ => (1, 46), fun _ => 0, fun _ => 0, []⟩

/-- A sample selector environment for the sample world: a 10 x 26 main window
with the map at row 1 and column 13 (an 8 x 12 viewport), single-width tiles,
the keypad directions, and panel helpers that move a window to the requested
offsets. -/
def sampleUI : UI where
  TARGET_GRID := 8
  TARGET_LOOK := 2
  KC_MOD_CONTROL := 1
  KC_MOD_ALT := 2
  FEAT_PERM_SOLID := 63
  ROW_MAP := 1
  COL_MAP := 13
  tile_width := 1
  tile_height := 1
  term_hgt := 10
  term_wid := 26
  depth := 1
  ddy := fun d => if d = 1 ∨ d = 2 ∨ d = 3 then 1 else if d = 7 ∨ d = 8 ∨ d = 9 then -1 else 0
  ddx := fun d => if d = 1 ∨ d = 4 ∨ d = 7 then -1 else if d = 3 ∨ d = 6 ∨ d = 9 then 1 else 0
  target_dir := fun k => match k with
    | keycode.chr '2' => 2
    | keycode.chr '4' => 4
    | keycode.chr '6' => 6
    | keycode.chr '8' => 8
    | _ => 0
  distance := fun y1 x1 y2 x2 => max |y1 - y2| |x1 - x2|
  town_adjust := fun h w => (h, w)
  KEY_GRID_Y := fun w e => e.mouse_y - 1 + w.offset_y
  KEY_GRID_X := fun w e => e.mouse_x - 13 + w.offset_x
  modify_panel := fun _ t wy wx =>
    if wy = t.offset_y ∧ wx = t.offset_x then none else some (wy, wx)
  change_panel := fun _ _ => none
  verify_panel := fun w => (w.offset_y, w.offset_x)

/-- The event of pressing the key of the character `c`. -/
def key_press (c : Char) : ui_event := ⟨false, 0, 0, 0, 0, keycode.chr c⟩

/-- A sample state of the selector in the sample world: monster-restricted
mode, three candidates, the index on the last one. -/
def sampleCycleState : SelState where
  w := sampleWorld
  subs := []
  t := TargetState.initial
  mode := 1
  x := 0
  y := 0
  m := 2
  flag := true
  done := false
  help := false
  failure_message := false
  targets := [⟨4, 3⟩, ⟨6, 3⟩, ⟨9, 5⟩]
  bells := 0
  pathfind := []

/-- A sample state of the selector in FreeMode: monster-restricted mode, the
cursor on the monster-free cell `(y, x) = (5, 5)`, no target set. -/
def sampleFreeState : SelState :=
  { sampleCycleState with flag := false, x := 5, y := 5, m := 0 }

/-- The sample selector environment with a `change_panel` that scrolls the
main window half a screen to the right. -/
def sampleScrollUI : UI :=
  { sampleUI with change_panel := fun w _ => some (w.offset_y, w.offset_x + 6) }

/-- The sample world with a visible trap in the bottom rows of the viewport,
at `(y, x) = (7, 5)`, and one in its top rows, at `(1, 5)`. -/
def trapWorld : World :=
  { sampleWorld with cave_visible_trap := fun y x => decide ((y = 7 ∨ y = 1) ∧ x = 5) }

/-- A world on a 24 x 80 terminal: a 66 x 198 map shown through a viewport of
22 rows and 66 columns at offset `(0, 0)`, the player at `(y, x) = (10, 10)`,
no monsters or objects, and visible traps at `(1, 10)` and `(21, 10)`. -/
def lookWorld : World :=
  { sampleWorld with
    py := 10
    px := 10
    m_list := [monster_wiped]
    o_list := [object_wiped]
    cave_m_idx := fun y x => if y = 10 ∧ x = 10 then -1 else 0
    cave_o_idx := fun _ _ => 0
    cave_visible_trap := fun y x => decide ((y = 1 ∨ y = 21) ∧ x = 10)
    SCREEN_HGT := 22
    SCREEN_WID := 66 }

/-- The selector environment of a 24 x 80 main window for `lookWorld`: the map
at row 1 and column 13, and panel helpers that move the main window:
`modify_panel` to the requested offsets, `change_panel` by half a screen in
the direction given, both within the map. -/
def termUI : UI :=
  { sampleUI with
    term_hgt := 24
    term_wid := 80
    change_panel := fun w d =>
      let wy := max 0 (min (w.DUNGEON_HGT - w.SCREEN_HGT)
        (w.offset_y + sampleUI.ddy d * (w.SCREEN_HGT / 2)))
      let wx := max 0 (min (w.DUNGEON_WID - w.SCREEN_WID)
        (w.offset_x + sampleUI.ddx d * (w.SCREEN_WID / 2)))
      if wy = w.offset_y ∧ wx = w.offset_x then none else some (wy, wx) }

/-- The sample world with a marked object of kind 5 lying at `(y, x) = (3, 6)`,
so that its cell is a candidate of object-restricted mode. -/
def objectWorld : World :=
  { sampleWorld with
    objects_at := fun y x => if y = 3 ∧ x = 6 then [⟨5, 3, 6, 40, 0, true⟩] else [] }

/-! ## Helper lemmas -/

theorem u16b_of_range {v : Int} (h0 : 0 ≤ v) (h1 : v < 65536) : u16b v = v := by
  unfold u16b; omega

theorem s16b_of_range {v : Int} (h0 : -32768 ≤ v) (h1 : v < 32768) : s16b v = v := by
  unfold s16b; omega

theorem s16b_byte (b : Fin 256) : s16b (b.val : Int) = (b.val : Int) := by
  have := b.isLt
  apply s16b_of_range <;> omega

theorem mon_wiped_of_length_le (w : World) (i : Nat) (h : w.m_list.length ≤ i) :
    w.mon i = monster_wiped := by
  unfold World.mon
  simp [List.getD, List.getElem?_eq_none h]

theorem obj_wiped_of_length_le (w : World) (i : Nat) (h : w.o_list.length ≤ i) :
    w.obj i = object_wiped := by
  unfold World.obj
  simp [List.getD, List.getElem?_eq_none h]

/-- A monster that passes `target_able` occupies a slot of the table. -/
theorem target_able_lt_length (w : World) (m_idx : Int) (h : target_able w m_idx = true) :
    m_idx.toNat < w.m_list.length := by
  by_contra hlt
  have hw := mon_wiped_of_length_le w m_idx.toNat (Nat.le_of_not_lt hlt)
  unfold target_able at h
  simp only [hw, monster_wiped] at h
  simp at h

/-- An object stack that passes `target_able_obj` starts in a slot of the table. -/
theorem target_able_obj_lt_length (w : World) (fuel : Nat) (o_idx : Int)
    (h : target_able_obj w fuel o_idx = some true) : o_idx.toNat < w.o_list.length := by
  by_contra hlt
  have hw := obj_wiped_of_length_le w o_idx.toNat (Nat.le_of_not_lt hlt)
  unfold target_able_obj at h
  split at h
  · simp at h
  · cases fuel with
    | zero => simp [scan_stack] at h
    | succ n =>
      simp only [scan_stack, hw, object_wiped] at h
      by_cases hg : (0 : Nat) = w.TV_GOLD
      · simp [hg, hw, object_wiped] at h
      · simp [hg, hw, object_wiped] at h

/-- The record `target_okay` leaves behind differs from the record it started
with in the location at most. -/
theorem okay_keeps_references (w : World) (fuel : Nat) (t t' : TargetState) (b : Bool)
    (h : target_okay w fuel t = some (b, t')) :
    t'.target_who = t.target_who ∧ t'.target_what = t.target_what := by
  unfold target_okay at h
  split at h
  · cases h; exact ⟨rfl, rfl⟩
  · split at h
    · cases h; exact ⟨rfl, rfl⟩
    · split at h
      · cases h; exact ⟨rfl, rfl⟩
      · split at h
        · split at h
          · exact absurd h (by simp)
          · cases h; exact ⟨rfl, rfl⟩
          · cases h; exact ⟨rfl, rfl⟩
        · cases h; exact ⟨rfl, rfl⟩

theorem ABS_eq_abs (v : Int) : ABS v = |v| := by
  unfold ABS
  split
  · rename_i h; rw [abs_of_neg h]
  · rename_i h; rw [abs_of_nonneg (not_lt.mp h)]

theorem double_distance_eq (kx ky : Int) :
    (if kx > ky then kx + kx + ky else ky + ky + kx) = 2 * max kx ky + min kx ky := by
  split
  · rename_i h
    rw [max_eq_left (le_of_lt h), min_eq_right (le_of_lt h)]; ring
  · rename_i h
    rw [max_eq_right (not_lt.mp h), min_eq_left (not_lt.mp h)]; ring

/-- The comparison hook orders two points by the distance metric. -/
theorem cmp_distance_le_iff (w : World) (a b : loc) :
    cmp_distance w a b ≤ 0 ↔ distance_metric w a ≤ distance_metric w b := by
  unfold cmp_distance distance_metric
  simp only [ABS_eq_abs, double_distance_eq]
  split
  · rename_i h; constructor
    · intro _; exact le_of_lt h
    · intro _; decide
  · split
    · rename_i h1 h2; constructor
      · intro h; exact absurd h (by decide)
      · intro h; exact absurd h (not_le.mpr h2)
    · rename_i h1 h2; constructor
      · intro _; exact not_lt.mp h2
      · intro _; decide

theorem mem_sort_insert (cmp : loc → loc → Int) (p q : loc) (l : List loc) :
    q ∈ sort_insert cmp p l ↔ q = p ∨ q ∈ l := by
  induction l with
  | nil => simp [sort_insert]
  | cons r rs ih =>
    unfold sort_insert
    split
    · simp
    · simp only [List.mem_cons, ih]
      constructor
      · rintro (h | h | h)
        · exact Or.inr (Or.inl h)
        · exact Or.inl h
        · exact Or.inr (Or.inr h)
      · rintro (h | h | h)
        · exact Or.inr (Or.inl h)
        · exact Or.inl h
        · exact Or.inr (Or.inr h)

theorem sort_insert_sorted (w : World) (p : loc) (l : List loc)
    (h : l.Pairwise (fun a b => distance_metric w a ≤ distance_metric w b)) :
    (sort_insert (cmp_distance w) p l).Pairwise
      (fun a b => distance_metric w a ≤ distance_metric w b) := by
  induction l with
  | nil => simp [sort_insert]
  | cons q qs ih =>
    rw [List.pairwise_cons] at h
    unfold sort_insert
    split
    · rename_i hle
      rw [cmp_distance_le_iff] at hle
      refine List.Pairwise.cons ?_ (List.Pairwise.cons h.1 h.2)
      intro r hr
      rcases List.mem_cons.mp hr with hr | hr
      · rw [hr]; exact hle
      · exact le_trans hle (h.1 r hr)
    · rename_i hle
      rw [cmp_distance_le_iff] at hle
      refine List.Pairwise.cons ?_ (ih h.2)
      intro r hr
      rcases (mem_sort_insert _ _ _ _).mp hr with hr | hr
      · rw [hr]; exact le_of_lt (not_le.mp hle)
      · exact h.1 r hr

theorem sort_sorted (w : World) (l : List loc) :
    (sort (cmp_distance w) l).Pairwise
      (fun a b => distance_metric w a ≤ distance_metric w b) := by
  induction l with
  | nil => simp [sort]
  | cons p ps ih => exact sort_insert_sorted w p _ ih

theorem filter_sort_insert (w : World) (v : Int) (p : loc) (l : List loc) :
    (sort_insert (cmp_distance w) p l).filter (fun q => decide (distance_metric w q = v)) =
      (p :: l).filter (fun q => decide (distance_metric w q = v)) := by
  induction l with
  | nil => simp [sort_insert]
  | cons q qs ih =>
    unfold sort_insert
    split
    · rfl
    · rename_i hle
      rw [cmp_distance_le_iff] at hle
      have hlt := not_le.mp hle
      rw [List.filter_cons, ih]
      by_cases hp : distance_metric w p = v
      · have hq : ¬ distance_metric w q = v := by omega
        simp [List.filter_cons, hp, hq]
      · simp [List.filter_cons, hp]

/-- The sort keeps, for every value of the metric, the points of that value in
the order they had before. -/
theorem filter_sort (w : World) (v : Int) (l : List loc) :
    (sort (cmp_distance w) l).filter (fun q => decide (distance_metric w q = v)) =
      l.filter (fun q => decide (distance_metric w q = v)) := by
  induction l with
  | nil => simp [sort]
  | cons p ps ih =>
    show (sort_insert (cmp_distance w) p (sort (cmp_distance w) ps)).filter _ = _
    rw [filter_sort_insert, List.filter_cons, List.filter_cons, ih]

theorem prepare_row_sublist (w : World) (fuel mode : Nat) (y : Int) :
    ∀ (xs : List Int) (row : List loc), prepare_row w fuel mode y xs = some row →
      row.Sublist (xs.map (fun x => (⟨x, y⟩ : loc))) := by
  intro xs
  induction xs with
  | nil =>
    intro row h
    simp only [prepare_row, Option.some.injEq] at h
    subst h
    exact List.Sublist.refl _
  | cons x xs ih =>
    intro row h
    simp only [prepare_row] at h
    cases hk : prepare_keep w fuel mode y x with
    | none => simp [hk] at h
    | some keep =>
      cases hr : prepare_row w fuel mode y xs with
      | none => simp [hk, hr] at h
      | some rest =>
        simp only [hk, hr, Option.some.injEq] at h
        subst h
        have hs := ih rest hr
        cases keep
        · exact List.Sublist.cons _ hs
        · exact List.Sublist.cons₂ _ hs

theorem prepare_rows_sublist (w : World) (fuel mode : Nat) (xs : List Int) :
    ∀ (ys : List Int) (pts : List loc), prepare_rows w fuel mode xs ys = some pts →
      pts.Sublist (ys.flatMap (fun y => xs.map (fun x => (⟨x, y⟩ : loc)))) := by
  intro ys
  induction ys with
  | nil =>
    intro pts h
    simp only [prepare_rows, Option.some.injEq] at h
    subst h
    exact List.Sublist.refl _
  | cons y ys ih =>
    intro pts h
    simp only [prepare_rows] at h
    cases hrow : prepare_row w fuel mode y xs with
    | none => simp [hrow] at h
    | some row =>
      cases hrest : prepare_rows w fuel mode xs ys with
      | none => simp [hrow, hrest] at h
      | some rest =>
        simp only [hrow, hrest, Option.some.injEq] at h
        subst h
        rw [List.flatMap_cons]
        exact List.Sublist.append (prepare_row_sublist w fuel mode y xs row hrow) (ih rest hrest)

theorem offsets_increasing (off : Int) (n : Nat) :
    ((List.range n).map (fun (i : Nat) => off + (i : Int))).Pairwise (fun a b => a < b) := by
  rw [List.pairwise_map]
  refine List.Pairwise.imp ?_ (List.pairwise_lt_range n)
  intro a b hab
  omega

theorem grid_scan_order (xs ys : List Int) (hx : xs.Pairwise (fun a b => a < b))
    (hy : ys.Pairwise (fun a b => a < b)) :
    (ys.flatMap (fun y => xs.map (fun x => (⟨x, y⟩ : loc)))).Pairwise scan_before := by
  rw [List.pairwise_flatMap]
  refine ⟨?_, ?_⟩
  · intro y _
    rw [List.pairwise_map]
    refine List.Pairwise.imp ?_ hx
    intro a b hab
    exact Or.inr ⟨rfl, hab⟩
  · refine List.Pairwise.imp ?_ hy
    intro a b hab p hp q hq
    simp only [List.mem_map] at hp hq
    obtain ⟨_, _, rfl⟩ := hp
    obtain ⟨_, _, rfl⟩ := hq
    exact Or.inl hab

/-- The unsorted point set lists its cells in scan order. -/
theorem prepare_scan_order (w : World) (fuel mode : Nat) (pts : List loc)
    (h : prepare_scan w fuel mode = some pts) : pts.Pairwise scan_before :=
  List.Pairwise.sublist (prepare_rows_sublist w fuel mode _ _ pts h)
    (grid_scan_order _ _ (offsets_increasing _ _) (offsets_increasing _ _))

theorem prepare_row_total (w : World) (fuel mode : Nat) (y : Int)
    (hfuel : ∀ y x, target_able_obj w fuel (w.cave_o_idx y x) ≠ none) :
    ∀ xs : List Int, ∃ row, prepare_row w fuel mode y xs = some row := by
  intro xs
  induction xs with
  | nil => exact ⟨[], rfl⟩
  | cons x xs ih =>
    obtain ⟨rest, hrest⟩ := ih
    have hk : ∃ keep, prepare_keep w fuel mode y x = some keep := by
      unfold prepare_keep
      split
      · exact ⟨_, rfl⟩
      · split
        · exact ⟨_, rfl⟩
        · split
          · exact ⟨_, rfl⟩
          · split
            · exact ⟨_, rfl⟩
            · split
              · split
                · exact ⟨_, rfl⟩
                · exact Option.ne_none_iff_exists'.mp (hfuel y x)
              · exact ⟨_, rfl⟩
    obtain ⟨keep, hkeep⟩ := hk
    exact ⟨_, by unfold prepare_row; rw [hkeep, hrest]⟩

theorem prepare_rows_total (w : World) (fuel mode : Nat) (xs : List Int)
    (hfuel : ∀ y x, target_able_obj w fuel (w.cave_o_idx y x) ≠ none) :
    ∀ ys : List Int, ∃ pts, prepare_rows w fuel mode xs ys = some pts := by
  intro ys
  induction ys with
  | nil => exact ⟨[], rfl⟩
  | cons y ys ih =>
    obtain ⟨rest, hrest⟩ := ih
    obtain ⟨row, hrow⟩ := prepare_row_total w fuel mode y hfuel xs
    exact ⟨_, by unfold prepare_rows; rw [hrow, hrest]⟩

/-! ## Helper lemmas: directional pick -/

theorem mul_nonpos_iff_sign (a d : Int) (h : d ≠ 0) :
    a * d ≤ 0 ↔ ¬ (a ≠ 0 ∧ Int.sign a = Int.sign d) := by
  rcases lt_trichotomy a 0 with ha | ha | ha
  · rcases lt_trichotomy d 0 with hd | hd | hd
    · have hp : 0 < a * d := Int.mul_pos_of_neg_of_neg ha hd
      rw [Int.sign_eq_neg_one_of_neg ha, Int.sign_eq_neg_one_of_neg hd]
      constructor
      · intro h1; exact absurd h1 (not_le.mpr hp)
      · intro h2; exact absurd ⟨ne_of_lt ha, rfl⟩ h2
    · exact absurd hd h
    · have hn : a * d < 0 := Int.mul_neg_of_neg_of_pos ha hd
      rw [Int.sign_eq_neg_one_of_neg ha, Int.sign_eq_one_of_pos hd]
      constructor
      · intro _ h2; exact absurd h2.2 (by decide)
      · intro _; exact le_of_lt hn
  · subst ha
    simp
  · rcases lt_trichotomy d 0 with hd | hd | hd
    · have hn : a * d < 0 := Int.mul_neg_of_pos_of_neg ha hd
      rw [Int.sign_eq_one_of_pos ha, Int.sign_eq_neg_one_of_neg hd]
      constructor
      · intro _ h2; exact absurd h2.2 (by decide)
      · intro _; exact le_of_lt hn
    · exact absurd hd h
    · have hp : 0 < a * d := Int.mul_pos ha hd
      rw [Int.sign_eq_one_of_pos ha, Int.sign_eq_one_of_pos hd]
      constructor
      · intro h1; exact absurd h1 (not_le.mpr hp)
      · intro h2; exact absurd ⟨ne_of_gt ha, rfl⟩ h2

/-- The value `v` of `target_pick` is the distance metric relative to the origin. -/
theorem target_pick_v_eq (y1 x1 : Int) (p : loc) :
    target_pick_v y1 x1 p = pick_metric y1 x1 p := by
  unfold target_pick_v pick_metric
  simp only [ABS_eq_abs, double_distance_eq]

/-- The four `continue` tests of `target_pick` reject exactly the candidates
that are not admitted. -/
theorem pick_admitted_iff (y1 x1 dy dx : Int) (p : loc) :
    pick_admitted y1 x1 dy dx p ↔
      (¬ (dx ≠ 0 ∧ (p.x - x1) * dx ≤ 0) ∧ ¬ (dy ≠ 0 ∧ (p.y - y1) * dy ≤ 0) ∧
        ¬ (dy ≠ 0 ∧ dx = 0 ∧ ABS (p.x - x1) > ABS (p.y - y1)) ∧
        ¬ (dx ≠ 0 ∧ dy = 0 ∧ ABS (p.y - y1) > ABS (p.x - x1))) := by
  unfold pick_admitted
  simp only [ABS_eq_abs]
  by_cases hx : dx = 0 <;> by_cases hy : dy = 0
  · simp [hx, hy]
  · have := mul_nonpos_iff_sign (p.y - y1) dy hy
    simp only [hx, hy, ne_eq, not_true_eq_false, not_false_eq_true, false_and, true_and,
      false_implies, true_implies, and_true, this, not_not, ge_iff_le, gt_iff_lt, not_lt]
  · have := mul_nonpos_iff_sign (p.x - x1) dx hx
    simp only [hx, hy, ne_eq, not_true_eq_false, not_false_eq_true, false_and, true_and,
      false_implies, true_implies, and_true, this, not_not, ge_iff_le, gt_iff_lt, not_lt]
  · have h1 := mul_nonpos_iff_sign (p.x - x1) dx hx
    have h2 := mul_nonpos_iff_sign (p.y - y1) dy hy
    simp only [hx, hy, ne_eq, not_true_eq_false, not_false_eq_true, false_and, true_and,
      false_implies, true_implies, and_true, h1, h2, not_not, and_false]

theorem target_pick_loop_skip (y1 x1 dy dx : Int) (p : loc) (ps : List loc) (i b_i b_v : Int)
    (h : ¬ pick_admitted y1 x1 dy dx p) :
    target_pick_loop y1 x1 dy dx (p :: ps) i b_i b_v =
      target_pick_loop y1 x1 dy dx ps (i + 1) b_i b_v := by
  rw [pick_admitted_iff] at h
  rw [target_pick_loop]
  by_cases h1 : dx ≠ 0 ∧ (p.x - x1) * dx ≤ 0
  · rw [if_pos h1]
  · by_cases h2 : dy ≠ 0 ∧ (p.y - y1) * dy ≤ 0
    · rw [if_neg h1, if_pos h2]
    · by_cases h3 : dy ≠ 0 ∧ dx = 0 ∧ ABS (p.x - x1) > ABS (p.y - y1)
      · rw [if_neg h1, if_neg h2, if_pos h3]
      · by_cases h4 : dx ≠ 0 ∧ dy = 0 ∧ ABS (p.y - y1) > ABS (p.x - x1)
        · rw [if_neg h1, if_neg h2, if_neg h3, if_pos h4]
        · exact absurd ⟨h1, h2, h3, h4⟩ h

theorem target_pick_loop_keep (y1 x1 dy dx : Int) (p : loc) (ps : List loc) (i b_i b_v : Int)
    (h : pick_admitted y1 x1 dy dx p) :
    target_pick_loop y1 x1 dy dx (p :: ps) i b_i b_v =
      if b_i ≥ 0 ∧ pick_metric y1 x1 p ≥ b_v then
        target_pick_loop y1 x1 dy dx ps (i + 1) b_i b_v
      else target_pick_loop y1 x1 dy dx ps (i + 1) i (pick_metric y1 x1 p) := by
  rw [pick_admitted_iff] at h
  obtain ⟨h1, h2, h3, h4⟩ := h
  rw [target_pick_loop, if_neg h1, if_neg h2, if_neg h3, if_neg h4, target_pick_v_eq]

theorem getElem?_snoc_of_some {pre : List loc} {p q : loc} {j : Nat}
    (h : pre[j]? = some q) : (pre ++ [p])[j]? = some q := by
  obtain ⟨hj, _⟩ := List.getElem?_eq_some.mp h
  rw [List.getElem?_append_left hj]
  exact h

theorem getElem?_snoc_cases {pre : List loc} {p q : loc} {j : Nat}
    (h : (pre ++ [p])[j]? = some q) : pre[j]? = some q ∨ (j = pre.length ∧ q = p) := by
  by_cases hj : j < pre.length
  · rw [List.getElem?_append_left hj] at h
    exact Or.inl h
  · rw [List.getElem?_append_right (Nat.le_of_not_lt hj)] at h
    obtain ⟨hlt, hq⟩ := List.getElem?_eq_some.mp h
    simp only [List.length_singleton] at hlt
    have hz : j - pre.length = 0 := by omega
    simp only [hz, List.getElem_cons_zero] at hq
    exact Or.inr ⟨by omega, hq.symm⟩

theorem getElem?_snoc_last (pre : List loc) (p : loc) :
    (pre ++ [p])[pre.length]? = some p := by
  rw [List.getElem?_append_right (le_refl _)]
  simp

/-- The best candidate so far stays the best when the next candidate is not
admitted or does not improve on it. -/
theorem pick_reference_snoc_keep (y1 x1 dy dx : Int) (pre : List loc) (p : loc) (b_i : Int)
    (href : pick_reference y1 x1 dy dx pre b_i)
    (hp : pick_admitted y1 x1 dy dx p →
      ∃ (n : Nat) (p0 : loc), b_i = (n : Int) ∧ pre[n]? = some p0 ∧
        pick_metric y1 x1 p0 ≤ pick_metric y1 x1 p) :
    pick_reference y1 x1 dy dx (pre ++ [p]) b_i := by
  rcases href with ⟨hneg, hnone⟩ | ⟨n, p0, hbi, hget, hadm, hmin, hfirst⟩
  · left
    refine ⟨hneg, ?_⟩
    intro q hq hq_adm
    rcases List.mem_append.mp hq with hq | hq
    · exact hnone q hq hq_adm
    · rw [List.mem_singleton] at hq
      subst hq
      obtain ⟨n, _, hn, _, _⟩ := hp hq_adm
      rw [hneg] at hn
      omega
  · right
    refine ⟨n, p0, hbi, getElem?_snoc_of_some hget, hadm, ?_, ?_⟩
    · intro j q hq hq_adm
      rcases getElem?_snoc_cases hq with hq | ⟨_, hq⟩
      · exact hmin j q hq hq_adm
      · subst hq
        obtain ⟨n2, p2, hn2, hget2, hle⟩ := hp hq_adm
        have hnn : n2 = n := by omega
        subst hnn
        rw [hget] at hget2
        cases hget2
        exact hle
    · intro j q hj hq hq_adm
      rcases getElem?_snoc_cases hq with hq | ⟨hjl, _⟩
      · exact hfirst j q hj hq hq_adm
      · obtain ⟨hn, _⟩ := List.getElem?_eq_some.mp hget
        omega

/-- An admitted candidate that beats every admitted candidate before it becomes
the best. -/
theorem pick_reference_snoc_new (y1 x1 dy dx : Int) (pre : List loc) (p : loc)
    (hadm : pick_admitted y1 x1 dy dx p)
    (hlt : ∀ (j : Nat) (q : loc), pre[j]? = some q → pick_admitted y1 x1 dy dx q →
      pick_metric y1 x1 p < pick_metric y1 x1 q) :
    pick_reference y1 x1 dy dx (pre ++ [p]) (pre.length : Int) := by
  right
  refine ⟨pre.length, p, rfl, getElem?_snoc_last pre p, hadm, ?_, ?_⟩
  · intro j q hq hq_adm
    rcases getElem?_snoc_cases hq with hq | ⟨_, hq⟩
    · exact le_of_lt (hlt j q hq hq_adm)
    · subst hq; exact le_refl _
  · intro j q hj hq hq_adm
    rcases getElem?_snoc_cases hq with hq | ⟨hjl, _⟩
    · exact hlt j q hq hq_adm
    · omega

/-- The scan loop of `target_pick` computes the reference pick: started after
the candidates `pre` with their reference pick as the best so far, it ends with
the reference pick of all the candidates. -/
theorem target_pick_loop_reference (y1 x1 dy dx : Int) :
    ∀ (ps pre : List loc) (b_i b_v : Int),
      pick_reference y1 x1 dy dx pre b_i →
      (∀ (n : Nat) (p : loc), b_i = (n : Int) → pre[n]? = some p → b_v = pick_metric y1 x1 p) →
      pick_reference y1 x1 dy dx (pre ++ ps)
        (target_pick_loop y1 x1 dy dx ps (pre.length : Int) b_i b_v) := by
  intro ps
  induction ps with
  | nil =>
    intro pre b_i b_v href _
    simpa [target_pick_loop] using href
  | cons p ps ih =>
    intro pre b_i b_v href hbv
    have hlen : ((pre.length : Int) + 1) = ((pre ++ [p]).length : Int) := by simp
    have happ : pre ++ p :: ps = (pre ++ [p]) ++ ps := by simp
    rw [happ]
    by_cases hadm : pick_admitted y1 x1 dy dx p
    · rw [target_pick_loop_keep y1 x1 dy dx p ps _ b_i b_v hadm]
      by_cases hkeep : b_i ≥ 0 ∧ pick_metric y1 x1 p ≥ b_v
      · rw [if_pos hkeep, hlen]
        have hnew : pick_reference y1 x1 dy dx (pre ++ [p]) b_i := by
          apply pick_reference_snoc_keep y1 x1 dy dx pre p b_i href
          intro _
          rcases href with ⟨hneg, _⟩ | ⟨n, p0, hbi, hget, _, _, _⟩
          · have := hkeep.1; omega
          · exact ⟨n, p0, hbi, hget, by rw [← hbv n p0 hbi hget]; exact hkeep.2⟩
        apply ih (pre ++ [p]) b_i b_v hnew
        intro n q hn hq
        rcases getElem?_snoc_cases hq with hq | ⟨hnl, _⟩
        · exact hbv n q hn hq
        · rcases href with ⟨hneg, _⟩ | ⟨n0, p0, hbi, hget, _, _, _⟩
          · omega
          · obtain ⟨hn0, _⟩ := List.getElem?_eq_some.mp hget
            omega
      · rw [if_neg hkeep, hlen]
        have hnew : pick_reference y1 x1 dy dx (pre ++ [p]) (pre.length : Int) := by
          apply pick_reference_snoc_new y1 x1 dy dx pre p hadm
          intro j q hq hq_adm
          rcases href with ⟨_, hnone⟩ | ⟨n0, p0, hbi, hget, _, hmin, _⟩
          · exact absurd hq_adm (hnone q (List.getElem?_mem hq))
          · have hb := hbv n0 p0 hbi hget
            have h0 : b_i ≥ 0 := by omega
            have hlt : pick_metric y1 x1 p < b_v := by
              by_contra hc
              exact hkeep ⟨h0, not_lt.mp hc⟩
            have := hmin j q hq hq_adm
            omega
        apply ih (pre ++ [p]) _ _ hnew
        intro n q hn hq
        have hnl : n = pre.length := by omega
        subst hnl
        rw [getElem?_snoc_last] at hq
        cases hq
        rfl
    · rw [target_pick_loop_skip y1 x1 dy dx p ps _ b_i b_v hadm, hlen]
      have hnew : pick_reference y1 x1 dy dx (pre ++ [p]) b_i :=
        pick_reference_snoc_keep y1 x1 dy dx pre p b_i href (fun h => absurd h hadm)
      apply ih (pre ++ [p]) b_i b_v hnew
      intro n q hn hq
      rcases getElem?_snoc_cases hq with hq | ⟨hnl, _⟩
      · exact hbv n q hn hq
      · rcases href with ⟨hneg, _⟩ | ⟨n0, p0, hbi, hget, _, _, _⟩
        · omega
        · obtain ⟨hn0, _⟩ := List.getElem?_eq_some.mp hget
          omega

/-- The value `target_pick` returns satisfies the reference definition, for a
point set of at most 32768 candidates (the range of its `s16b` result). -/
theorem target_pick_reference (y1 x1 dy dx : Int) (targets : List loc)
    (hsize : targets.length ≤ 32768) :
    pick_reference y1 x1 dy dx targets (target_pick y1 x1 dy dx targets) := by
  have h := target_pick_loop_reference y1 x1 dy dx targets [] (-1) 9999
    (Or.inl ⟨rfl, by simp⟩) (by intro n p hn; omega)
  simp only [List.nil_append, List.length_nil, Nat.cast_zero] at h
  have hs : target_pick y1 x1 dy dx targets =
      target_pick_loop y1 x1 dy dx targets 0 (-1) 9999 := by
    unfold target_pick
    rcases h with ⟨hneg, _⟩ | ⟨n, p, hn, hget, _, _, _⟩
    · rw [hneg]; rfl
    · obtain ⟨hlt, _⟩ := List.getElem?_eq_some.mp hget
      rw [hn]
      exact s16b_of_range (by omega) (by omega)
  rw [hs]
  exact h

/-- The reference definition determines the result. -/
theorem pick_reference_unique (y1 x1 dy dx : Int) (ts : List loc) (r1 r2 : Int)
    (h1 : pick_reference y1 x1 dy dx ts r1) (h2 : pick_reference y1 x1 dy dx ts r2) :
    r1 = r2 := by
  rcases h1 with ⟨hr1, hnone1⟩ | ⟨n1, p1, hr1, hget1, hadm1, hmin1, hfirst1⟩
  · rcases h2 with ⟨hr2, _⟩ | ⟨n2, p2, _, hget2, hadm2, _, _⟩
    · rw [hr1, hr2]
    · exact absurd hadm2 (hnone1 p2 (List.getElem?_mem hget2))
  · rcases h2 with ⟨_, hnone2⟩ | ⟨n2, p2, hr2, hget2, hadm2, hmin2, hfirst2⟩
    · exact absurd hadm1 (hnone2 p1 (List.getElem?_mem hget1))
    · have hle1 := hmin1 n2 p2 hget2 hadm2
      have hle2 := hmin2 n1 p1 hget1 hadm1
      have hn : n1 = n2 := by
        rcases lt_trichotomy n1 n2 with h | h | h
        · have := hfirst2 n1 p1 h hget1 hadm1
          omega
        · exact h
        · have := hfirst1 n2 p2 h hget2 hadm2
          omega
      rw [hr1, hr2, hn]

/-! ## Helper lemmas: path overlay -/

theorem one_run_tail (b : Bool) (fl : List Bool) (h : one_run (b :: fl)) : one_run fl := by
  intro i j k hij hjk hi hk
  have := h (i + 1) (j + 1) (k + 1) (by omega) (by omega)
    (by rw [List.getElem?_cons_succ]; exact hi) (by rw [List.getElem?_cons_succ]; exact hk)
  rwa [List.getElem?_cons_succ] at this

/-- The loop of `draw_path` started at step `i` leaves the buffer entries of the
earlier steps alone. -/
theorem draw_path_loop_frame (w : World) (d : Display) :
    ∀ (gs : List Int) (i : Nat) (osc : Bool) (ov : Overlay) (j : Nat), j < i →
      (draw_path_loop w d gs i osc ov).2.a j = ov.a j ∧
      (draw_path_loop w d gs i osc ov).2.c j = ov.c j := by
  intro gs
  induction gs with
  | nil => intro i osc ov j _; exact ⟨rfl, rfl⟩
  | cons g gs ih =>
    intro i osc ov j hj
    rw [draw_path_loop]
    by_cases hp : panel_contains w (d.GRID_Y g) (d.GRID_X g) = true
    · simp only [hp, if_true]
      have := ih (i + 1) true (draw_path_mark w d ov i (d.GRID_Y g) (d.GRID_X g)) j (by omega)
      rw [this.1, this.2]
      have hne : ¬ (j = i) := by omega
      simp [draw_path_mark, buf_set, hne]
    · simp only [hp, if_false]
      cases osc
      · simp only [Bool.false_eq_true, if_false]
        exact ih (i + 1) false ov j (by omega)
      · simp only [if_true]
        exact ⟨rfl, rfl⟩

/-- After `draw_path`, the buffer entry of every on-screen step holds what the
screen showed at the cell of that step before, when the path visits no cell
twice and its on-screen steps form one run. -/
theorem draw_path_loop_saved (w : World) (d : Display) :
    ∀ (gs : List Int) (i : Nat) (osc : Bool) (ov : Overlay),
      (path_cells d gs).Nodup →
      one_run (osc :: gs.map (fun g => panel_contains w (d.GRID_Y g) (d.GRID_X g))) →
      ∀ (k : Nat) (g : Int), gs[k]? = some g →
        panel_contains w (d.GRID_Y g) (d.GRID_X g) = true →
        ((draw_path_loop w d gs i osc ov).2.a (i + k),
          (draw_path_loop w d gs i osc ov).2.c (i + k)) = ov.scr (d.GRID_Y g) (d.GRID_X g) := by
  intro gs
  induction gs with
  | nil => intro i osc ov _ _ k g hk _; simp at hk
  | cons g0 gs ih =>
    intro i osc ov hnd hrun k g hk hon
    have hnd2 : (d.GRID_Y g0, d.GRID_X g0) ∉ path_cells d gs ∧ (path_cells d gs).Nodup := by
      simpa [path_cells] using hnd
    rw [draw_path_loop]
    by_cases hp : panel_contains w (d.GRID_Y g0) (d.GRID_X g0) = true
    · simp only [hp, if_true]
      cases k with
      | zero =>
        simp only [List.getElem?_cons_zero, Option.some.injEq] at hk
        subst hk
        have hf := draw_path_loop_frame w d gs (i + 1) true
          (draw_path_mark w d ov i (d.GRID_Y g0) (d.GRID_X g0)) i (by omega)
        simp only [Nat.add_zero]
        rw [hf.1, hf.2]
        simp [draw_path_mark, buf_set]
      | succ k2 =>
        rw [List.getElem?_cons_succ] at hk
        have hrun2 : one_run (true :: gs.map
            (fun g => panel_contains w (d.GRID_Y g) (d.GRID_X g))) := by
          have := one_run_tail osc _ hrun
          simpa [hp] using this
        have := ih (i + 1) true
          (draw_path_mark w d ov i (d.GRID_Y g0) (d.GRID_X g0)) hnd2.2 hrun2 k2 g hk hon
        have hidx : i + (k2 + 1) = i + 1 + k2 := by omega
        rw [hidx, this]
        have hmem : (d.GRID_Y g, d.GRID_X g) ∈ path_cells d gs := by
          unfold path_cells
          exact List.mem_map.mpr ⟨g, List.getElem?_mem hk, rfl⟩
        have hne : ¬ (d.GRID_Y g = d.GRID_Y g0 ∧ d.GRID_X g = d.GRID_X g0) := by
          intro hc
          apply hnd2.1
          rw [← hc.1, ← hc.2]
          exact hmem
        simp only [draw_path_mark, screen_put, hne, if_false]
    · simp only [hp, if_false]
      cases k with
      | zero =>
        simp only [List.getElem?_cons_zero, Option.some.injEq] at hk
        subst hk
        exact absurd hon hp
      | succ k2 =>
        rw [List.getElem?_cons_succ] at hk
        have hflag : (gs.map (fun g => panel_contains w (d.GRID_Y g) (d.GRID_X g)))[k2]?
            = some true := by
          rw [List.getElem?_map, hk]
          simp only [Option.map_some', hon]
        cases osc
        · simp only [Bool.false_eq_true, if_false]
          have hrun2 : one_run (false :: gs.map
              (fun g => panel_contains w (d.GRID_Y g) (d.GRID_X g))) := by
            have := one_run_tail false _ hrun
            have hp2 : panel_contains w (d.GRID_Y g0) (d.GRID_X g0) = false := by
              simpa using hp
            simpa [hp2] using this
          have := ih (i + 1) false ov hnd2.2 hrun2 k2 g hk hon
          have hidx : i + (k2 + 1) = i + 1 + k2 := by omega
          rw [hidx, this]
        · exfalso
          have hp2 : panel_contains w (d.GRID_Y g0) (d.GRID_X g0) = false := by
            simpa using hp
          have := hrun 0 1 (k2 + 2) (by omega) (by omega) (by simp)
            (by simp only [List.map_cons, List.getElem?_cons_succ]; exact hflag)
          simp [hp2] at this

/-- The loop of `load_path` leaves the cells that are not on the path alone. -/
theorem load_path_loop_frame (w : World) (d : Display) :
    ∀ (gs : List Int) (i : Nat) (ov : Overlay) (y x : Int),
      (y, x) ∉ path_cells d gs → (load_path_loop w d gs i ov).scr y x = ov.scr y x := by
  intro gs
  induction gs with
  | nil => intro i ov y x _; rfl
  | cons g gs ih =>
    intro i ov y x hmem
    have hmem2 : ¬ ((y, x) = (d.GRID_Y g, d.GRID_X g)) ∧ (y, x) ∉ path_cells d gs := by
      simpa [path_cells] using hmem
    rw [load_path_loop]
    by_cases hp : panel_contains w (d.GRID_Y g) (d.GRID_X g) = true
    · simp only [hp, Bool.not_true, Bool.false_eq_true, if_false]
      rw [ih (i + 1) _ y x hmem2.2]
      have hne : ¬ (y = d.GRID_Y g ∧ x = d.GRID_X g) := by
        intro hc
        apply hmem2.1
        rw [hc.1, hc.2]
      simp only [screen_put, hne, if_false]
    · have hp2 : panel_contains w (d.GRID_Y g) (d.GRID_X g) = false := by simpa using hp
      simp only [hp2, Bool.not_false, if_true]
      exact ih (i + 1) ov y x hmem2.2

/-- After `load_path`, the cell of every on-screen step shows the buffer entry
of that step, when the path visits no cell twice. -/
theorem load_path_loop_restores (w : World) (d : Display) :
    ∀ (gs : List Int) (i : Nat) (ov : Overlay), (path_cells d gs).Nodup →
      ∀ (k : Nat) (g : Int), gs[k]? = some g →
        panel_contains w (d.GRID_Y g) (d.GRID_X g) = true →
        (load_path_loop w d gs i ov).scr (d.GRID_Y g) (d.GRID_X g) =
          (ov.a (i + k), ov.c (i + k)) := by
  intro gs
  induction gs with
  | nil => intro i ov _ k g hk _; simp at hk
  | cons g0 gs ih =>
    intro i ov hnd k g hk hon
    have hnd2 : (d.GRID_Y g0, d.GRID_X g0) ∉ path_cells d gs ∧ (path_cells d gs).Nodup := by
      simpa [path_cells] using hnd
    rw [load_path_loop]
    cases k with
    | zero =>
      simp only [List.getElem?_cons_zero, Option.some.injEq] at hk
      subst hk
      simp only [hon, Bool.not_true, Bool.false_eq_true, if_false]
      rw [load_path_loop_frame w d gs (i + 1) _ _ _ hnd2.1]
      simp [screen_put]
    | succ k2 =>
      rw [List.getElem?_cons_succ] at hk
      have hidx : i + (k2 + 1) = i + 1 + k2 := by omega
      by_cases hp : panel_contains w (d.GRID_Y g0) (d.GRID_X g0) = true
      · simp only [hp, Bool.not_true, Bool.false_eq_true, if_false]
        rw [ih (i + 1) _ hnd2.2 k2 g hk hon, hidx]
      · have hp2 : panel_contains w (d.GRID_Y g0) (d.GRID_X g0) = false := by simpa using hp
        simp only [hp2, Bool.not_false, if_true]
        rw [ih (i + 1) ov hnd2.2 k2 g hk hon, hidx]

/-- The value the loop of `draw_path` returns counts the steps it skipped
before the first on-screen step and the steps it drew on. -/
theorem draw_path_loop_count (w : World) (d : Display) :
    ∀ (gs : List Int) (i : Nat) (osc : Bool) (ov : Overlay),
      (draw_path_loop w d gs i osc ov).1 + ov.drawn.length =
        i + (if osc = true then 0
          else (gs.takeWhile (fun g => !panel_contains w (d.GRID_Y g) (d.GRID_X g))).length)
          + (draw_path_loop w d gs i osc ov).2.drawn.length := by
  intro gs
  induction gs with
  | nil => intro i osc ov; cases osc <;> simp [draw_path_loop]
  | cons g gs ih =>
    intro i osc ov
    rw [draw_path_loop]
    by_cases hp : panel_contains w (d.GRID_Y g) (d.GRID_X g) = true
    · simp only [hp, if_true]
      have := ih (i + 1) true
        (draw_path_mark w d ov i (d.GRID_Y g) (d.GRID_X g))
      have hd : (draw_path_mark w d ov i (d.GRID_Y g) (d.GRID_X g)).drawn.length =
          ov.drawn.length + 1 := rfl
      simp only [if_true] at this
      rw [hd] at this
      have htw : (List.takeWhile (fun g => !panel_contains w (d.GRID_Y g) (d.GRID_X g))
          (g :: gs)).length = 0 := by
        simp [List.takeWhile, hp]
      rw [htw]
      split <;> omega
    · have hp2 : panel_contains w (d.GRID_Y g) (d.GRID_X g) = false := by simpa using hp
      simp only [hp2, Bool.false_eq_true, if_false]
      cases osc
      · simp only [Bool.false_eq_true, if_false]
        have := ih (i + 1) false ov
        simp only [Bool.false_eq_true, if_false] at this
        have htw : (List.takeWhile (fun g => !panel_contains w (d.GRID_Y g) (d.GRID_X g))
            (g :: gs)).length =
            (List.takeWhile (fun g => !panel_contains w (d.GRID_Y g) (d.GRID_X g)) gs).length
              + 1 := by
          simp [List.takeWhile, hp2]
        rw [htw]
        omega
      · simp

/-- The loop of `draw_path` only adds to the record of drawn steps. -/
theorem draw_path_loop_drawn_le (w : World) (d : Display) :
    ∀ (gs : List Int) (i : Nat) (osc : Bool) (ov : Overlay),
      ov.drawn.length ≤ (draw_path_loop w d gs i osc ov).2.drawn.length := by
  intro gs
  induction gs with
  | nil => intro i osc ov; exact le_refl _
  | cons g gs ih =>
    intro i osc ov
    rw [draw_path_loop]
    by_cases hp : panel_contains w (d.GRID_Y g) (d.GRID_X g) = true
    · simp only [hp, if_true]
      have := ih (i + 1) true (draw_path_mark w d ov i (d.GRID_Y g) (d.GRID_X g))
      have hd : (draw_path_mark w d ov i (d.GRID_Y g) (d.GRID_X g)).drawn.length =
          ov.drawn.length + 1 := rfl
      omega
    · simp only [hp, if_false]
      cases osc
      · simp only [Bool.false_eq_true, if_false]
        exact ih (i + 1) false ov
      · simp

/-! ## Helper lemmas: interactive selector -/

/-- The prepared point set is ordered by the distance metric. -/
theorem prepare_pairwise (w : World) (fuel mode : Nat) (res : List loc)
    (h : target_set_interactive_prepare w fuel mode = some res) :
    res.Pairwise (fun a b => distance_metric w a ≤ distance_metric w b) := by
  unfold target_set_interactive_prepare at h
  cases hs : prepare_scan w fuel mode with
  | none => simp [hs] at h
  | some pts =>
    simp only [hs, Option.some.injEq] at h
    subst h
    exact sort_sorted w pts

/-- Clearing one flag of the mode leaves the test of a flag with other bits
unchanged. -/
theorem clear_flag_and (mode g o : Nat) (h : g &&& o = 0) :
    clear_flag mode g &&& o = mode &&& o := by
  unfold clear_flag
  apply Nat.eq_of_testBit_eq
  intro i
  have hi : (g &&& o).testBit i = false := by rw [h]; exact Nat.zero_testBit i
  rw [Nat.testBit_and] at hi
  simp only [Nat.testBit_and, Nat.testBit_xor]
  cases hm : mode.testBit i <;> cases hg : g.testBit i <;> cases ho : o.testBit i <;>
    simp_all

/-- `adjust_panel_help` changes the world in the offsets of the main window
only. -/
theorem adjust_panel_help_world (ui : UI) (fuel : Nat) (w : World) (subs : List sub_window)
    (y x : Int) (help : Bool) (c : Bool) (w1 : World) (subs1 : List sub_window)
    (h : adjust_panel_help ui fuel w subs y x help = some (c, w1, subs1)) :
    ∃ wy wx, w1 = w.scrolled wy wx := by
  unfold adjust_panel_help at h
  simp only at h
  split at h
  · simp at h
  · split at h
    · rename_i ny nx _
      simp only [Option.map_eq_some', Prod.mk.injEq] at h
      obtain ⟨_, _, _, hw, _⟩ := h
      exact ⟨ny, nx, hw.symm⟩
    · simp only [Option.map_eq_some', Prod.mk.injEq] at h
      obtain ⟨_, _, _, hw, _⟩ := h
      exact ⟨w.offset_y, w.offset_x, hw.symm⟩

theorem clear_flag_of_unset (mode g : Nat) (h : mode &&& g = 0) : clear_flag mode g = mode := by
  unfold clear_flag
  rw [h]
  simp

/-- The keys `space`, `*` and `+` in CycleMode advance the index and wrap it. -/
theorem sel_cycle_event_next (ui : UI) (fuel : Nat) (s : SelState) (press : ui_event)
    (hkey : press.is_mouse = false)
    (hc : press.code = keycode.chr ' ' ∨ press.code = keycode.chr '*' ∨
      press.code = keycode.chr '+') :
    sel_cycle_event ui fuel s press =
      some ({ s with m := if s.m + 1 = (s.targets.length : Int) then 0 else s.m + 1 }, 0) := by
  obtain ⟨im, b, mods, mx, my, code⟩ := press
  simp only at hkey hc
  subst hkey
  rcases hc with hc | hc | hc <;> subst hc <;> rfl

/-- The key `-` in CycleMode retreats the index and wraps it. -/
theorem sel_cycle_event_previous (ui : UI) (fuel : Nat) (s : SelState) (press : ui_event)
    (hkey : press.is_mouse = false) (hc : press.code = keycode.chr '-') :
    sel_cycle_event ui fuel s press =
      some ({ s with m := if s.m = 0 then (s.targets.length : Int) - 1 else s.m - 1 }, 0) := by
  obtain ⟨im, b, mods, mx, my, code⟩ := press
  simp only at hkey hc
  subst hkey
  subst hc
  rfl

/-- C1: a failing set operation clears the whole record, whatever the record
held before.  `target_set_monster` with `m_idx <= 0` or a monster that is not
`target_able`, `target_set_object` with `o_idx <= 0` or an object that is not
`target_able_obj`, and `target_set_location` with a cell that is not
`in_bounds_fully` all leave `target_set = FALSE`, `target_who = 0`,
`target_what = 0` and the location `(0, 0)`. -/
theorem failed_set_clears_record (w : World) (fuel : Nat) (t : TargetState) :
    (∀ m_idx : Int, (m_idx ≤ 0 ∨ target_able w m_idx = false) →
      target_set_monster w t m_idx = ⟨false, 0, 0, 0, 0⟩) ∧
    (∀ o_idx : Int, (o_idx ≤ 0 ∨ target_able_obj w fuel o_idx = some false) →
      target_set_object w fuel t o_idx = some ⟨false, 0, 0, 0, 0⟩) ∧
    (∀ y x : Int, in_bounds_fully w y x = false →
      target_set_location w t y x = ⟨false, 0, 0, 0, 0⟩) := by
  refine ⟨?_, ?_, ?_⟩
  · intro m_idx h
    unfold target_set_monster
    rcases h with h | h
    · have : ¬ (0 < m_idx) := by omega
      simp [this]
    · simp [h]
  · intro o_idx h
    unfold target_set_object
    rcases h with h | h
    · have : ¬ (0 < o_idx) := by omega
      simp [this]
    · simp [h]
  · intro y x h
    unfold target_set_location
    simp [h]

/-- Witness of C1: in the sample world, with a valid location target stored,
setting the unseen monster 2, setting the stale object stack 1 and setting the
out-of-bounds cell `(0, 5)` each clear the record. -/
theorem failed_set_clears_record_witness :
    target_able sampleWorld 2 = false ∧
    target_set_monster sampleWorld ⟨true, 0, 0, 7, 7⟩ 2 = ⟨false, 0, 0, 0, 0⟩ ∧
    target_able_obj sampleWorld 3 1 = some false ∧
    target_set_object sampleWorld 3 ⟨true, 0, 0, 7, 7⟩ 1 = some ⟨false, 0, 0, 0, 0⟩ ∧
    in_bounds_fully sampleWorld 0 5 = false ∧
    target_set_location sampleWorld ⟨true, 0, 0, 7, 7⟩ 0 5 = ⟨false, 0, 0, 0, 0⟩ :=
  ⟨by decide,
   (failed_set_clears_record sampleWorld 3 ⟨true, 0, 0, 7, 7⟩).1 2 (Or.inr (by decide)),
   by decide,
   (failed_set_clears_record sampleWorld 3 ⟨true, 0, 0, 7, 7⟩).2.1 1 (Or.inr (by decide)),
   by decide,
   (failed_set_clears_record sampleWorld 3 ⟨true, 0, 0, 7, 7⟩).2.2 0 5 (by decide)⟩

/-- C2: a successful `target_set_monster(idx)` leaves `target_set = TRUE`,
`target_who = idx`, `target_what = 0` and the location of the monster
`(fx, fy)`, so that `target_get_monster()` returns `idx`; a successful
`target_set_object(idx)` leaves `target_set = TRUE`, `target_what = idx`,
`target_who = 0` and the location of the object `(ix, iy)`.  The monster table
has at most 32768 slots and the object table at most 65536, the ranges of the
`s16b` result of `target_get_monster` and of the `u16b` field `target_what`. -/
theorem successful_set_stores_reference (w : World) (fuel : Nat) (t : TargetState)
    (hm : w.m_list.length ≤ 32768) (ho : w.o_list.length ≤ 65536) :
    (∀ idx : Int, 0 < idx → target_able w idx = true →
      target_set_monster w t idx =
        ⟨true, idx, 0, ((w.mon idx.toNat).fx.val : Int), ((w.mon idx.toNat).fy.val : Int)⟩ ∧
      target_get_monster (target_set_monster w t idx) = idx) ∧
    (∀ idx : Int, 0 < idx → target_able_obj w fuel idx = some true →
      target_set_object w fuel t idx =
        some ⟨true, 0, idx, ((w.obj idx.toNat).ix.val : Int), ((w.obj idx.toNat).iy.val : Int)⟩) := by
  refine ⟨?_, ?_⟩
  · intro idx hpos hable
    have hlt := target_able_lt_length w idx hable
    have hr : idx < 32768 := by omega
    have hset : target_set_monster w t idx =
        ⟨true, idx, 0, ((w.mon idx.toNat).fx.val : Int), ((w.mon idx.toNat).fy.val : Int)⟩ := by
      unfold target_set_monster
      simp only [hpos, hable, decide_True, Bool.and_self, if_true, s16b_byte]
      rw [u16b_of_range (le_of_lt hpos) (by omega)]
    refine ⟨hset, ?_⟩
    rw [hset]
    unfold target_get_monster
    exact s16b_of_range (by simp only; omega) hr
  · intro idx hpos hable
    have hlt := target_able_obj_lt_length w fuel idx hable
    unfold target_set_object
    simp only [hpos, hable, if_true, s16b_byte]
    rw [u16b_of_range (le_of_lt hpos) (by omega)]

/-- Witness of C2: in the sample world monster 1 (at `(y, x) = (3, 4)`) and
object 3 (at `(3, 6)`) are targetable and are stored with their cells. -/
theorem successful_set_stores_reference_witness :
    (target_set_monster sampleWorld TargetState.initial 1 = ⟨true, 1, 0, 4, 3⟩ ∧
      target_get_monster (target_set_monster sampleWorld TargetState.initial 1) = 1) ∧
    target_set_object sampleWorld 3 TargetState.initial 3 = some ⟨true, 0, 3, 6, 3⟩ :=
  ⟨(successful_set_stores_reference sampleWorld 3 TargetState.initial
      (by decide) (by decide)).1 1 (by decide) (by decide),
   (successful_set_stores_reference sampleWorld 3 TargetState.initial
      (by decide) (by decide)).2 3 (by decide) (by decide)⟩

/-- C3: `target_set_location(y, x)` succeeds exactly when `in_bounds_fully(y, x)`
holds; for every such cell the record afterwards has `target_set = TRUE`,
`target_who = 0`, `target_what = 0`, and `target_get` then yields `col = x`
and `row = y`.  The map dimensions are header constants within the range of
the `s16b` coordinates. -/
theorem set_location_roundtrip (w : World) (t : TargetState) (y x : Int)
    (hH : w.DUNGEON_HGT ≤ 32768) (hW : w.DUNGEON_WID ≤ 32768) :
    target_is_set (target_set_location w t y x) = in_bounds_fully w y x ∧
    (in_bounds_fully w y x = true →
      target_set_location w t y x = ⟨true, 0, 0, x, y⟩ ∧
      target_get (target_set_location w t y x) = (x, y)) := by
  refine ⟨?_, ?_⟩
  · unfold target_is_set target_set_location
    by_cases h : in_bounds_fully w y x = true
    · simp [h]
    · simp [h]
  · intro h
    have hb := h
    unfold in_bounds_fully at hb
    simp only [Bool.and_eq_true, decide_eq_true_eq] at hb
    obtain ⟨⟨⟨hy0, hy1⟩, hx0⟩, hx1⟩ := hb
    have hsx : s16b x = x := s16b_of_range (by omega) (by omega)
    have hsy : s16b y = y := s16b_of_range (by omega) (by omega)
    have hset : target_set_location w t y x = ⟨true, 0, 0, x, y⟩ := by
      unfold target_set_location
      simp [h, hsx, hsy]
    exact ⟨hset, by rw [hset]; rfl⟩

/-- Witness of C3: in the sample world (a 66 x 198 map) the cell
`(y, x) = (5, 9)` is in bounds, is stored, and is read back. -/
theorem set_location_roundtrip_witness :
    target_is_set (target_set_location sampleWorld TargetState.initial 5 9)
        = in_bounds_fully sampleWorld 5 9 ∧
    (in_bounds_fully sampleWorld 5 9 = true →
      target_set_location sampleWorld TargetState.initial 5 9 = ⟨true, 0, 0, 9, 5⟩ ∧
      target_get (target_set_location sampleWorld TargetState.initial 5 9) = (9, 5)) :=
  set_location_roundtrip sampleWorld TargetState.initial 5 9 (by decide) (by decide)

/-- C5: after `target_set_monster(idx)` has succeeded in world `w` and the
monster has moved (world `w2`, where it is still `target_able`),
`target_okay()` returns TRUE and `target_get` then returns the new cell of
the monster.  More generally, whenever `target_okay()` returns TRUE for a
stored monster target (`target_who > 0`, `target_what = 0`) the cached location
afterwards is the current cell of that monster, and for a stored object target
(`target_what > 0`, `target_who = 0`) it is the current cell of that object.
The monster table has at most 65536 slots, the range of `target_who`. -/
theorem okay_refreshes_location (w w2 : World) (fuel : Nat) (t : TargetState)
    (hm : w.m_list.length ≤ 65536) :
    (∀ idx : Int, 0 < idx → target_able w idx = true → target_able w2 idx = true →
      ∃ t2, target_okay w2 fuel (target_set_monster w t idx) = some (true, t2) ∧
        target_get t2 = (((w2.mon idx.toNat).fx.val : Int), ((w2.mon idx.toNat).fy.val : Int))) ∧
    (∀ t2, target_okay w2 fuel t = some (true, t2) →
      (0 < t.target_who ∧ t.target_what = 0 →
        target_get t2 = (((w2.mon t.target_who.toNat).fx.val : Int),
          ((w2.mon t.target_who.toNat).fy.val : Int))) ∧
      (0 < t.target_what ∧ t.target_who = 0 →
        target_get t2 = (((w2.obj t.target_what.toNat).ix.val : Int),
          ((w2.obj t.target_what.toNat).iy.val : Int)))) := by
  refine ⟨?_, ?_⟩
  · intro idx hpos hable hable2
    have hlt := target_able_lt_length w idx hable
    have hu : u16b idx = idx := u16b_of_range (le_of_lt hpos) (by omega)
    have hne : ¬ (idx = 0) := by omega
    refine ⟨⟨true, idx, 0, ((w2.mon idx.toNat).fx.val : Int),
      ((w2.mon idx.toNat).fy.val : Int)⟩, ?_, rfl⟩
    unfold target_set_monster target_okay
    simp only [hpos, hable, decide_True, Bool.and_self, if_true, hu, Bool.not_true,
      Bool.false_eq_true, if_false, hne, false_and, hable2, and_self, s16b_byte]
  · intro t2 h
    unfold target_okay at h
    split at h
    · simp at h
    · split at h
      · rename_i hloc
        refine ⟨fun hc => ?_, fun hc => ?_⟩
        · have := hc.1; omega
        · have := hc.1; omega
      · split at h
        · rename_i hmon
          simp only [Option.some.injEq, Prod.mk.injEq, true_and] at h
          subst h
          refine ⟨fun _ => by simp [target_get, s16b_byte], fun hc => ?_⟩
          have := hmon.1; have := hc.2; omega
        · rename_i hnomon
          split at h
          · rename_i hobj
            split at h
            · simp at h
            · simp only [Option.some.injEq, Prod.mk.injEq, true_and] at h
              subst h
              refine ⟨fun hc => ?_, fun _ => by simp [target_get, s16b_byte]⟩
              have := hc.2; omega
            · simp at h
          · simp at h

/-- Witness of C5: monster 1 of the sample world is targeted at `(3, 4)`, moves
to `(y, x) = (4, 5)`, and `target_okay` then refreshes the record to that cell. -/
theorem okay_refreshes_location_witness :
    ∃ t2, target_okay sampleWorldMoved 3
        (target_set_monster sampleWorld TargetState.initial 1) = some (true, t2) ∧
      target_get t2 = (5, 4) :=
  (okay_refreshes_location sampleWorld sampleWorldMoved 3 TargetState.initial (by decide)).1 1
    (by decide) (by decide) (by decide)

/-- C6: `target_okay()` does not alter the record when it fails: whenever it
returns FALSE, `target_set`, `target_who`, `target_what` and the stored location
are the same after the call as before it. -/
theorem okay_failure_keeps_record (w : World) (fuel : Nat) (t t2 : TargetState)
    (h : target_okay w fuel t = some (false, t2)) : t2 = t := by
  unfold target_okay at h
  split at h
  · cases h; rfl
  · split at h
    · simp at h
    · split at h
      · simp at h
      · split at h
        · split at h
          · simp at h
          · simp at h
          · cases h; rfl
        · cases h; rfl

/-- Witness of C6: in the sample world a record that tracks the unseen monster
2 fails revalidation and keeps its stale location `(9, 5)`. -/
theorem okay_failure_keeps_record_witness :
    target_okay sampleWorld 3 ⟨true, 2, 0, 9, 5⟩ = some (false, ⟨true, 2, 0, 9, 5⟩) ∧
    (⟨true, 2, 0, 9, 5⟩ : TargetState) = ⟨true, 2, 0, 9, 5⟩ :=
  ⟨by decide, okay_failure_keeps_record sampleWorld 3 ⟨true, 2, 0, 9, 5⟩ ⟨true, 2, 0, 9, 5⟩
    (by decide)⟩

/-! ## Theorems: admissibility predicates -/

/-- C7: `target_able(m_idx)` returns TRUE if and only if `m_idx > 0`, the slot
holds a live monster (`r_idx` non-zero), the monster is visible (`ml`),
`projectable` holds from the player cell to the monster cell, and the player is
not hallucinating.  It is a function of the world alone and returns only the
flag: no state is modified. -/
theorem target_able_iff (w : World) (m_idx : Int) :
    target_able w m_idx = true ↔
      (0 < m_idx ∧ (w.mon m_idx.toNat).r_idx ≠ 0 ∧ (w.mon m_idx.toNat).ml = true ∧
        w.projectable w.py w.px ((w.mon m_idx.toNat).fy.val : Int)
          ((w.mon m_idx.toNat).fx.val : Int) w.PROJECT_NONE = true ∧
        w.timed_image = 0) := by
  unfold target_able
  by_cases h0 : m_idx ≤ 0
  · have : ¬ (0 < m_idx) := by omega
    simp [h0, this]
  · have hp : 0 < m_idx := by omega
    simp only [h0, if_false, hp, true_and]
    by_cases h1 : (w.mon m_idx.toNat).r_idx = 0
    · simp [h1]
    · by_cases h2 : (w.mon m_idx.toNat).ml = true
      · by_cases h3 : w.projectable w.py w.px ((w.mon m_idx.toNat).fy.val : Int)
            ((w.mon m_idx.toNat).fx.val : Int) w.PROJECT_NONE = true
        · by_cases h4 : w.timed_image = 0
          · simp [h1, h2, h3, h4]
          · simp [h1, h2, h3, h4]
        · simp [h1, h2, h3]
      · simp [h1, h2]

/-- C4: in every state of the record reachable from the all-zero record by
calls of `target_set_monster`, `target_set_object`, `target_set_location` and
`target_okay`, at most one of `target_who` and `target_what` is non-zero. -/
theorem reachable_who_or_what_zero (t : TargetState) (h : Reachable t) :
    t.target_who = 0 ∨ t.target_what = 0 := by
  induction h with
  | initial => exact Or.inl rfl
  | set_monster w t m_idx _ _ =>
    unfold target_set_monster
    split <;> simp
  | set_object w fuel t t' o_idx _ hstep _ =>
    unfold target_set_object at hstep
    split at hstep
    · split at hstep
      · exact absurd hstep (by simp)
      · cases hstep; exact Or.inl rfl
      · cases hstep; exact Or.inl rfl
    · cases hstep; exact Or.inl rfl
  | set_location w t y x _ _ =>
    unfold target_set_location
    split <;> simp
  | okay w fuel t t' b _ hstep ih =>
    have hkeep : t'.target_who = t.target_who ∧ t'.target_what = t.target_what :=
      okay_keeps_references w fuel t t' b hstep
    rw [hkeep.1, hkeep.2]
    exact ih

/-- Witness of C4: the record after targeting monster 1 of the sample world and
revalidating it is reachable; it holds `target_who = 1`, `target_what = 0`. -/
theorem reachable_who_or_what_zero_witness :
    Reachable ⟨true, 1, 0, 4, 3⟩ ∧
    ((⟨true, 1, 0, 4, 3⟩ : TargetState).target_who = 0 ∨
      (⟨true, 1, 0, 4, 3⟩ : TargetState).target_what = 0) :=
  have hr : Reachable ⟨true, 1, 0, 4, 3⟩ :=
    Reachable.okay sampleWorld 3 (target_set_monster sampleWorld TargetState.initial 1)
      ⟨true, 1, 0, 4, 3⟩ true
      (Reachable.set_monster sampleWorld TargetState.initial 1 Reachable.initial) (by decide)
  ⟨hr, reachable_who_or_what_zero ⟨true, 1, 0, 4, 3⟩ hr⟩

/-- C9: for every mode and world the sequence returned by
`target_set_interactive_prepare` is ordered by the distance metric to the
player: the metric is non-decreasing across consecutive entries (and across
any two entries).  The function returns a sequence whenever the object scans
it runs finish within the bound.  In the scenario with the actor at `(5, 0)`
and the candidates `(5, 5)`, `(5, 7)`, `(9, 5)` (cells written `(x, y)`) the
returned order is `(5, 5)`, `(9, 5)`, `(5, 7)`. -/
theorem prepare_sorted_by_distance :
    (∀ (w : World) (fuel mode : Nat) (res : List loc),
      target_set_interactive_prepare w fuel mode = some res →
        res.Pairwise (fun a b => distance_metric w a ≤ distance_metric w b) ∧
        res.Chain' (fun a b => distance_metric w a ≤ distance_metric w b)) ∧
    (∀ (w : World) (fuel mode : Nat),
      (∀ y x, target_able_obj w fuel (w.cave_o_idx y x) ≠ none) →
        ∃ res, target_set_interactive_prepare w fuel mode = some res) ∧
    target_set_interactive_prepare scenarioWorld 0 0 = some [⟨5, 5⟩, ⟨9, 5⟩, ⟨5, 7⟩] := by
  refine ⟨?_, ?_, by decide⟩
  · intro w fuel mode res h
    unfold target_set_interactive_prepare at h
    cases hs : prepare_scan w fuel mode with
    | none => simp [hs] at h
    | some pts =>
      simp only [hs, Option.some.injEq] at h
      subst h
      have hp := sort_sorted w pts
      exact ⟨hp, List.Pairwise.chain' hp⟩
  · intro w fuel mode hfuel
    obtain ⟨pts, hpts⟩ := prepare_rows_total w fuel mode (panel_cols w) hfuel (panel_rows w)
    refine ⟨sort (cmp_distance w) pts, ?_⟩
    unfold target_set_interactive_prepare prepare_scan
    rw [hpts]

/-- Witness of C9: the scenario world has no objects, so every object scan
finishes at once; the prepared sequence exists and is ordered. -/
theorem prepare_sorted_by_distance_witness :
    (∃ res, target_set_interactive_prepare scenarioWorld 0 0 = some res) ∧
    ([⟨5, 5⟩, ⟨9, 5⟩, ⟨5, 7⟩] : List loc).Pairwise
      (fun a b => distance_metric scenarioWorld a ≤ distance_metric scenarioWorld b) :=
  ⟨prepare_sorted_by_distance.2.1 scenarioWorld 0 0
     (fun _ _ => (by decide : target_able_obj scenarioWorld 0 0 ≠ none)),
   (prepare_sorted_by_distance.1 scenarioWorld 0 0 [⟨5, 5⟩, ⟨9, 5⟩, ⟨5, 7⟩] (by decide)).1⟩

/-- C10: the candidate sort is stable.  Two candidates with equal distance
metric appear in the result of `target_set_interactive_prepare` in the same
relative order as in the scan of the viewport, which visits rows by increasing
`y` and the cells of a row by increasing `x`. -/
theorem prepare_sort_stable (w : World) (fuel mode : Nat) (res : List loc)
    (h : target_set_interactive_prepare w fuel mode = some res) :
    (∃ pts, prepare_scan w fuel mode = some pts ∧ pts.Pairwise scan_before ∧
      ∀ a b, distance_metric w a = distance_metric w b →
        List.Sublist [a, b] pts → List.Sublist [a, b] res) ∧
    res.Pairwise (fun a b => distance_metric w a = distance_metric w b → scan_before a b) := by
  unfold target_set_interactive_prepare at h
  cases hs : prepare_scan w fuel mode with
  | none => simp [hs] at h
  | some pts =>
    simp only [hs, Option.some.injEq] at h
    subst h
    have hord := prepare_scan_order w fuel mode pts hs
    have key : ∀ (l1 l2 : List loc) (a b : loc),
        distance_metric w a = distance_metric w b →
        (∀ v, l1.filter (fun q => decide (distance_metric w q = v)) =
          l2.filter (fun q => decide (distance_metric w q = v))) →
        List.Sublist [a, b] l1 → List.Sublist [a, b] l2 := by
      intro l1 l2 a b hab hf hsub
      have h1 := List.Sublist.filter (fun q => decide (distance_metric w q = distance_metric w a)) hsub
      have h2 : [a, b].filter (fun q => decide (distance_metric w q = distance_metric w a)) = [a, b] := by
        simp [List.filter_cons, hab]
      rw [h2, hf] at h1
      exact List.Sublist.trans h1 (List.filter_sublist _)
    refine ⟨⟨pts, rfl, hord, ?_⟩, ?_⟩
    · intro a b hab hsub
      exact key pts _ a b hab (fun v => (filter_sort w v pts).symm) hsub
    · rw [List.pairwise_iff_forall_sublist]
      intro a b hsub hab
      have hsub2 := key _ pts a b hab (fun v => filter_sort w v pts) hsub
      exact List.pairwise_iff_forall_sublist.mp hord hsub2

/-- Witness of C10: in the scenario the candidates `(9, 5)` and `(5, 7)` have
the same metric 14; the scan visits `(9, 5)` (row 5) before `(5, 7)` (row 7) and
the result keeps that order. -/
theorem prepare_sort_stable_witness :
    distance_metric scenarioWorld ⟨9, 5⟩ = distance_metric scenarioWorld ⟨5, 7⟩ ∧
    ([⟨5, 5⟩, ⟨9, 5⟩, ⟨5, 7⟩] : List loc).Pairwise
      (fun a b => distance_metric scenarioWorld a = distance_metric scenarioWorld b →
        scan_before a b) :=
  ⟨by decide,
   (prepare_sort_stable scenarioWorld 0 0 [⟨5, 5⟩, ⟨9, 5⟩, ⟨5, 7⟩] (by decide)).2⟩

/-! ## Theorems: distance metric and directional pick -/

/-- C11: for every pair of points and every player position `cmp_distance(a, b)`
returns -1, 0 or 1 according to whether `d(a)` is less than, equal to or greater
than `d(b)`, where `d(p) = 2*max(|p.x-px|, |p.y-py|) + min(|p.x-px|, |p.y-py|)`;
the value `v` that `target_pick` computes from the offset of a candidate to its
origin is the same formula. -/
theorem cmp_distance_compares_metric (w : World) (a b : loc) :
    (distance_metric w a < distance_metric w b → cmp_distance w a b = -1) ∧
    (distance_metric w a = distance_metric w b → cmp_distance w a b = 0) ∧
    (distance_metric w a > distance_metric w b → cmp_distance w a b = 1) ∧
    (∀ (y1 x1 : Int) (p : loc), target_pick_v y1 x1 p =
      2 * max |p.x - x1| |p.y - y1| + min |p.x - x1| |p.y - y1|) := by
  have hval : ∀ p : loc, cmp_distance_value w p = distance_metric w p := by
    intro p
    unfold cmp_distance_value distance_metric
    simp only [ABS_eq_abs, double_distance_eq]
  have hcmp : cmp_distance w a b =
      if cmp_distance_value w a < cmp_distance_value w b then -1
      else if cmp_distance_value w a > cmp_distance_value w b then 1 else 0 := rfl
  rw [hcmp, hval, hval]
  refine ⟨?_, ?_, ?_, ?_⟩
  · intro h
    rw [if_pos h]
  · intro h
    rw [if_neg (by omega), if_neg (by omega)]
  · intro h
    rw [if_neg (by omega), if_pos h]
  · intro y1 x1 p
    exact target_pick_v_eq y1 x1 p

/-- Witness of C11: in the scenario world (actor at `(x, y) = (5, 0)`) the point
`(5, 5)` has metric 10 and `(5, 7)` has metric 14, and `cmp_distance` returns
-1 for them, 1 for the swapped pair, and 0 for `(9, 5)` against `(5, 7)`. -/
theorem cmp_distance_compares_metric_witness :
    cmp_distance scenarioWorld ⟨5, 5⟩ ⟨5, 7⟩ = -1 ∧
    cmp_distance scenarioWorld ⟨9, 5⟩ ⟨5, 7⟩ = 0 ∧
    cmp_distance scenarioWorld ⟨5, 7⟩ ⟨5, 5⟩ = 1 :=
  ⟨(cmp_distance_compares_metric scenarioWorld ⟨5, 5⟩ ⟨5, 7⟩).1 (by decide),
   (cmp_distance_compares_metric scenarioWorld ⟨9, 5⟩ ⟨5, 7⟩).2.1 (by decide),
   (cmp_distance_compares_metric scenarioWorld ⟨5, 7⟩ ⟨5, 5⟩).2.2.1 (by decide)⟩

/-- C12, counterexample: with the actor at `(5, 0)` the code computes the metric
14 for the candidate `(9, 5)`, not 13: the offsets are 4 and 5, and
`2*5 + 4 = 14`.  `cmp_distance` accordingly ranks `(9, 5)` and `(5, 7)` as
equal.  The value is 14 whether the pairs are read as `(x, y)` or as `(y, x)`. -/
theorem scenario_metric_counterexample :
    cmp_distance_value scenarioWorld ⟨9, 5⟩ = 14 ∧
    cmp_distance_value scenarioWorld ⟨9, 5⟩ ≠ 13 ∧
    cmp_distance scenarioWorld ⟨9, 5⟩ ⟨5, 7⟩ = 0 ∧
    cmp_distance_value { scenarioWorld with py := 5, px := 0 } ⟨5, 9⟩ = 14 := by
  decide

/-- C12, amended: with the actor at `(5, 0)` the distance metric computed by
the code for the candidates `(5, 5)`, `(5, 7)` and `(9, 5)` is 10, 14 and 14
respectively; it equals the metric of the specification
`2*max(|dx|,|dy|) + min(|dx|,|dy|)` at these points. -/
theorem scenario_metric_values :
    cmp_distance_value scenarioWorld ⟨5, 5⟩ = 10 ∧
    cmp_distance_value scenarioWorld ⟨5, 7⟩ = 14 ∧
    cmp_distance_value scenarioWorld ⟨9, 5⟩ = 14 ∧
    distance_metric scenarioWorld ⟨5, 5⟩ = 10 ∧
    distance_metric scenarioWorld ⟨5, 7⟩ = 14 ∧
    distance_metric scenarioWorld ⟨9, 5⟩ = 14 := by
  decide

/-- C13: for every origin and candidate list, `target_pick` with the direction
`(dy = 0, dx = +1)` never returns the index of a candidate whose offset from
the origin has `|Δy| > |Δx|`, and with `(dx = 0, dy != 0)` it never returns a
candidate with `|Δx| > |Δy|`.  The point set holds at most 32768 candidates,
the range of the `s16b` result. -/
theorem target_pick_respects_arc (y1 x1 : Int) (targets : List loc)
    (hsize : targets.length ≤ 32768) :
    (∀ (n : Nat) (p : loc), target_pick y1 x1 0 1 targets = (n : Int) →
      targets[n]? = some p → ¬ (|p.y - y1| > |p.x - x1|)) ∧
    (∀ (dy : Int) (n : Nat) (p : loc), dy ≠ 0 → target_pick y1 x1 dy 0 targets = (n : Int) →
      targets[n]? = some p → ¬ (|p.x - x1| > |p.y - y1|)) := by
  refine ⟨?_, ?_⟩
  · intro n p hr hget
    have href := target_pick_reference y1 x1 0 1 targets hsize
    rw [hr] at href
    rcases href with ⟨hneg, _⟩ | ⟨n2, p2, hn2, hget2, hadm, _, _⟩
    · omega
    · have hnn : n2 = n := by omega
      subst hnn
      rw [hget] at hget2
      cases hget2
      have := hadm.2.2.1 ⟨by decide, rfl⟩
      omega
  · intro dy n p hdy hr hget
    have href := target_pick_reference y1 x1 dy 0 targets hsize
    rw [hr] at href
    rcases href with ⟨hneg, _⟩ | ⟨n2, p2, hn2, hget2, hadm, _, _⟩
    · omega
    · have hnn : n2 = n := by omega
      subst hnn
      rw [hget] at hget2
      cases hget2
      have := hadm.2.2.2 ⟨hdy, rfl⟩
      omega

/-- Witness of C13: from the origin `(y, x) = (5, 5)`, moving east among the
candidates `(5, 5)`, `(7, 5)`, `(6, 9)`, `(6, 5)`, `(4, 5)` (written `(x, y)`)
picks index 3, the cell `(6, 5)`; the nearer-by-row cell `(6, 9)` lies outside
the arc. -/
theorem target_pick_respects_arc_witness :
    target_pick 5 5 0 1 [⟨5, 5⟩, ⟨7, 5⟩, ⟨6, 9⟩, ⟨6, 5⟩, ⟨4, 5⟩] = 3 ∧
    ¬ (|(⟨6, 5⟩ : loc).y - 5| > |(⟨6, 5⟩ : loc).x - 5|) :=
  ⟨by decide,
   (target_pick_respects_arc 5 5 [⟨5, 5⟩, ⟨7, 5⟩, ⟨6, 9⟩, ⟨6, 5⟩, ⟨4, 5⟩] (by decide)).1 3 ⟨6, 5⟩
     (by decide) (by decide)⟩

/-- C14: `target_pick(y1, x1, dy, dx, targets)` equals the reference definition.
A candidate is admitted when along each non-zero component of `(dy, dx)` its
offset from `(y1, x1)` is non-zero with the same sign and, for a purely
horizontal or vertical direction, the arc rule holds.  The result is -1 if and
only if no candidate is admitted; otherwise it is the smallest index among the
admitted candidates of minimal metric `2*max(|Δx|,|Δy|) + min(|Δx|,|Δy|)`, and
it lies in `[0, size)`.  The point set holds at most 32768 candidates. -/
theorem target_pick_equals_reference (y1 x1 dy dx : Int) (targets : List loc)
    (hsize : targets.length ≤ 32768) :
    pick_reference y1 x1 dy dx targets (target_pick y1 x1 dy dx targets) ∧
    (∀ r : Int, pick_reference y1 x1 dy dx targets r → r = target_pick y1 x1 dy dx targets) ∧
    (target_pick y1 x1 dy dx targets = -1 ↔ ∀ p ∈ targets, ¬ pick_admitted y1 x1 dy dx p) ∧
    (target_pick y1 x1 dy dx targets ≠ -1 →
      0 ≤ target_pick y1 x1 dy dx targets ∧
      target_pick y1 x1 dy dx targets < (targets.length : Int)) := by
  have href := target_pick_reference y1 x1 dy dx targets hsize
  refine ⟨href, ?_, ?_, ?_⟩
  · intro r hr
    exact pick_reference_unique y1 x1 dy dx targets r _ hr href
  · constructor
    · intro hneg
      rcases href with ⟨_, hnone⟩ | ⟨n, _, hn, _, _, _, _⟩
      · exact hnone
      · omega
    · intro hnone
      rcases href with ⟨hneg, _⟩ | ⟨n, p, _, hget, hadm, _, _⟩
      · exact hneg
      · exact absurd hadm (hnone p (List.getElem?_mem hget))
  · intro hne
    rcases href with ⟨hneg, _⟩ | ⟨n, p, hn, hget, _, _, _⟩
    · exact absurd hneg hne
    · obtain ⟨hlt, _⟩ := List.getElem?_eq_some.mp hget
      omega

/-- Witness of C14: from the origin `(5, 5)` moving east, index 3 is the pick
among five candidates, and no candidate is admitted west of the leftmost one. -/
theorem target_pick_equals_reference_witness :
    pick_reference 5 5 0 1 [⟨5, 5⟩, ⟨7, 5⟩, ⟨6, 9⟩, ⟨6, 5⟩, ⟨4, 5⟩]
      (target_pick 5 5 0 1 [⟨5, 5⟩, ⟨7, 5⟩, ⟨6, 9⟩, ⟨6, 5⟩, ⟨4, 5⟩]) ∧
    target_pick 5 5 0 1 [⟨5, 5⟩, ⟨7, 5⟩, ⟨6, 9⟩, ⟨6, 5⟩, ⟨4, 5⟩] = 3 ∧
    target_pick 5 5 0 1 [⟨5, 5⟩, ⟨4, 5⟩] = -1 :=
  ⟨(target_pick_equals_reference 5 5 0 1 [⟨5, 5⟩, ⟨7, 5⟩, ⟨6, 9⟩, ⟨6, 5⟩, ⟨4, 5⟩]
      (by decide)).1,
   by decide, by decide⟩

/-! ## Helper lemmas: straight paths -/

/-- Along a list whose entries are ordered by `R`, an earlier entry is related
to a later one. -/
theorem pairwise_getElem? {α : Type} (R : α → α → Prop) (l : List α) (h : l.Pairwise R)
    (i j : Nat) (a b : α) (hij : i < j) (hi : l[i]? = some a) (hj : l[j]? = some b) :
    R a b := by
  obtain ⟨hi1, hi2⟩ := List.getElem?_eq_some.mp hi
  obtain ⟨hj1, hj2⟩ := List.getElem?_eq_some.mp hj
  rw [← hi2, ← hj2]
  exact List.pairwise_iff_getElem.mp h i j hi1 hj1 hij

/-- A coordinate that never turns back lies, at a step between two others,
between their coordinates. -/
theorem between_of_pairwise (f : Int × Int → Int) (l : List (Int × Int))
    (h : l.Pairwise (fun p q => f p ≤ f q) ∨ l.Pairwise (fun p q => f q ≤ f p))
    (i j k : Nat) (a b c : Int × Int) (hij : i < j) (hjk : j < k)
    (hi : l[i]? = some a) (hj : l[j]? = some b) (hk : l[k]? = some c) :
    (f a ≤ f b ∧ f b ≤ f c) ∨ (f c ≤ f b ∧ f b ≤ f a) := by
  rcases h with h | h
  · exact Or.inl ⟨pairwise_getElem? _ l h i j a b hij hi hj,
      pairwise_getElem? _ l h j k b c hjk hj hk⟩
  · exact Or.inr ⟨pairwise_getElem? _ l h j k b c hjk hj hk,
      pairwise_getElem? _ l h i j a b hij hi hj⟩

/-- The on-screen flags of a path are those of its cells. -/
theorem path_flags_cells (w : World) (d : Display) (path_g : List Int) (y1 x1 : Int) :
    path_flags w d path_g y1 x1 =
      ((y1, x1) :: path_cells d path_g).map (fun c => panel_contains w c.1 c.2) := by
  simp [path_flags, path_cells, List.map_map, Function.comp_def]

/-- The on-screen cells of a straight path, taken with the start cell, form one
contiguous run: the viewport is a rectangle. -/
theorem straight_one_run (w : World) (d : Display) (path_g : List Int) (y1 x1 : Int)
    (hst : straight_path d path_g y1 x1) : one_run (path_flags w d path_g y1 x1) := by
  obtain ⟨hy, hx, _⟩ := hst
  rw [path_flags_cells]
  intro i j k hij hjk hi hk
  rw [List.getElem?_map] at hi hk ⊢
  cases hci : ((y1, x1) :: path_cells d path_g)[i]? with
  | none => rw [hci] at hi; simp at hi
  | some a =>
    cases hck : ((y1, x1) :: path_cells d path_g)[k]? with
    | none => rw [hck] at hk; simp at hk
    | some c =>
      have hklen := (List.getElem?_eq_some.mp hck).1
      have hjlen : j < ((y1, x1) :: path_cells d path_g).length := by omega
      have hcj : ((y1, x1) :: path_cells d path_g)[j]? =
          some (((y1, x1) :: path_cells d path_g)[j]) := List.getElem?_eq_getElem hjlen
      rw [hci] at hi
      rw [hck] at hk
      rw [hcj]
      simp only [Option.map_some', Option.some.injEq] at hi hk ⊢
      have by1 := between_of_pairwise (fun p => p.1) _ hy i j k a _ c hij hjk hci hcj hck
      have bx1 := between_of_pairwise (fun p => p.2) _ hx i j k a _ c hij hjk hci hcj hck
      unfold panel_contains at hi hk ⊢
      simp only [Bool.and_eq_true, decide_eq_true_eq] at hi hk ⊢
      dsimp only at by1 bx1
      omega

/-- C15: for every straight path (the paths `draw_path` is written for), every
viewport and all screen contents, running `draw_path` and then `load_path` on
the same path and buffers leaves every on-screen path step showing exactly the
`(colour, glyph)` pair it showed before `draw_path` was called. -/
theorem draw_then_load_restores (w : World) (d : Display) (path_g : List Int) (ov : Overlay)
    (y1 x1 : Int) (hst : straight_path d path_g y1 x1) :
    ∀ g ∈ path_g, panel_contains w (d.GRID_Y g) (d.GRID_X g) = true →
      (load_path w d path_g (draw_path w d path_g ov y1 x1).2).scr (d.GRID_Y g) (d.GRID_X g) =
        ov.scr (d.GRID_Y g) (d.GRID_X g) := by
  intro g hg hon
  have hnd : (path_cells d path_g).Nodup := (List.nodup_cons.mp hst.2.2).2
  have hrun := straight_one_run w d path_g y1 x1 hst
  obtain ⟨k, hk⟩ := List.mem_iff_getElem?.mp hg
  have hlen : ¬ (path_g.length < 1) := by
    have := (List.getElem?_eq_some.mp hk).1
    omega
  unfold load_path draw_path
  rw [if_neg hlen]
  rw [load_path_loop_restores w d path_g 0 _ hnd k g hk hon]
  exact draw_path_loop_saved w d path_g 0 _ ov hnd hrun k g hk hon

/-- Witness of C15: in the sample world (viewport rows 0-7, columns 0-11) the
path from `(1, 9)` to the east, `(1, 10)`, `(1, 11)`, `(1, 12)`, `(1, 13)`,
leaves the screen after its second step; after `draw_path` and `load_path` the
cell `(1, 11)` shows the white `.` it showed before, while `draw_path` alone
left a marker on it. -/
theorem draw_then_load_restores_witness :
    (draw_path sampleWorld sampleDisplay [266, 267, 268, 269] sampleOverlay 1 9).2.scr 1 11 =
      (1, 42) ∧
    (load_path sampleWorld sampleDisplay [266, 267, 268, 269]
      (draw_path sampleWorld sampleDisplay [266, 267, 268, 269] sampleOverlay 1 9).2).scr
        (sampleDisplay.GRID_Y 267) (sampleDisplay.GRID_X 267) = (1, 46) :=
  ⟨by decide,
   draw_then_load_restores sampleWorld sampleDisplay [266, 267, 268, 269] sampleOverlay 1 9
    (by unfold straight_path; decide) 267 (by decide) (by decide)⟩

/-- C16, counterexample: with the start cell `(1, 20)` off screen, the path
`(1, 20)`, `(1, 2)` makes `draw_path` return 2 although a marker is drawn on
one step only (step 1), and the path `(1, 20)` makes it return 1 although no
marker is drawn. -/
theorem draw_path_return_counterexample :
    (draw_path sampleWorld sampleDisplay [276, 258] sampleOverlay 1 20).1 = 2 ∧
    (draw_path sampleWorld sampleDisplay [276, 258] sampleOverlay 1 20).2.drawn = [1] ∧
    (draw_path sampleWorld sampleDisplay [276] sampleOverlay 1 20).1 = 1 ∧
    (draw_path sampleWorld sampleDisplay [276] sampleOverlay 1 20).2.drawn = [] := by
  decide

/-- C16, amended: the value returned by `draw_path` is the index at which its
scan of the path stops: the number of leading off-screen steps it skipped (none
when the start cell is on screen) plus the number of path steps on which a
marker was drawn.  In particular, when it returns 0 no marker was drawn. -/
theorem draw_path_return_value (w : World) (d : Display) (path_g : List Int) (ov : Overlay)
    (y1 x1 : Int) :
    (draw_path w d path_g ov y1 x1).1 + ov.drawn.length =
      (if panel_contains w y1 x1 = true then 0
        else (path_g.takeWhile
          (fun g => !panel_contains w (d.GRID_Y g) (d.GRID_X g))).length) +
        (draw_path w d path_g ov y1 x1).2.drawn.length ∧
    ((draw_path w d path_g ov y1 x1).1 = 0 →
      (draw_path w d path_g ov y1 x1).2.drawn.length = ov.drawn.length) := by
  have key : (draw_path w d path_g ov y1 x1).1 + ov.drawn.length =
      (if panel_contains w y1 x1 = true then 0
        else (path_g.takeWhile
          (fun g => !panel_contains w (d.GRID_Y g) (d.GRID_X g))).length) +
        (draw_path w d path_g ov y1 x1).2.drawn.length := by
    unfold draw_path
    by_cases hlen : path_g.length < 1
    · have hnil : path_g = [] := List.length_eq_zero.mp (by omega)
      subst hnil
      simp
    · rw [if_neg hlen]
      have := draw_path_loop_count w d path_g 0 (panel_contains w y1 x1) ov
      omega
  refine ⟨key, ?_⟩
  intro h0
  rw [h0] at key
  have hle : ov.drawn.length ≤ (draw_path w d path_g ov y1 x1).2.drawn.length := by
    unfold draw_path
    split
    · exact le_refl _
    · exact draw_path_loop_drawn_le w d path_g 0 _ ov
  omega

/-- Witness of C16 (amended): in the sample world, with the start cell `(3, 3)`
on screen, the path `(1, 1)`, `(1, 2)`, `(1, 20)` makes `draw_path` return 2,
the number of markers drawn; with the start cell on screen and the first step
`(1, 20)` off screen it returns 0 and draws nothing. -/
theorem draw_path_return_value_witness :
    (draw_path sampleWorld sampleDisplay [257, 258, 276] sampleOverlay 3 3).1 = 2 ∧
    (draw_path sampleWorld sampleDisplay [257, 258, 276] sampleOverlay 3 3).2.drawn.length = 2 ∧
    (draw_path sampleWorld sampleDisplay [276, 258] sampleOverlay 3 3).2.drawn.length
      = sampleOverlay.drawn.length :=
  ⟨by decide, by decide,
   (draw_path_return_value sampleWorld sampleDisplay [276, 258] sampleOverlay 3 3).2
     (by decide)⟩

/-! ## Theorems: interactive selector -/

/-- C17, counterexample: in the sample world, entering the selector with the
grid-pick flag `TARGET_GRID` and no start cell gives a non-empty candidate set
and yet a first iteration in FreeMode; entering it in object-restricted mode
with the explicit start cell `(5, 5)` gives a first iteration in the failure
branch, not in FreeMode. -/
theorem selector_entry_counterexample :
    (sel_enter sampleUI 20 sampleWorld [] TargetState.initial 8 (-1) (-1)).map
      (fun s => (s.targets, sel_branch s)) = some ([⟨3, 3⟩, ⟨4, 3⟩], SelBranch.free) ∧
    (sel_enter sampleUI 20 sampleWorld [] TargetState.initial 32 5 5).map
      (fun s => sel_branch s) = some SelBranch.failure := by
  decide

/-- C17, amended: at entry to `target_set_interactive` the index is 0 and the
cursor is the start cell when one is given (`x != -1` and `y != -1`) and the
cell of the actor otherwise.  If a start cell is given or the mode has
`TARGET_GRID`, the first iteration is not in CycleMode: it is in FreeMode at
the cursor, unless the mode has `TARGET_OBJ`, in which case it is the failure
branch.  Otherwise, if the candidate set is non-empty the first iteration is
in CycleMode at index 0, whose candidate is nearest to the actor, and if it is
empty the first iteration is in FreeMode on the cell of the actor, unless the
mode has `TARGET_OBJ`, in which case it is the failure branch. -/
theorem selector_entry (ui : UI) (fuel : Nat) (w : World) (subs : List sub_window)
    (t : TargetState) (mode : Nat) (x y : Int) (s0 : SelState)
    (h : sel_enter ui fuel w subs t mode x y = some s0) :
    s0.m = 0 ∧ s0.done = false ∧
    (x ≠ -1 ∧ y ≠ -1 → s0.x = x ∧ s0.y = y) ∧
    (¬ (x ≠ -1 ∧ y ≠ -1) → s0.x = w.px ∧ s0.y = w.py) ∧
    ((x ≠ -1 ∧ y ≠ -1) ∨ mode &&& ui.TARGET_GRID ≠ 0 →
      sel_branch s0 =
        if s0.mode &&& w.TARGET_OBJ ≠ 0 then SelBranch.failure else SelBranch.free) ∧
    (¬ (x ≠ -1 ∧ y ≠ -1) → mode &&& ui.TARGET_GRID = 0 → s0.targets ≠ [] →
      sel_branch s0 = SelBranch.cycle ∧
      ∃ p, s0.targets[0]? = some p ∧
        ∀ q ∈ s0.targets, distance_metric w p ≤ distance_metric w q) ∧
    (¬ (x ≠ -1 ∧ y ≠ -1) → mode &&& ui.TARGET_GRID = 0 → s0.targets = [] →
      sel_branch s0 =
        if s0.mode &&& w.TARGET_OBJ ≠ 0 then SelBranch.failure else SelBranch.free) := by
  unfold sel_enter at h
  dsimp only at h
  cases hprep : target_set_interactive_prepare w fuel
      (if mode &&& ui.TARGET_GRID ≠ 0 then clear_flag mode ui.TARGET_GRID else mode) with
  | none => rw [hprep] at h; exact absurd h (by simp)
  | some targets =>
    rw [hprep] at h
    have hs := (Option.some.inj h).symm
    have hm0 : s0.m = 0 := by rw [hs]
    have hdone : s0.done = false := by rw [hs]
    have hw : s0.w = w := by rw [hs]
    have hx : s0.x = if (decide (x = -1) || decide (y = -1)) = true then w.px else x := by
      rw [hs]
    have hy : s0.y = if (decide (x = -1) || decide (y = -1)) = true then w.py else y := by
      rw [hs]
    have hflag : s0.flag = if mode &&& ui.TARGET_GRID ≠ 0 then false
        else (decide (x = -1) || decide (y = -1)) := by rw [hs]
    have htargets : s0.targets = targets := by rw [hs]
    have hbranch : sel_branch s0 =
        if s0.flag = true ∧ s0.targets.length ≠ 0 then SelBranch.cycle
        else if s0.mode &&& w.TARGET_OBJ ≠ 0 then SelBranch.failure else SelBranch.free := by
      unfold sel_branch
      rw [hw]
    have hstart : ¬ (x ≠ -1 ∧ y ≠ -1) → (decide (x = -1) || decide (y = -1)) = true := by
      intro hxy
      have hor : x = -1 ∨ y = -1 := by
        by_contra hc
        push_neg at hc
        exact hxy hc
      rcases hor with h1 | h1 <;> simp [h1]
    refine ⟨hm0, hdone, ?_, ?_, ?_, ?_, ?_⟩
    · intro hxy
      rw [hx, hy]
      simp [hxy.1, hxy.2]
    · intro hxy
      rw [hx, hy, hstart hxy]
      simp
    · intro hcase
      have hf : s0.flag = false := by
        rw [hflag]
        rcases hcase with hxy | hg
        · simp [hxy.1, hxy.2]
        · simp [hg]
      rw [hbranch, hf]
      simp
    · intro hxy hg hne
      have hf : s0.flag = true := by
        rw [hflag, hstart hxy]
        simp [hg]
      have hlen : s0.targets.length ≠ 0 := by
        intro hl
        exact hne (List.length_eq_zero.mp hl)
      refine ⟨by rw [hbranch, hf]; simp [hlen], ?_⟩
      have hsorted := prepare_pairwise w fuel _ targets hprep
      rw [htargets] at hne ⊢
      cases targets with
      | nil => exact absurd rfl hne
      | cons p rest =>
        refine ⟨p, by simp, ?_⟩
        intro q hq
        rcases List.mem_cons.mp hq with hq | hq
        · rw [hq]
        · exact (List.pairwise_cons.mp hsorted).1 q hq
    · intro _ _ hnil
      rw [hbranch, hnil]
      simp

/-- Witness of C17 (amended): in the sample world, monster-restricted mode
without a start cell finds the visible monster at `(x, y) = (4, 3)` and starts
in CycleMode at index 0. -/
theorem selector_entry_witness :
    ∃ s0, sel_enter sampleUI 20 sampleWorld [] TargetState.initial 1 (-1) (-1) = some s0 ∧
      s0.m = 0 ∧ sel_branch s0 = SelBranch.cycle := by
  have hsome : (sel_enter sampleUI 20 sampleWorld [] TargetState.initial 1 (-1) (-1)).isSome
      = true := by decide
  obtain ⟨s0, hs⟩ := Option.isSome_iff_exists.mp hsome
  have hall := selector_entry sampleUI 20 sampleWorld [] TargetState.initial 1 (-1) (-1) s0 hs
  have ht : (sel_enter sampleUI 20 sampleWorld [] TargetState.initial 1 (-1) (-1)).map
      (fun s => s.targets) = some [⟨4, 3⟩] := by decide
  rw [hs] at ht
  simp only [Option.map_some', Option.some.injEq] at ht
  have hne : s0.targets ≠ [] := by rw [ht]; simp
  exact ⟨s0, hs, hall.1, (hall.2.2.2.2.2.1 (by decide) (by decide) hne).1⟩

/-- C18: in CycleMode with `n >= 1` candidates and the index `m` in `[0, n)`, a
next event (`space`, `*`, `+`) sets the index to `(m + 1) mod n` and a previous
event (`-`) sets it to `(m + n - 1) mod n`; nothing else of the selection
changes.  The iteration is one whose panel adjustment and help update return. -/
theorem cycle_next_previous_wrap (ui : UI) (fuel : Nat) (s : SelState) (press : ui_event)
    (pt : loc) (changed : Bool) (w1 : World) (subs1 : List sub_window)
    (hm : 0 ≤ s.m) (hpt : s.targets[s.m.toNat]? = some pt)
    (hadj : adjust_panel_help ui fuel s.w s.subs pt.y pt.x s.help = some (changed, w1, subs1))
    (hhelp : sel_help_check fuel { s with y := pt.y, x := pt.x, w := w1, subs := subs1 }
      = some ())
    (hkey : press.is_mouse = false) :
    (press.code = keycode.chr ' ' ∨ press.code = keycode.chr '*' ∨
        press.code = keycode.chr '+' →
      sel_cycle ui fuel s press =
        some { s with y := pt.y, x := pt.x, w := w1, subs := subs1,
                      m := (s.m + 1) % (s.targets.length : Int) }) ∧
    (press.code = keycode.chr '-' →
      sel_cycle ui fuel s press =
        some { s with y := pt.y, x := pt.x, w := w1, subs := subs1,
                      m := (s.m + (s.targets.length : Int) - 1) % (s.targets.length : Int) }) := by
  have hlt : s.m.toNat < s.targets.length := (List.getElem?_eq_some.mp hpt).1
  have hmn : s.m < (s.targets.length : Int) := by omega
  have hnext : (if s.m + 1 = (s.targets.length : Int) then 0 else s.m + 1) =
      (s.m + 1) % (s.targets.length : Int) := by
    split
    · rename_i he
      rw [he, Int.emod_self]
    · rename_i he
      rw [Int.emod_eq_of_lt (by omega) (by omega)]
  have hprev : (if s.m = 0 then (s.targets.length : Int) - 1 else s.m - 1) =
      (s.m + (s.targets.length : Int) - 1) % (s.targets.length : Int) := by
    split
    · rename_i he
      rw [he, Int.emod_eq_of_lt (by omega) (by omega)]
      ring
    · rename_i he
      have : s.m + (s.targets.length : Int) - 1 = (s.m - 1) + (s.targets.length : Int) := by ring
      rw [this, Int.add_emod_self, Int.emod_eq_of_lt (by omega) (by omega)]
  refine ⟨?_, ?_⟩
  · intro hcode
    unfold sel_cycle
    rw [if_pos hm, hpt]
    dsimp only
    rw [hadj]
    dsimp only
    rw [hhelp]
    dsimp only
    rw [sel_cycle_event_next ui fuel _ press hkey hcode]
    dsimp only
    rw [if_neg (by decide), hnext]
  · intro hcode
    unfold sel_cycle
    rw [if_pos hm, hpt]
    dsimp only
    rw [hadj]
    dsimp only
    rw [hhelp]
    dsimp only
    rw [sel_cycle_event_previous ui fuel _ press hkey hcode]
    dsimp only
    rw [if_neg (by decide), hprev]

/-- Witness of C18: with 3 candidates and the index 2, a next event yields the
index 0; with the index 0, a previous event yields the index 2. -/
theorem cycle_next_previous_wrap_witness :
    (sel_cycle sampleUI 20 sampleCycleState (key_press '+')).map (fun s => s.m) = some 0 ∧
    (sel_cycle sampleUI 20 { sampleCycleState with m := 0 } (key_press '-')).map
      (fun s => s.m) = some 2 :=
  ⟨by
      rw [(cycle_next_previous_wrap sampleUI 20 sampleCycleState (key_press '+') ⟨9, 5⟩ false
        sampleWorld [] (by decide) (by decide) rfl (by decide) rfl).1
        (Or.inr (Or.inr rfl))]
      rfl,
   by
      rw [(cycle_next_previous_wrap sampleUI 20 { sampleCycleState with m := 0 } (key_press '-')
        ⟨4, 3⟩ false sampleWorld [] (by decide) (by decide) rfl (by decide) rfl).2 rfl]
      rfl⟩

/-- C20: when `target_set_interactive` is invoked in object-restricted mode and
the candidate set is empty, the loop takes the failure branch on its first
iteration and ends without reading any input event, the failure message is
reported exactly once, the target record is clear, and the function returns
FALSE.  The flags `TARGET_GRID` and `TARGET_OBJ` are distinct bits. -/
theorem object_mode_empty_fails (ui : UI) (fuel : Nat) (w : World) (subs : List sub_window)
    (t : TargetState) (mode : Nat) (x y : Int) (events : List ui_event)
    (hbits : ui.TARGET_GRID &&& w.TARGET_OBJ = 0) (hobj : mode &&& w.TARGET_OBJ ≠ 0)
    (hempty : target_set_interactive_prepare w fuel (clear_flag mode ui.TARGET_GRID) = some []) :
    ∃ r, target_set_interactive ui fuel w subs t mode x y events = some r ∧
      r.ret = false ∧ r.reports = 1 ∧ r.unread = events ∧
      r.final.t = ⟨false, 0, 0, 0, 0⟩ ∧ r.final.failure_message = true ∧
      ∃ s0, sel_enter ui fuel w subs t mode x y = some s0 ∧
        sel_branch s0 = SelBranch.failure ∧
        sel_loop ui fuel s0 events = some (sel_failure s0, events) := by
  have hmode : (if mode &&& ui.TARGET_GRID ≠ 0 then clear_flag mode ui.TARGET_GRID else mode)
      = clear_flag mode ui.TARGET_GRID := by
    split
    · rfl
    · rename_i hg
      exact (clear_flag_of_unset mode ui.TARGET_GRID (not_not.mp hg)).symm
  have hobj1 : clear_flag mode ui.TARGET_GRID &&& w.TARGET_OBJ ≠ 0 := by
    rw [clear_flag_and mode ui.TARGET_GRID w.TARGET_OBJ hbits]
    exact hobj
  have hcl : target_set_monster w t 0 = ⟨false, 0, 0, 0, 0⟩ := by
    unfold target_set_monster
    simp
  obtain ⟨s0, hs0, hs0t, hs0targets, hs0mode, hs0w, hs0done, hs0fm⟩ :
      ∃ s0, sel_enter ui fuel w subs t mode x y = some s0 ∧ s0.t = ⟨false, 0, 0, 0, 0⟩ ∧
        s0.targets = [] ∧ s0.mode = clear_flag mode ui.TARGET_GRID ∧ s0.w = w ∧
        s0.done = false ∧ s0.failure_message = false := by
    unfold sel_enter
    dsimp only
    rw [hmode, hempty]
    exact ⟨_, rfl, hcl, rfl, rfl, rfl, rfl, rfl⟩
  have hbranch : sel_branch s0 = SelBranch.failure := by
    unfold sel_branch
    rw [hs0targets, hs0mode, hs0w]
    simp [hobj1]
  have hloop : sel_loop ui fuel s0 events = some (sel_failure s0, events) := by
    cases events with
    | nil =>
      unfold sel_loop
      simp [hs0done, hbranch]
    | cons e es =>
      unfold sel_loop
      simp [hs0done, hbranch]
  have hres : target_set_interactive ui fuel w subs t mode x y events =
      some ⟨false, { sel_failure s0 with
        w := (sel_failure s0).w.scrolled (ui.verify_panel (sel_failure s0).w).1
          (ui.verify_panel (sel_failure s0).w).2 }, 1, events⟩ := by
    unfold target_set_interactive
    rw [hs0]
    dsimp only
    rw [hloop]
    dsimp only
    have hts : (sel_failure s0).t.target_set = false := by
      show s0.t.target_set = false
      rw [hs0t]
    rw [hts]
    rfl
  exact ⟨_, hres, rfl, rfl, rfl, hs0t, rfl, s0, hs0, hbranch, hloop⟩

/-- Witness of C20: in the scenario world, which holds no objects, invoking the
selector in object-restricted mode over a valid prior target returns FALSE,
reports the failure once, reads none of the events and leaves the record
clear. -/
theorem object_mode_empty_fails_witness :
    ∃ r, target_set_interactive sampleUI 20 scenarioWorld [] ⟨true, 0, 0, 7, 7⟩ 32 (-1) (-1)
        [key_press 't'] = some r ∧
      r.ret = false ∧ r.reports = 1 ∧ r.unread = [key_press 't'] ∧
      r.final.t = ⟨false, 0, 0, 0, 0⟩ :=
  match object_mode_empty_fails sampleUI 20 scenarioWorld [] ⟨true, 0, 0, 7, 7⟩ 32 (-1) (-1)
      [key_press 't'] (by decide) (by decide) (by decide) with
  | ⟨r, h1, h2, h3, h4, h5, _⟩ => ⟨r, h1, h2, h3, h4, h5⟩

/-! ## Helper lemmas: membership in the candidate set -/

theorem mem_sort (cmp : loc → loc → Int) (q : loc) (l : List loc) :
    q ∈ sort cmp l ↔ q ∈ l := by
  induction l with
  | nil => simp [sort]
  | cons p ps ih =>
    show q ∈ sort_insert cmp p (sort cmp ps) ↔ _
    rw [mem_sort_insert, ih, List.mem_cons]

theorem nodup_sort_insert (cmp : loc → loc → Int) (p : loc) (l : List loc)
    (hp : p ∉ l) (hl : l.Nodup) : (sort_insert cmp p l).Nodup := by
  induction l with
  | nil => simp [sort_insert]
  | cons r rs ih =>
    unfold sort_insert
    have hr := List.nodup_cons.mp hl
    split
    · exact List.nodup_cons.mpr ⟨hp, hl⟩
    · refine List.nodup_cons.mpr ⟨?_, ih (fun h => hp (List.mem_cons_of_mem _ h)) hr.2⟩
      rw [mem_sort_insert]
      rintro (h | h)
      · exact hp (h ▸ List.mem_cons_self _ _)
      · exact hr.1 h

theorem nodup_sort (cmp : loc → loc → Int) (l : List loc) (hl : l.Nodup) :
    (sort cmp l).Nodup := by
  induction l with
  | nil => simp [sort]
  | cons p ps ih =>
    have h := List.nodup_cons.mp hl
    show (sort_insert cmp p (sort cmp ps)).Nodup
    exact nodup_sort_insert cmp p _ (fun hm => h.1 ((mem_sort cmp p ps).mp hm)) (ih h.2)

theorem scan_before_ne (a b : loc) (h : scan_before a b) : a ≠ b := by
  rintro rfl
  rcases h with h | ⟨_, h⟩ <;> exact lt_irrefl _ h

/-- The points a row of the scan adds are the kept cells of the row. -/
theorem prepare_row_mem (w : World) (fuel mode : Nat) (y : Int) :
    ∀ (xs : List Int) (row : List loc), prepare_row w fuel mode y xs = some row →
      ∀ p : loc, p ∈ row ↔
        (p.y = y ∧ p.x ∈ xs ∧ prepare_keep w fuel mode y p.x = some true) := by
  intro xs
  induction xs with
  | nil =>
    intro row h p
    simp only [prepare_row, Option.some.injEq] at h
    subst h
    simp
  | cons x xs ih =>
    intro row h p
    simp only [prepare_row] at h
    cases hk : prepare_keep w fuel mode y x with
    | none => simp [hk] at h
    | some keep =>
      cases hr : prepare_row w fuel mode y xs with
      | none => simp [hk, hr] at h
      | some rest =>
        simp only [hk, hr, Option.some.injEq] at h
        subst h
        have hi := ih rest hr p
        obtain ⟨px, py⟩ := p
        cases keep
        · simp only [Bool.false_eq_true, if_false, hi, List.mem_cons]
          constructor
          · rintro ⟨h1, h2, h3⟩
            exact ⟨h1, Or.inr h2, h3⟩
          · rintro ⟨h1, h2 | h2, h3⟩
            · subst h2
              rw [hk] at h3
              simp at h3
            · exact ⟨h1, h2, h3⟩
        · simp only [if_true, List.mem_cons, hi, loc.mk.injEq]
          constructor
          · rintro (⟨h1, h2⟩ | ⟨h1, h2, h3⟩)
            · subst h1
              subst h2
              exact ⟨rfl, Or.inl rfl, hk⟩
            · exact ⟨h1, Or.inr h2, h3⟩
          · rintro ⟨h1, h2 | h2, h3⟩
            · exact Or.inl ⟨h2, h1⟩
            · exact Or.inr ⟨h1, h2, h3⟩

/-- The points the scan adds are the kept cells of the scanned grid. -/
theorem prepare_rows_mem (w : World) (fuel mode : Nat) (xs : List Int) :
    ∀ (ys : List Int) (pts : List loc), prepare_rows w fuel mode xs ys = some pts →
      ∀ p : loc, p ∈ pts ↔
        (p.y ∈ ys ∧ p.x ∈ xs ∧ prepare_keep w fuel mode p.y p.x = some true) := by
  intro ys
  induction ys with
  | nil =>
    intro pts h p
    simp only [prepare_rows, Option.some.injEq] at h
    subst h
    simp
  | cons y ys ih =>
    intro pts h p
    simp only [prepare_rows] at h
    cases hrow : prepare_row w fuel mode y xs with
    | none => simp [hrow] at h
    | some row =>
      cases hrest : prepare_rows w fuel mode xs ys with
      | none => simp [hrow, hrest] at h
      | some rest =>
        simp only [hrow, hrest, Option.some.injEq] at h
        subst h
        rw [List.mem_append, prepare_row_mem w fuel mode y xs row hrow p, ih rest hrest p,
          List.mem_cons]
        constructor
        · rintro (⟨h1, h2, h3⟩ | ⟨h1, h2, h3⟩)
          · exact ⟨Or.inl h1, h2, by rw [h1]; exact h3⟩
          · exact ⟨Or.inr h1, h2, h3⟩
        · rintro ⟨h1 | h1, h2, h3⟩
          · exact Or.inl ⟨h1, h2, by rw [← h1]; exact h3⟩
          · exact Or.inr ⟨h1, h2, h3⟩

theorem mem_offsets (off : Int) (n : Int) (v : Int) :
    v ∈ (List.range n.toNat).map (fun (i : Nat) => off + (i : Int)) ↔
      (off ≤ v ∧ v < off + n) := by
  simp only [List.mem_map, List.mem_range]
  constructor
  · rintro ⟨i, hi, rfl⟩
    omega
  · rintro ⟨h1, h2⟩
    exact ⟨(v - off).toNat, by omega, by omega⟩

/-- The scan keeps a cell exactly when it passes every test of the loop body. -/
theorem prepare_keep_iff (w : World) (fuel mode : Nat) (y x : Int) :
    prepare_keep w fuel mode y x = some true ↔
      (in_bounds_fully w y x = true ∧ target_set_interactive_accept w y x = true ∧
        (mode &&& w.TARGET_KILL ≠ 0 →
          0 < w.cave_m_idx y x ∧ target_able w (w.cave_m_idx y x) = true) ∧
        (mode &&& w.TARGET_OBJ ≠ 0 →
          0 < w.cave_o_idx y x ∧ target_able_obj w fuel (w.cave_o_idx y x) = some true)) := by
  unfold prepare_keep
  split_ifs <;> simp_all

/-- While the player is hallucinating `target_able_obj` never returns TRUE. -/
theorem target_able_obj_hallucinating (w : World) (fuel : Nat) (o_idx : Int)
    (himg : w.timed_image ≠ 0) : target_able_obj w fuel o_idx ≠ some true := by
  unfold target_able_obj
  split
  · simp
  · split
    · simp
    · simp only
      split_ifs <;> simp

/-- The cells of the prepared point set. -/
theorem prepare_mem (w : World) (fuel mode : Nat) (res : List loc)
    (h : target_set_interactive_prepare w fuel mode = some res) (p : loc) :
    p ∈ res ↔ (panel_contains w p.y p.x = true ∧
      prepare_keep w fuel mode p.y p.x = some true) := by
  unfold target_set_interactive_prepare at h
  cases hs : prepare_scan w fuel mode with
  | none => simp [hs] at h
  | some pts =>
    simp only [hs, Option.some.injEq] at h
    subst h
    rw [mem_sort, prepare_rows_mem w fuel mode _ _ pts hs p]
    unfold panel_rows panel_cols panel_contains
    rw [mem_offsets, mem_offsets]
    simp only [Bool.and_eq_true, decide_eq_true_eq]
    tauto

/-- The prepared point set lists no cell twice. -/
theorem prepare_nodup (w : World) (fuel mode : Nat) (res : List loc)
    (h : target_set_interactive_prepare w fuel mode = some res) : res.Nodup := by
  unfold target_set_interactive_prepare at h
  cases hs : prepare_scan w fuel mode with
  | none => simp [hs] at h
  | some pts =>
    simp only [hs, Option.some.injEq] at h
    subst h
    exact nodup_sort _ _
      (List.Pairwise.imp (fun {a b} hab => scan_before_ne a b hab)
        (prepare_scan_order w fuel mode pts hs))

/-- The scan returns whenever the object scans it runs finish. -/
theorem prepare_total (w : World) (fuel mode : Nat)
    (hfuel : ∀ y x, target_able_obj w fuel (w.cave_o_idx y x) ≠ none) :
    ∃ res, target_set_interactive_prepare w fuel mode = some res := by
  obtain ⟨pts, hpts⟩ := prepare_rows_total w fuel mode (panel_cols w) hfuel (panel_rows w)
  refine ⟨sort (cmp_distance w) pts, ?_⟩
  unfold target_set_interactive_prepare prepare_scan
  rw [hpts]

/-! ## Theorems: candidate cells -/

/-- C23: the cells of the sequence returned by
`target_set_interactive_prepare(mode)` are exactly the cells inside the
viewport rectangle that satisfy `in_bounds_fully`, are accepted by
`target_set_interactive_accept`, hold a monster index `> 0` that is
`target_able` if the mode has `TARGET_KILL`, and hold an object index `> 0`
that is `target_able_obj` if the mode has `TARGET_OBJ`.  No cell occurs twice,
the sequence is empty when no cell qualifies, and the function returns a
sequence whenever the object scans it runs finish within the bound. -/
theorem prepare_exact_cells (w : World) (fuel mode : Nat) :
    ((∀ y x, target_able_obj w fuel (w.cave_o_idx y x) ≠ none) →
      ∃ res, target_set_interactive_prepare w fuel mode = some res) ∧
    ∀ res, target_set_interactive_prepare w fuel mode = some res →
      (∀ p : loc, p ∈ res ↔
        (panel_contains w p.y p.x = true ∧ in_bounds_fully w p.y p.x = true ∧
          target_set_interactive_accept w p.y p.x = true ∧
          (mode &&& w.TARGET_KILL ≠ 0 →
            0 < w.cave_m_idx p.y p.x ∧ target_able w (w.cave_m_idx p.y p.x) = true) ∧
          (mode &&& w.TARGET_OBJ ≠ 0 →
            0 < w.cave_o_idx p.y p.x ∧
              target_able_obj w fuel (w.cave_o_idx p.y p.x) = some true))) ∧
      res.Nodup ∧
      ((∀ y x, ¬ (panel_contains w y x = true ∧ in_bounds_fully w y x = true ∧
          target_set_interactive_accept w y x = true ∧
          (mode &&& w.TARGET_KILL ≠ 0 →
            0 < w.cave_m_idx y x ∧ target_able w (w.cave_m_idx y x) = true) ∧
          (mode &&& w.TARGET_OBJ ≠ 0 →
            0 < w.cave_o_idx y x ∧ target_able_obj w fuel (w.cave_o_idx y x) = some true))) →
        res = []) := by
  refine ⟨prepare_total w fuel mode, ?_⟩
  intro res h
  have hmem : ∀ p : loc, p ∈ res ↔
      (panel_contains w p.y p.x = true ∧ in_bounds_fully w p.y p.x = true ∧
        target_set_interactive_accept w p.y p.x = true ∧
        (mode &&& w.TARGET_KILL ≠ 0 →
          0 < w.cave_m_idx p.y p.x ∧ target_able w (w.cave_m_idx p.y p.x) = true) ∧
        (mode &&& w.TARGET_OBJ ≠ 0 →
          0 < w.cave_o_idx p.y p.x ∧
            target_able_obj w fuel (w.cave_o_idx p.y p.x) = some true)) := by
    intro p
    rw [prepare_mem w fuel mode res h p, prepare_keep_iff]
  refine ⟨hmem, prepare_nodup w fuel mode res h, ?_⟩
  intro hnone
  apply List.eq_nil_iff_forall_not_mem.mpr
  intro p hp
  exact hnone p.y p.x ((hmem p).mp hp)

/-- Witness of C23: in monster-restricted mode the sample world has the one
candidate `(y, x) = (3, 4)`, the cell of the visible monster. -/
theorem prepare_exact_cells_witness :
    target_set_interactive_prepare sampleWorld 10 1 = some [⟨4, 3⟩] ∧
    ([⟨4, 3⟩] : List loc).Nodup ∧
    ((⟨4, 3⟩ : loc) ∈ ([⟨4, 3⟩] : List loc) ↔
      (panel_contains sampleWorld 3 4 = true ∧ in_bounds_fully sampleWorld 3 4 = true ∧
        target_set_interactive_accept sampleWorld 3 4 = true ∧
        (1 &&& sampleWorld.TARGET_KILL ≠ 0 →
          0 < sampleWorld.cave_m_idx 3 4 ∧
            target_able sampleWorld (sampleWorld.cave_m_idx 3 4) = true) ∧
        (1 &&& sampleWorld.TARGET_OBJ ≠ 0 →
          0 < sampleWorld.cave_o_idx 3 4 ∧
            target_able_obj sampleWorld 10 (sampleWorld.cave_o_idx 3 4) = some true))) :=
  ⟨by decide,
   ((prepare_exact_cells sampleWorld 10 1).2 [⟨4, 3⟩] (by decide)).2.1,
   ((prepare_exact_cells sampleWorld 10 1).2 [⟨4, 3⟩] (by decide)).1 ⟨4, 3⟩⟩

/-- C24: while the player is hallucinating,
`target_set_interactive_accept(y, x)` returns TRUE exactly for the player's
own cell (`cave_m_idx < 0`), whatever the cell holds.  Consequently, in
monster-restricted and in object-restricted mode every sequence
`target_set_interactive_prepare` returns is empty; it returns the empty
sequence whenever the object scans it runs finish within the bound, and always
when the mode is not object-restricted. -/
theorem accept_under_hallucination (w : World) (fuel mode : Nat) (himg : w.timed_image ≠ 0) :
    (∀ y x, target_set_interactive_accept w y x = true ↔ w.cave_m_idx y x < 0) ∧
    (mode &&& w.TARGET_KILL ≠ 0 ∨ mode &&& w.TARGET_OBJ ≠ 0 →
      (∀ res, target_set_interactive_prepare w fuel mode = some res → res = []) ∧
      ((∀ y x, target_able_obj w fuel (w.cave_o_idx y x) ≠ none) →
        target_set_interactive_prepare w fuel mode = some []) ∧
      (mode &&& w.TARGET_OBJ = 0 → target_set_interactive_prepare w fuel mode = some [])) := by
  have hacc : ∀ y x, target_set_interactive_accept w y x = true ↔ w.cave_m_idx y x < 0 := by
    intro y x
    unfold target_set_interactive_accept
    by_cases h : w.cave_m_idx y x < 0
    · simp [h]
    · simp [h, himg]
  refine ⟨hacc, ?_⟩
  intro hmode
  have hempty : ∀ res, target_set_interactive_prepare w fuel mode = some res → res = [] := by
    intro res h
    apply List.eq_nil_iff_forall_not_mem.mpr
    intro p hp
    have hq := (prepare_mem w fuel mode res h p).mp hp
    obtain ⟨_, ha, hk, ho⟩ := (prepare_keep_iff w fuel mode p.y p.x).mp hq.2
    have hneg := (hacc p.y p.x).mp ha
    rcases hmode with hm | hm
    · have := (hk hm).1
      omega
    · exact target_able_obj_hallucinating w fuel _ himg (ho hm).2
  refine ⟨hempty, ?_, ?_⟩
  · intro hfuel
    obtain ⟨res, hres⟩ := prepare_total w fuel mode hfuel
    rw [hres, hempty res hres]
  · intro hobj
    have hk : ∀ y x, ∃ b, prepare_keep w fuel mode y x = some b := by
      intro y x
      unfold prepare_keep
      split_ifs with h1 h2 h3 h4 h5 h6
      all_goals first | exact ⟨_, rfl⟩ | exact absurd hobj h5
    have hrow : ∀ y (xs : List Int), ∃ row, prepare_row w fuel mode y xs = some row := by
      intro y xs
      induction xs with
      | nil => exact ⟨[], rfl⟩
      | cons x xs ih =>
        obtain ⟨rest, hrest⟩ := ih
        obtain ⟨b, hb⟩ := hk y x
        exact ⟨_, by unfold prepare_row; rw [hb, hrest]⟩
    have hrows : ∀ (ys : List Int), ∃ pts, prepare_rows w fuel mode (panel_cols w) ys = some pts := by
      intro ys
      induction ys with
      | nil => exact ⟨[], rfl⟩
      | cons y ys ih =>
        obtain ⟨rest, hrest⟩ := ih
        obtain ⟨row, hr⟩ := hrow y (panel_cols w)
        exact ⟨_, by unfold prepare_rows; rw [hr, hrest]⟩
    obtain ⟨pts, hpts⟩ := hrows (panel_rows w)
    have hres : target_set_interactive_prepare w fuel mode = some (sort (cmp_distance w) pts) := by
      unfold target_set_interactive_prepare prepare_scan
      rw [hpts]
    rw [hres, hempty _ hres]

/-- Witness of C24: the sample world with a hallucinating player, in
monster-restricted mode. -/
theorem accept_under_hallucination_witness :
    ({ sampleWorld with timed_image := 5 } : World).timed_image ≠ 0 ∧
    (target_set_interactive_accept { sampleWorld with timed_image := 5 } 3 3 = true ↔
      ({ sampleWorld with timed_image := 5 } : World).cave_m_idx 3 3 < 0) ∧
    target_set_interactive_prepare { sampleWorld with timed_image := 5 } 10 1 = some [] :=
  ⟨by decide,
   (accept_under_hallucination { sampleWorld with timed_image := 5 } 10 1 (by decide)).1 3 3,
   ((accept_under_hallucination { sampleWorld with timed_image := 5 } 10 1 (by decide)).2
     (Or.inl (by decide))).2.2 (by decide)⟩

/-! ## Helper lemmas: panel scrolling -/

theorem half_step (h : Int) (h2 : 2 ≤ h) : 1 ≤ Int.tdiv h 2 ∧ 2 * Int.tdiv h 2 ≤ h := by
  rw [Int.tdiv_eq_ediv (by omega) (by omega)]
  omega

/-- The forward loop with a step of at least 1: it returns once the fuel
exceeds the distance to go, after `k` steps, the first `k` for which the cell
is before the far edge. -/
theorem adjust_forward_steps (y h s : Int) (hs : Int.tdiv h 2 = s) (hpos : 1 ≤ s) :
    ∀ (fuel : Nat) (wy : Int), (y - wy - h + 1).toNat < fuel →
      ∃ k : Nat, adjust_forward fuel y wy h = some (wy + (k : Int) * s) ∧
        y < wy + (k : Int) * s + h ∧
        (0 < k → wy + (k : Int) * s - s + h ≤ y) ∧ (y < wy + h → k = 0) := by
  intro fuel
  induction fuel with
  | zero => intro wy h0; omega
  | succ n ih =>
    intro wy hf
    rw [adjust_forward]
    by_cases hge : y ≥ wy + h
    · rw [if_pos hge, hs]
      obtain ⟨k, hk1, hk2, hk3, _⟩ := ih (wy + s) (by omega)
      have e : ((k + 1 : Nat) : Int) * s = (k : Int) * s + s := by push_cast; ring
      refine ⟨k + 1, ?_, ?_, ?_, ?_⟩
      · rw [hk1, e]
        congr 1
        ring
      · rw [e]
        linarith
      · intro _
        rw [e]
        rcases Nat.eq_zero_or_pos k with hk0 | hk0
        · subst hk0
          simp only [Nat.cast_zero, zero_mul]
          linarith
        · have := hk3 hk0
          linarith
      · intro hlt
        omega
    · rw [if_neg hge]
      refine ⟨0, by simp, ?_, ?_, fun _ => rfl⟩
      · simp only [Nat.cast_zero, zero_mul]
        omega
      · intro h0
        omega

/-- The backward loop with a step of at least 1. -/
theorem adjust_backward_steps (y h s : Int) (hs : Int.tdiv h 2 = s) (hpos : 1 ≤ s) :
    ∀ (fuel : Nat) (wy : Int), (wy - y).toNat < fuel →
      ∃ k : Nat, adjust_backward fuel y wy h = some (wy - (k : Int) * s) ∧
        wy - (k : Int) * s ≤ y ∧
        (0 < k → y < wy - (k : Int) * s + s) ∧ (wy ≤ y → k = 0) := by
  intro fuel
  induction fuel with
  | zero => intro wy h0; omega
  | succ n ih =>
    intro wy hf
    rw [adjust_backward]
    by_cases hlt : y < wy
    · rw [if_pos hlt, hs]
      obtain ⟨k, hk1, hk2, hk3, _⟩ := ih (wy - s) (by omega)
      have e : ((k + 1 : Nat) : Int) * s = (k : Int) * s + s := by push_cast; ring
      refine ⟨k + 1, ?_, ?_, ?_, ?_⟩
      · rw [hk1, e]
        congr 1
        ring
      · rw [e]
        linarith
      · intro _
        rw [e]
        rcases Nat.eq_zero_or_pos k with hk0 | hk0
        · subst hk0
          simp only [Nat.cast_zero, zero_mul]
          linarith
        · have := hk3 hk0
          linarith
      · intro hle
        omega
    · rw [if_neg hlt]
      refine ⟨0, by simp, ?_, ?_, fun _ => rfl⟩
      · simp only [Nat.cast_zero, zero_mul]
        omega
      · intro h0
        omega

/-- The two loops of one axis, for a size of at least 2: the new offset puts
the cell inside, it differs from the old one by the multiple of the half size
of least magnitude that does so, and it is the old one when the cell was
inside. -/
theorem adjust_axis (y wy h : Int) (h2 : 2 ≤ h) (fuel : Nat) (hfuel : (y - wy).natAbs < fuel) :
    ∃ (wy1 wy2 : Int), adjust_forward fuel y wy h = some wy1 ∧
      adjust_backward fuel y wy1 h = some wy2 ∧
      wy2 ≤ y ∧ y < wy2 + h ∧
      (∃ K : Int, wy2 = wy + K * Int.tdiv h 2 ∧
        ∀ K2 : Int, wy + K2 * Int.tdiv h 2 ≤ y → y < wy + K2 * Int.tdiv h 2 + h → |K| ≤ |K2|) ∧
      (wy ≤ y → y < wy + h → wy2 = wy) := by
  obtain ⟨hs1, hs2⟩ := half_step h h2
  generalize hs : Int.tdiv h 2 = s at hs1 hs2
  obtain ⟨k, hk1, hk2, hk3, hk4⟩ := adjust_forward_steps y h s hs hs1 fuel wy (by omega)
  rcases Nat.eq_zero_or_pos k with hk0 | hk0
  · subst hk0
    simp only [Nat.cast_zero, zero_mul, add_zero] at hk1 hk2
    obtain ⟨j, hj1, hj2, hj3, hj4⟩ := adjust_backward_steps y h s hs hs1 fuel wy (by omega)
    refine ⟨wy, wy - (j : Int) * s, hk1, hj1, hj2, ?_, ⟨-(j : Int), by ring, ?_⟩, ?_⟩
    · rcases Nat.eq_zero_or_pos j with hj0 | hj0
      · subst hj0
        simp only [Nat.cast_zero, zero_mul, sub_zero]
        exact hk2
      · have := hj3 hj0
        linarith
    · intro K2 hK1 _
      rcases Nat.eq_zero_or_pos j with hj0 | hj0
      · subst hj0
        simp
      · have h3 := hj3 hj0
        have e : (1 - (j : Int)) * s = s - (j : Int) * s := by ring
        have hlt : K2 * s < (1 - (j : Int)) * s := by rw [e]; linarith
        have hK : K2 < 1 - (j : Int) := lt_of_mul_lt_mul_right hlt (by omega)
        rw [abs_neg, abs_of_nonneg (by omega), abs_of_nonpos (by omega)]
        omega
    · intro h5 _
      rw [hj4 h5]
      simp
  · have h3 := hk3 hk0
    have hle : wy + (k : Int) * s ≤ y := by linarith
    obtain ⟨j, hj1, _, _, hj4⟩ :=
      adjust_backward_steps y h s hs hs1 fuel (wy + (k : Int) * s) (by omega)
    have hj0 := hj4 hle
    subst hj0
    simp only [Nat.cast_zero, zero_mul, sub_zero] at hj1
    refine ⟨wy + (k : Int) * s, wy + (k : Int) * s, hk1, hj1, hle, hk2, ⟨(k : Int), rfl, ?_⟩, ?_⟩
    · intro K2 _ hK2
      have e : ((k : Int) - 1) * s = (k : Int) * s - s := by ring
      have hlt : ((k : Int) - 1) * s < K2 * s := by rw [e]; linarith
      have hK : (k : Int) - 1 < K2 := lt_of_mul_lt_mul_right hlt (by omega)
      rw [abs_of_nonneg (by omega), abs_of_nonneg (by omega)]
      omega
    · intro _ h6
      have := hk4 h6
      omega

/-- The offsets computed for one window of size at least 2 x 2. -/
theorem adjust_offsets_fit (ui : UI) (fuel : Nat) (y x wy wx screen_hgt0 screen_wid0 : Int)
    (hh : 2 ≤ Int.tdiv screen_hgt0 ui.tile_height)
    (hw : 2 ≤ Int.tdiv screen_wid0 ui.tile_width)
    (hfy : (y - wy).natAbs < fuel) (hfx : (x - wx).natAbs < fuel) :
    ∃ wy2 wx2 : Int, adjust_offsets ui fuel y x wy wx screen_hgt0 screen_wid0 = some (wy2, wx2) ∧
      (wy2 ≤ y ∧ y < wy2 + Int.tdiv screen_hgt0 ui.tile_height) ∧
      (wx2 ≤ x ∧ x < wx2 + Int.tdiv screen_wid0 ui.tile_width) ∧
      (∃ K : Int, wy2 = wy + K * Int.tdiv (Int.tdiv screen_hgt0 ui.tile_height) 2 ∧
        ∀ K2 : Int, wy + K2 * Int.tdiv (Int.tdiv screen_hgt0 ui.tile_height) 2 ≤ y →
          y < wy + K2 * Int.tdiv (Int.tdiv screen_hgt0 ui.tile_height) 2 +
            Int.tdiv screen_hgt0 ui.tile_height → |K| ≤ |K2|) ∧
      (∃ K : Int, wx2 = wx + K * Int.tdiv (Int.tdiv screen_wid0 ui.tile_width) 2 ∧
        ∀ K2 : Int, wx + K2 * Int.tdiv (Int.tdiv screen_wid0 ui.tile_width) 2 ≤ x →
          x < wx + K2 * Int.tdiv (Int.tdiv screen_wid0 ui.tile_width) 2 +
            Int.tdiv screen_wid0 ui.tile_width → |K| ≤ |K2|) ∧
      (wy ≤ y → y < wy + Int.tdiv screen_hgt0 ui.tile_height → wy2 = wy) ∧
      (wx ≤ x → x < wx + Int.tdiv screen_wid0 ui.tile_width → wx2 = wx) := by
  obtain ⟨wy1, wy2, hy1, hy2, hy3, hy4, hy5, hy6⟩ := adjust_axis y wy _ hh fuel hfy
  obtain ⟨wx1, wx2, hx1, hx2, hx3, hx4, hx5, hx6⟩ := adjust_axis x wx _ hw fuel hfx
  refine ⟨wy2, wx2, ?_, ⟨hy3, hy4⟩, ⟨hx3, hx4⟩, hy5, hx5, hy6, hx6⟩
  unfold adjust_offsets
  simp only [hy1, hy2, hx1, hx2]

/-- The flag after the scan of the sub-windows: the flag before it, or some
scanned sub-window whose `modify_panel` call reported a change. -/
theorem adjust_sub_windows_flag (ui : UI) (fuel : Nat) (w : World) (y x : Int) :
    ∀ (subs : List sub_window) (c0 c : Bool) (subs1 : List sub_window),
      adjust_sub_windows ui fuel w y x subs c0 = some (c, subs1) →
        (c = true ↔ (c0 = true ∨ ∃ sw ∈ subs, panel_change_reported ui fuel w y x sw)) := by
  intro subs
  induction subs with
  | nil =>
    intro c0 c subs1 h
    simp only [adjust_sub_windows, Option.some.injEq, Prod.mk.injEq] at h
    rw [← h.1]
    simp
  | cons sw rest ih =>
    intro c0 c subs1 h
    rw [adjust_sub_windows] at h
    have hskip : ¬ panel_change_reported ui fuel w y x sw →
        ((c0 = true ∨ ∃ s ∈ rest, panel_change_reported ui fuel w y x s) ↔
          (c0 = true ∨ ∃ s ∈ sw :: rest, panel_change_reported ui fuel w y x s)) := by
      intro hn
      simp only [List.mem_cons, exists_eq_or_imp]
      tauto
    by_cases hp : sw.present = true
    · by_cases hm : sw.map_flag = true
      · simp only [hp, hm, Bool.not_true, Bool.false_eq_true, if_false] at h
        cases ho : adjust_offsets ui fuel y x sw.win.offset_y sw.win.offset_x sw.win.hgt
            sw.win.wid with
        | none => simp [ho] at h
        | some o =>
          obtain ⟨wy, wx⟩ := o
          simp only [ho] at h
          cases hmp : ui.modify_panel w sw.win wy wx with
          | none =>
            simp only [hmp, Option.map_eq_some', Prod.mk.injEq] at h
            obtain ⟨r, hr, hc, _⟩ := h
            have := ih c0 r.1 r.2 hr
            rw [← hc, this]
            apply hskip
            rintro ⟨_, _, wy2, wx2, h1, h2⟩
            rw [ho] at h1
            simp only [Option.some.injEq, Prod.mk.injEq] at h1
            rw [← h1.1, ← h1.2] at h2
            exact h2 hmp
          | some n =>
            obtain ⟨ny, nx⟩ := n
            simp only [hmp, Option.map_eq_some', Prod.mk.injEq] at h
            obtain ⟨r, hr, hc, _⟩ := h
            have := ih true r.1 r.2 hr
            rw [← hc, this]
            simp only [true_or, true_iff]
            refine Or.inr ⟨sw, List.mem_cons_self _ _, hp, hm, wy, wx, ho, ?_⟩
            rw [hmp]
            simp
      · simp only [hp, hm, Bool.not_true, Bool.false_eq_true, if_false, Bool.not_false,
          if_true, Option.map_eq_some', Prod.mk.injEq] at h
        obtain ⟨r, hr, hc, _⟩ := h
        have := ih c0 r.1 r.2 hr
        rw [← hc, this]
        apply hskip
        rintro ⟨_, h2, _⟩
        exact hm h2
    · have hp2 : sw.present = false := by simpa using hp
      simp only [hp2, Bool.not_false, if_true, Option.map_eq_some', Prod.mk.injEq] at h
      obtain ⟨r, hr, hc, _⟩ := h
      have := ih c0 r.1 r.2 hr
      rw [← hc, this]
      apply hskip
      rintro ⟨h2, _⟩
      exact hp h2

/-- The scan of the sub-windows returns when the loops of every scanned
sub-window do. -/
theorem adjust_sub_windows_total (ui : UI) (fuel : Nat) (y x : Int) :
    ∀ (subs : List sub_window),
      (∀ sw ∈ subs, sw.present = true → sw.map_flag = true →
        adjust_offsets ui fuel y x sw.win.offset_y sw.win.offset_x sw.win.hgt sw.win.wid ≠ none) →
      ∀ (w : World) (c0 : Bool), adjust_sub_windows ui fuel w y x subs c0 ≠ none := by
  intro subs
  induction subs with
  | nil =>
    intro _ w c0
    simp [adjust_sub_windows]
  | cons sw rest ih =>
    intro hall w c0
    have hrest := ih (fun s hs => hall s (List.mem_cons_of_mem _ hs)) w
    rw [adjust_sub_windows]
    by_cases hp : sw.present = true
    · by_cases hm : sw.map_flag = true
      · simp only [hp, hm, Bool.not_true, Bool.false_eq_true, if_false]
        have ho := hall sw (List.mem_cons_self _ _) hp hm
        cases hoff : adjust_offsets ui fuel y x sw.win.offset_y sw.win.offset_x sw.win.hgt
            sw.win.wid with
        | none => exact absurd hoff ho
        | some o =>
          obtain ⟨wy, wx⟩ := o
          simp only
          cases hmp : ui.modify_panel w sw.win wy wx with
          | none =>
            simp only [ne_eq, Option.map_eq_none']
            exact hrest c0
          | some n =>
            simp only [ne_eq, Option.map_eq_none']
            exact hrest true
      · have hm2 : sw.map_flag = false := by simpa using hm
        simp only [hp, hm2, Bool.not_true, Bool.false_eq_true, if_false, Bool.not_false,
          if_true, ne_eq, Option.map_eq_none']
        exact hrest c0
    · have hp2 : sw.present = false := by simpa using hp
      simp only [hp2, Bool.not_false, if_true, ne_eq, Option.map_eq_none']
      exact hrest c0

theorem mem_le_sum (f : sub_window → Nat) (sw : sub_window) :
    ∀ l : List sub_window, sw ∈ l → f sw ≤ (l.map f).sum := by
  intro l
  induction l with
  | nil => intro h; simp at h
  | cons a as ih =>
    intro h
    rw [List.map_cons, List.sum_cons]
    rcases List.mem_cons.mp h with h | h
    · subst h
      omega
    · have := ih h
      omega

/-- With a step of 0 the loops do not end when their condition holds. -/
theorem adjust_forward_stuck (y h : Int) (hs : Int.tdiv h 2 = 0) :
    ∀ (fuel : Nat) (wy : Int), wy + h ≤ y → adjust_forward fuel y wy h = none := by
  intro fuel
  induction fuel with
  | zero => intro wy _; rfl
  | succ n ih =>
    intro wy hle
    rw [adjust_forward, if_pos hle, hs, add_zero]
    exact ih wy hle

theorem adjust_backward_stuck (y h : Int) (hs : Int.tdiv h 2 = 0) :
    ∀ (fuel : Nat) (wy : Int), y < wy → adjust_backward fuel y wy h = none := by
  intro fuel
  induction fuel with
  | zero => intro wy _; rfl
  | succ n ih =>
    intro wy hlt
    rw [adjust_backward, if_pos hlt, hs, sub_zero]
    exact ih wy hlt

/-! ## Theorems: panel scrolling -/

/-- C22: for a viewport with old offset `(wy, wx)` whose size in tiles is
`h >= 2` by `w >= 2`, the offset `(wy2, wx2)` that `adjust_panel_help`
computes and passes to `modify_panel` satisfies `wy2 <= y < wy2 + h` and
`wx2 <= x < wx2 + w`; it differs from the old offset by a multiple of `h / 2`
(resp. `w / 2`) whose magnitude is the least among the multiples with that
property; and it is the old offset when `(y, x)` was inside already.  The
loops return it once the bound on their iterations exceeds the distance of the
cell from the old offset.  The function returns TRUE exactly when the
`modify_panel` call of the main window or of some scanned sub-window reported
a change. -/
theorem adjust_panel_help_offsets (ui : UI) (fuel : Nat) (y x : Int) :
    (∀ wy wx screen_hgt0 screen_wid0 : Int,
      2 ≤ Int.tdiv screen_hgt0 ui.tile_height → 2 ≤ Int.tdiv screen_wid0 ui.tile_width →
      (y - wy).natAbs < fuel → (x - wx).natAbs < fuel →
      ∃ wy2 wx2 : Int,
        adjust_offsets ui fuel y x wy wx screen_hgt0 screen_wid0 = some (wy2, wx2) ∧
        (wy2 ≤ y ∧ y < wy2 + Int.tdiv screen_hgt0 ui.tile_height) ∧
        (wx2 ≤ x ∧ x < wx2 + Int.tdiv screen_wid0 ui.tile_width) ∧
        (∃ K : Int, wy2 = wy + K * Int.tdiv (Int.tdiv screen_hgt0 ui.tile_height) 2 ∧
          ∀ K2 : Int, wy + K2 * Int.tdiv (Int.tdiv screen_hgt0 ui.tile_height) 2 ≤ y →
            y < wy + K2 * Int.tdiv (Int.tdiv screen_hgt0 ui.tile_height) 2 +
              Int.tdiv screen_hgt0 ui.tile_height → |K| ≤ |K2|) ∧
        (∃ K : Int, wx2 = wx + K * Int.tdiv (Int.tdiv screen_wid0 ui.tile_width) 2 ∧
          ∀ K2 : Int, wx + K2 * Int.tdiv (Int.tdiv screen_wid0 ui.tile_width) 2 ≤ x →
            x < wx + K2 * Int.tdiv (Int.tdiv screen_wid0 ui.tile_width) 2 +
              Int.tdiv screen_wid0 ui.tile_width → |K| ≤ |K2|) ∧
        (wy ≤ y → y < wy + Int.tdiv screen_hgt0 ui.tile_height → wy2 = wy) ∧
        (wx ≤ x → x < wx + Int.tdiv screen_wid0 ui.tile_width → wx2 = wx)) ∧
    (∀ (w : World) (subs : List sub_window) (help c : Bool) (w1 : World)
        (subs1 : List sub_window),
      adjust_panel_help ui fuel w subs y x help = some (c, w1, subs1) →
      (c = true ↔
        ((∃ wy wx, adjust_offsets ui fuel y x w.offset_y w.offset_x
              (if help then ui.term_hgt - ui.ROW_MAP - 3 else ui.term_hgt - ui.ROW_MAP - 1)
              (ui.term_wid - ui.COL_MAP - 1) = some (wy, wx) ∧
            ui.modify_panel w (main_window ui w) wy wx ≠ none) ∨
          ∃ sw ∈ subs, panel_change_reported ui fuel w1 y x sw))) := by
  refine ⟨?_, ?_⟩
  · intro wy wx screen_hgt0 screen_wid0 hh hw hfy hfx
    exact adjust_offsets_fit ui fuel y x wy wx screen_hgt0 screen_wid0 hh hw hfy hfx
  · intro w subs help c w1 subs1 h
    unfold adjust_panel_help at h
    simp only at h
    cases ho : adjust_offsets ui fuel y x w.offset_y w.offset_x
        (if help then ui.term_hgt - ui.ROW_MAP - 3 else ui.term_hgt - ui.ROW_MAP - 1)
        (ui.term_wid - ui.COL_MAP - 1) with
    | none => simp [ho] at h
    | some o =>
      obtain ⟨wy, wx⟩ := o
      simp only [ho] at h
      cases hmp : ui.modify_panel w ⟨w.offset_y, w.offset_x, ui.term_hgt, ui.term_wid⟩ wy wx with
      | none =>
        simp only [hmp, Option.map_eq_some', Prod.mk.injEq] at h
        obtain ⟨r, hr, hc, hw1, _⟩ := h
        have hflag := adjust_sub_windows_flag ui fuel w y x subs false r.1 r.2 hr
        rw [← hc, ← hw1, hflag]
        constructor
        · rintro (h1 | h1)
          · simp at h1
          · exact Or.inr h1
        · rintro (⟨wy2, wx2, h1, h2⟩ | h1)
          · simp only [Option.some.injEq, Prod.mk.injEq] at h1
            rw [← h1.1, ← h1.2] at h2
            exact absurd hmp h2
          · exact Or.inr h1
      | some n =>
        obtain ⟨ny, nx⟩ := n
        simp only [hmp, Option.map_eq_some', Prod.mk.injEq] at h
        obtain ⟨r, hr, hc, _, _⟩ := h
        have hflag := adjust_sub_windows_flag ui fuel (w.scrolled ny nx) y x subs true r.1 r.2 hr
        rw [← hc, hflag]
        simp only [true_or, true_iff]
        refine Or.inl ⟨wy, wx, rfl, ?_⟩
        show ui.modify_panel w ⟨w.offset_y, w.offset_x, ui.term_hgt, ui.term_wid⟩ wy wx ≠ none
        rw [hmp]
        simp

/-- Witness of C22: the 8 x 12 viewport of the sample selector at offset
`(0, 0)` and the cell `(y, x) = (3, 20)`: the column offset moves by two half
widths to 12, the row offset stays. -/
theorem adjust_panel_help_offsets_witness :
    adjust_offsets sampleUI 30 3 20 0 0 8 12 = some (0, 12) ∧
    ∃ wy2 wx2 : Int, adjust_offsets sampleUI 30 3 20 0 0 8 12 = some (wy2, wx2) ∧
      (wy2 ≤ 3 ∧ 3 < wy2 + Int.tdiv 8 sampleUI.tile_height) ∧
      (wx2 ≤ 20 ∧ 20 < wx2 + Int.tdiv 12 sampleUI.tile_width) :=
  ⟨by decide,
   match (adjust_panel_help_offsets sampleUI 30 3 20).1 0 0 8 12 (by decide) (by decide)
      (by decide) (by decide) with
   | ⟨wy2, wx2, h1, h2, h3, _⟩ => ⟨wy2, wx2, h1, h2, h3⟩⟩

/-- C30: the viewport-adjustment loops of `adjust_panel_help` terminate for
every target cell and every starting offset when each scanned viewport is at
least 2 tiles high and 2 tiles wide: for every such window, and for the whole
scan, there is a bound on the loop iterations from which on a result is
returned.  For a height or width `h` below 2 (and above -2) the half-viewport
step `h / 2` is 0, and a loop whose condition holds then never ends. -/
theorem adjust_loops_terminate (ui : UI) (y x : Int) :
    (∀ wy wx screen_hgt0 screen_wid0 : Int,
      2 ≤ Int.tdiv screen_hgt0 ui.tile_height → 2 ≤ Int.tdiv screen_wid0 ui.tile_width →
      ∃ fuel0 : Nat, ∀ fuel, fuel0 ≤ fuel →
        adjust_offsets ui fuel y x wy wx screen_hgt0 screen_wid0 ≠ none) ∧
    (∀ (w : World) (subs : List sub_window) (help : Bool),
      2 ≤ Int.tdiv (if help then ui.term_hgt - ui.ROW_MAP - 3 else ui.term_hgt - ui.ROW_MAP - 1)
        ui.tile_height →
      2 ≤ Int.tdiv (ui.term_wid - ui.COL_MAP - 1) ui.tile_width →
      (∀ sw ∈ subs, sw.present = true → sw.map_flag = true →
        2 ≤ Int.tdiv sw.win.hgt ui.tile_height ∧ 2 ≤ Int.tdiv sw.win.wid ui.tile_width) →
      ∃ fuel0 : Nat, ∀ fuel, fuel0 ≤ fuel → adjust_panel_help ui fuel w subs y x help ≠ none) ∧
    (∀ h : Int, -2 < h → h < 2 →
      Int.tdiv h 2 = 0 ∧
      (∀ (fuel : Nat) (wy : Int), wy + h ≤ y → adjust_forward fuel y wy h = none) ∧
      (∀ (fuel : Nat) (wy : Int), y < wy → adjust_backward fuel y wy h = none)) := by
  refine ⟨?_, ?_, ?_⟩
  · intro wy wx screen_hgt0 screen_wid0 hh hw
    refine ⟨(y - wy).natAbs + (x - wx).natAbs + 1, ?_⟩
    intro fuel hf
    obtain ⟨wy2, wx2, h1, _⟩ := adjust_offsets_fit ui fuel y x wy wx screen_hgt0 screen_wid0
      hh hw (by omega) (by omega)
    rw [h1]
    simp
  · intro w subs help hh hw hsubs
    refine ⟨(y - w.offset_y).natAbs + (x - w.offset_x).natAbs + 1 +
      (subs.map (fun sw => (y - sw.win.offset_y).natAbs + (x - sw.win.offset_x).natAbs + 1)).sum,
      ?_⟩
    intro fuel hf
    obtain ⟨wy2, wx2, h1, _⟩ := adjust_offsets_fit ui fuel y x w.offset_y w.offset_x
      (if help then ui.term_hgt - ui.ROW_MAP - 3 else ui.term_hgt - ui.ROW_MAP - 1)
      (ui.term_wid - ui.COL_MAP - 1) hh hw (by omega) (by omega)
    have hsw : ∀ sw ∈ subs, sw.present = true → sw.map_flag = true →
        adjust_offsets ui fuel y x sw.win.offset_y sw.win.offset_x sw.win.hgt sw.win.wid ≠
          none := by
      intro sw hmem hp hm
      have hle := mem_le_sum
        (fun sw => (y - sw.win.offset_y).natAbs + (x - sw.win.offset_x).natAbs + 1) sw subs hmem
      simp only at hle
      obtain ⟨hsh, hsw2⟩ := hsubs sw hmem hp hm
      obtain ⟨a, b, h2, _⟩ := adjust_offsets_fit ui fuel y x sw.win.offset_y sw.win.offset_x
        sw.win.hgt sw.win.wid hsh hsw2 (by omega) (by omega)
      rw [h2]
      simp
    have htot := adjust_sub_windows_total ui fuel y x subs hsw
    unfold adjust_panel_help
    simp only [h1]
    cases hmp : ui.modify_panel w ⟨w.offset_y, w.offset_x, ui.term_hgt, ui.term_wid⟩ wy2 wx2 with
    | none =>
      simp only [ne_eq, Option.map_eq_none']
      exact htot w false
    | some n =>
      simp only [ne_eq, Option.map_eq_none']
      exact htot _ true
  · intro h h1 h2
    have hs : Int.tdiv h 2 = 0 := by
      have : h = -1 ∨ h = 0 ∨ h = 1 := by omega
      rcases this with rfl | rfl | rfl <;> decide
    exact ⟨hs, adjust_forward_stuck y h hs, adjust_backward_stuck y h hs⟩

/-- Witness of C30: the sample selector window (8 x 12 tiles) and a cell far
to the right of it; a width of 1 gives the step 0 and a loop that runs out of
every bound. -/
theorem adjust_loops_terminate_witness :
    (∃ fuel0 : Nat, ∀ fuel, fuel0 ≤ fuel →
      adjust_offsets sampleUI fuel 3 20 0 0 8 12 ≠ none) ∧
    (Int.tdiv 1 2 = 0 ∧
      (∀ (fuel : Nat) (wy : Int), wy + 1 ≤ 3 → adjust_forward fuel 3 wy 1 = none) ∧
      (∀ (fuel : Nat) (wy : Int), 3 < wy → adjust_backward fuel 3 wy 1 = none)) :=
  ⟨(adjust_loops_terminate sampleUI 3 20).1 0 0 8 12 (by decide) (by decide),
   (adjust_loops_terminate sampleUI 3 20).2.2 1 (by decide) (by decide)⟩

/-! ## Helper lemmas: the marked run of a path -/

theorem sel_cycle_event_key_aux (ui : UI) (fuel : Nat) (s : SelState) (b : Int) (mods : Nat)
    (mx my : Int) (code : keycode) :
    sel_cycle_event ui fuel s ⟨false, b, mods, mx, my, code⟩ = sel_cycle_key ui fuel s code := by
  by_cases h0 : code = keycode.ESCAPE
  · subst h0; rfl
  by_cases h1 : code = keycode.chr 'q'
  · subst h1; rfl
  by_cases h2 : code = keycode.chr ' '
  · subst h2; rfl
  by_cases h3 : code = keycode.chr '*'
  · subst h3; rfl
  by_cases h4 : code = keycode.chr '+'
  · subst h4; rfl
  by_cases h5 : code = keycode.chr '-'
  · subst h5; rfl
  by_cases h6 : code = keycode.chr 'p'
  · subst h6; rfl
  by_cases h7 : code = keycode.chr 'o'
  · subst h7; rfl
  by_cases h8 : code = keycode.chr 'm'
  · subst h8; rfl
  by_cases h9 : code = keycode.chr 't'
  · subst h9; rfl
  by_cases h10 : code = keycode.chr '5'
  · subst h10; rfl
  by_cases h11 : code = keycode.chr '0'
  · subst h11; rfl
  by_cases h12 : code = keycode.chr '.'
  · subst h12; rfl
  by_cases h13 : code = keycode.chr 'g'
  · subst h13; rfl
  by_cases h14 : code = keycode.chr '?'
  · subst h14; rfl
  have hr : sel_cycle_key ui fuel s code =
      if ui.target_dir code = 0 then some ({ s with bells := s.bells + 1 }, ui.target_dir code)
      else some (s, ui.target_dir code) := by
    unfold sel_cycle_key
    rw [if_neg (by tauto), if_neg (by tauto), if_neg h5, if_neg h6, if_neg h7, if_neg h8,
      if_neg (by tauto), if_neg h13, if_neg h14]
  rw [hr]
  cases code with
  | ESCAPE => exact absurd rfl h0
  | other n => rfl
  | chr c =>
    have e1 : ¬ c = 'q' := fun e => h1 (by rw [e])
    have e2 : ¬ c = ' ' := fun e => h2 (by rw [e])
    have e3 : ¬ c = '*' := fun e => h3 (by rw [e])
    have e4 : ¬ c = '+' := fun e => h4 (by rw [e])
    have e5 : ¬ c = '-' := fun e => h5 (by rw [e])
    have e6 : ¬ c = 'p' := fun e => h6 (by rw [e])
    have e7 : ¬ c = 'o' := fun e => h7 (by rw [e])
    have e8 : ¬ c = 'm' := fun e => h8 (by rw [e])
    have e9 : ¬ c = 't' := fun e => h9 (by rw [e])
    have e10 : ¬ c = '5' := fun e => h10 (by rw [e])
    have e11 : ¬ c = '0' := fun e => h11 (by rw [e])
    have e12 : ¬ c = '.' := fun e => h12 (by rw [e])
    have e13 : ¬ c = 'g' := fun e => h13 (by rw [e])
    have e14 : ¬ c = '?' := fun e => h14 (by rw [e])
    unfold sel_cycle_event
    rw [if_neg Bool.false_ne_true]
    unfold sel_cycle_event.match_2
    dsimp only
    rw [dif_neg e1, dif_neg e2, dif_neg e3, dif_neg e4, dif_neg e5, dif_neg e6,
      dif_neg e7, dif_neg e8, dif_neg e9, dif_neg e10, dif_neg e11, dif_neg e12, dif_neg e13,
      dif_neg e14]

theorem sel_free_event_key_aux (ui : UI) (fuel : Nat) (s : SelState) (b : Int) (mods : Nat)
    (mx my : Int) (code : keycode) :
    sel_free_event ui fuel s ⟨false, b, mods, mx, my, code⟩ = sel_free_key ui s code := by
  by_cases h0 : code = keycode.ESCAPE
  · subst h0; rfl
  by_cases h1 : code = keycode.chr 'q'
  · subst h1; rfl
  by_cases h2 : code = keycode.chr ' '
  · subst h2; rfl
  by_cases h3 : code = keycode.chr '*'
  · subst h3; rfl
  by_cases h4 : code = keycode.chr '+'
  · subst h4; rfl
  by_cases h5 : code = keycode.chr '-'
  · subst h5; rfl
  by_cases h6 : code = keycode.chr 'p'
  · subst h6; rfl
  by_cases h7 : code = keycode.chr 'o'
  · subst h7; rfl
  by_cases h8 : code = keycode.chr 'm'
  · subst h8; rfl
  by_cases h9 : code = keycode.chr 't'
  · subst h9; rfl
  by_cases h10 : code = keycode.chr '5'
  · subst h10; rfl
  by_cases h11 : code = keycode.chr '0'
  · subst h11; rfl
  by_cases h12 : code = keycode.chr '.'
  · subst h12; rfl
  by_cases h13 : code = keycode.chr 'g'
  · subst h13; rfl
  by_cases h14 : code = keycode.chr '?'
  · subst h14; rfl
  have hr : sel_free_key ui s code =
      if ui.target_dir code = 0 then some ({ s with bells := s.bells + 1 }, ui.target_dir code)
      else some (s, ui.target_dir code) := by
    unfold sel_free_key
    rw [if_neg (by tauto), if_neg (by tauto), if_neg h6, if_neg h7, if_neg h8,
      if_neg (by tauto), if_neg h13, if_neg h14]
  rw [hr]
  cases code with
  | ESCAPE => exact absurd rfl h0
  | other n => rfl
  | chr c =>
    have e1 : ¬ c = 'q' := fun e => h1 (by rw [e])
    have e2 : ¬ c = ' ' := fun e => h2 (by rw [e])
    have e3 : ¬ c = '*' := fun e => h3 (by rw [e])
    have e4 : ¬ c = '+' := fun e => h4 (by rw [e])
    have e5 : ¬ c = '-' := fun e => h5 (by rw [e])
    have e6 : ¬ c = 'p' := fun e => h6 (by rw [e])
    have e7 : ¬ c = 'o' := fun e => h7 (by rw [e])
    have e8 : ¬ c = 'm' := fun e => h8 (by rw [e])
    have e9 : ¬ c = 't' := fun e => h9 (by rw [e])
    have e10 : ¬ c = '5' := fun e => h10 (by rw [e])
    have e11 : ¬ c = '0' := fun e => h11 (by rw [e])
    have e12 : ¬ c = '.' := fun e => h12 (by rw [e])
    have e13 : ¬ c = 'g' := fun e => h13 (by rw [e])
    have e14 : ¬ c = '?' := fun e => h14 (by rw [e])
    unfold sel_free_event
    rw [if_neg Bool.false_ne_true]
    unfold sel_cycle_event.match_2
    dsimp only
    rw [dif_neg e1, dif_neg e2, dif_neg e3, dif_neg e4, dif_neg e5, dif_neg e6,
      dif_neg e7, dif_neg e8, dif_neg e9, dif_neg e10, dif_neg e11, dif_neg e12, dif_neg e13,
      dif_neg e14]

/-- Case analysis of the key dispatch of CycleMode: what holds of the outcome
of every key case holds of the outcome of the dispatch. -/
theorem sel_cycle_key_cases (P : Option (SelState × Int) → Prop) (ui : UI) (fuel : Nat)
    (s : SelState) (code : keycode)
    (h1 : P (some ({ s with done := true }, 0)))
    (h2 : P (some ({ s with m := if s.m + 1 = (s.targets.length : Int) then 0 else s.m + 1 }, 0)))
    (h3 : P (some ({ s with m := if s.m = 0 then (s.targets.length : Int) - 1 else s.m - 1 }, 0)))
    (h4 : P (some ({ s with w := s.w.scrolled (ui.verify_panel s.w).1 (ui.verify_panel s.w).2,
                            y := s.w.py, x := s.w.px, flag := false }, 0)))
    (h5 : P (some ({ s with flag := false }, 0)))
    (h6 : P (some (s, 0)))
    (h7 : P ((sel_cycle_confirm fuel s).map (fun s2 => (s2, 0))))
    (h8 : P (some ({ s with pathfind := s.pathfind ++ [(s.y, s.x)], done := true }, 0)))
    (h9 : P (some ({ s with help := !s.help }, 0)))
    (h10 : P (some ({ s with bells := s.bells + 1 }, 0)))
    (h11 : ui.target_dir code ≠ 0 → P (some (s, ui.target_dir code))) :
    P (sel_cycle_key ui fuel s code) := by
  unfold sel_cycle_key
  by_cases c1 : code = keycode.ESCAPE ∨ code = keycode.chr 'q'
  · rw [if_pos c1]; exact h1
  rw [if_neg c1]
  by_cases c2 : code = keycode.chr ' ' ∨ code = keycode.chr '*' ∨ code = keycode.chr '+'
  · rw [if_pos c2]; exact h2
  rw [if_neg c2]
  by_cases c3 : code = keycode.chr '-'
  · rw [if_pos c3]; exact h3
  rw [if_neg c3]
  by_cases c4 : code = keycode.chr 'p'
  · rw [if_pos c4]; exact h4
  rw [if_neg c4]
  by_cases c5 : code = keycode.chr 'o'
  · rw [if_pos c5]; exact h5
  rw [if_neg c5]
  by_cases c6 : code = keycode.chr 'm'
  · rw [if_pos c6]; exact h6
  rw [if_neg c6]
  by_cases c7 : code = keycode.chr 't' ∨ code = keycode.chr '5' ∨ code = keycode.chr '0' ∨
      code = keycode.chr '.'
  · rw [if_pos c7]; exact h7
  rw [if_neg c7]
  by_cases c8 : code = keycode.chr 'g'
  · rw [if_pos c8]; exact h8
  rw [if_neg c8]
  by_cases c9 : code = keycode.chr '?'
  · rw [if_pos c9]; exact h9
  rw [if_neg c9]
  by_cases c10 : ui.target_dir code = 0
  · rw [if_pos c10, c10]; exact h10
  · rw [if_neg c10]; exact h11 c10

/-- Case analysis of the key dispatch of FreeMode. -/
theorem sel_free_key_cases (P : Option (SelState × Int) → Prop) (ui : UI)
    (s : SelState) (code : keycode)
    (h1 : P (some ({ s with done := true }, 0)))
    (h2 : P (some (s, 0)))
    (h4 : P (some ({ s with w := s.w.scrolled (ui.verify_panel s.w).1 (ui.verify_panel s.w).2,
                            y := s.w.py, x := s.w.px }, 0)))
    (h6 : P (some ({ s with m := (sel_nearest ui s.y s.x s.targets 0 0 999).1,
                            flag := decide ((sel_nearest ui s.y s.x s.targets 0 0 999).2 ≠ 999) },
      0)))
    (h7 : P (some ({ s with t := target_set_location s.w s.t s.y s.x, done := true }, 0)))
    (h8 : P (some ({ s with pathfind := s.pathfind ++ [(s.y, s.x)], done := true }, 0)))
    (h9 : P (some ({ s with help := !s.help }, 0)))
    (h10 : P (some ({ s with bells := s.bells + 1 }, 0)))
    (h11 : ui.target_dir code ≠ 0 → P (some (s, ui.target_dir code))) :
    P (sel_free_key ui s code) := by
  unfold sel_free_key
  by_cases c1 : code = keycode.ESCAPE ∨ code = keycode.chr 'q'
  · rw [if_pos c1]; exact h1
  rw [if_neg c1]
  by_cases c2 : code = keycode.chr ' ' ∨ code = keycode.chr '*' ∨ code = keycode.chr '+' ∨
      code = keycode.chr '-'
  · rw [if_pos c2]; exact h2
  rw [if_neg c2]
  by_cases c4 : code = keycode.chr 'p'
  · rw [if_pos c4]; exact h4
  rw [if_neg c4]
  by_cases c5 : code = keycode.chr 'o'
  · rw [if_pos c5]; exact h2
  rw [if_neg c5]
  by_cases c6 : code = keycode.chr 'm'
  · rw [if_pos c6]; exact h6
  rw [if_neg c6]
  by_cases c7 : code = keycode.chr 't' ∨ code = keycode.chr '5' ∨ code = keycode.chr '0' ∨
      code = keycode.chr '.'
  · rw [if_pos c7]; exact h7
  rw [if_neg c7]
  by_cases c8 : code = keycode.chr 'g'
  · rw [if_pos c8]; exact h8
  rw [if_neg c8]
  by_cases c9 : code = keycode.chr '?'
  · rw [if_pos c9]; exact h9
  rw [if_neg c9]
  by_cases c10 : ui.target_dir code = 0
  · rw [if_pos c10, c10]; exact h10
  · rw [if_neg c10]; exact h11 c10

/-- A key event in CycleMode is analysed by the key dispatch. -/
theorem sel_cycle_event_key (ui : UI) (fuel : Nat) (s : SelState) (press : ui_event)
    (hkey : press.is_mouse = false) :
    sel_cycle_event ui fuel s press = sel_cycle_key ui fuel s press.code := by
  obtain ⟨im, b, mods, mx, my, code⟩ := press
  simp only at hkey
  subst hkey
  exact sel_cycle_event_key_aux ui fuel s b mods mx my code

/-- A key event in FreeMode is analysed by the key dispatch. -/
theorem sel_free_event_key (ui : UI) (fuel : Nat) (s : SelState) (press : ui_event)
    (hkey : press.is_mouse = false) :
    sel_free_event ui fuel s press = sel_free_key ui s press.code := by
  obtain ⟨im, b, mods, mx, my, code⟩ := press
  simp only at hkey
  subst hkey
  exact sel_free_event_key_aux ui fuel s b mods mx my code

/-- Case analysis of the mouse branch of `sel_cycle_event`. -/
theorem sel_cycle_mouse_cases (P : Option (SelState × Int) → Prop) (ui : UI) (fuel : Nat)
    (s : SelState) (press : ui_event) (hm : press.is_mouse = true)
    (h1 : ∀ y x m_idx, 0 < m_idx → target_able s.w m_idx = true →
      P (some ({ s with y := y, x := x, t := target_set_monster s.w s.t m_idx, done := true }, 0)))
    (h2 : ∀ y x, P (some ({ s with y := y, x := x, bells := s.bells + 1 }, 0)))
    (h3 : ∀ y x,
      P (some ({ s with y := y, x := x, pathfind := s.pathfind ++ [(y, x)], done := true }, 0)))
    (h4 : ∀ y x, P (some ({ s with y := y, x := x, done := true }, 0)))
    (h5 : ∀ y x (i : Nat), sel_find s.targets y x = some i →
      P (some ({ s with y := y, x := x, m := (i : Int), flag := true }, 0)))
    (h6 : ∀ y x, P (some ({ s with y := y, x := x, flag := false }, 0))) :
    P (sel_cycle_event ui fuel s press) := by
  unfold sel_cycle_event
  rw [if_pos hm]
  lift_lets
  intro button mods y x m_idx
  by_cases c1 : button = 2
  · rw [if_pos c1]
    by_cases c2 : mods &&& ui.KC_MOD_CONTROL ≠ 0
    · rw [if_pos c2]
      by_cases c3 : 0 < m_idx ∧ target_able s.w m_idx = true
      · rw [if_pos c3]; exact h1 y x m_idx c3.1 c3.2
      · rw [if_neg c3]; exact h2 y x
    · rw [if_neg c2]
      by_cases c4 : mods &&& ui.KC_MOD_ALT ≠ 0
      · rw [if_pos c4]; exact h3 y x
      · rw [if_neg c4]; exact h4 y x
  · rw [if_neg c1]
    by_cases c5 : s.w.cave_m_idx y x ≠ 0 ∨ s.w.cave_o_idx y x ≠ 0
    · rw [if_pos c5]
      cases hf : sel_find s.targets y x with
      | none => exact h6 y x
      | some i => exact h5 y x i hf
    · rw [if_neg c5]; exact h6 y x

/-- Case analysis of the mouse branch of `sel_free_event`. -/
theorem sel_free_mouse_cases (P : Option (SelState × Int) → Prop) (ui : UI) (fuel : Nat)
    (s : SelState) (press : ui_event) (hm : press.is_mouse = true)
    (hnone : P none)
    (h1 : ∀ y x d, d = 0 ∨ d = -1 →
      P (some ({ s with y := y, x := x, t := target_set_location s.w s.t y x, done := true }, d)))
    (h2 : ∀ y x d, d = 0 ∨ d = -1 →
      P (some ({ s with y := y, x := x, pathfind := s.pathfind ++ [(y, x)], done := true }, d)))
    (h3 : ∀ y x, P (some ({ s with y := y, x := x, done := true }, 0)))
    (h4 : ∀ y x changed w1 subs1 targets1,
      adjust_panel_help ui fuel s.w s.subs y x s.help = some (changed, w1, subs1) →
      (if changed then target_set_interactive_prepare w1 fuel s.mode else some s.targets) =
        some targets1 →
      (∀ i : Nat, sel_find targets1 y x = some i →
        P (some ({ s with y := y, x := x, w := w1, subs := subs1, targets := targets1,
                          m := (i : Int), flag := true }, 0))) ∧
      P (some ({ s with y := y, x := x, w := w1, subs := subs1, targets := targets1 }, 0)) ∧
      P (some ({ s with y := y, x := x, w := w1, subs := subs1, targets := targets1,
                        flag := false }, 0))) :
    P (sel_free_event ui fuel s press) := by
  unfold sel_free_event
  rw [if_pos hm]
  lift_lets
  intro button mods gy gx d dims dungeon_hgt dungeon_wid y1 x1 y2 x2 y3 x3
  have hd : d = 0 ∨ d = -1 := by
    by_cases c : s.mode &&& s.w.TARGET_KILL ≠ 0 ∧ s.y = gy ∧ s.x = gx
    · exact Or.inr (if_pos c)
    · exact Or.inl (if_neg c)
  by_cases c1 : button = 2
  · rw [if_pos c1]
    by_cases c2 : mods &&& ui.KC_MOD_CONTROL ≠ 0
    · rw [if_pos c2]; exact h1 gy gx d hd
    · rw [if_neg c2]
      by_cases c4 : mods &&& ui.KC_MOD_ALT ≠ 0
      · rw [if_pos c4]; exact h2 gy gx d hd
      · rw [if_neg c4]
        by_cases c5 : d = -1
        · rw [if_pos c5]; exact h1 gy gx 0 (Or.inl rfl)
        · rw [if_neg c5]
          have : d = 0 := by rcases hd with h | h; exact h; exact absurd h c5
          rw [this]
          exact h3 gy gx
  · rw [if_neg c1]
    cases ha : adjust_panel_help ui fuel s.w s.subs y3 x3 s.help with
    | none => exact hnone
    | some r =>
      obtain ⟨changed, w1, subs1⟩ := r
      dsimp only
      cases hp : (if changed = true then target_set_interactive_prepare w1 fuel s.mode
          else some s.targets) with
      | none => exact hnone
      | some targets1 =>
        obtain ⟨k1, k2, k3⟩ := h4 y3 x3 changed w1 subs1 targets1 ha hp
        dsimp only
        by_cases c6 : w1.cave_m_idx y3 x3 ≠ 0 ∨ w1.cave_o_idx y3 x3 ≠ 0
        · rw [if_pos c6]
          cases hf : sel_find targets1 y3 x3 with
          | none => exact k2
          | some i => exact k1 i hf
        · rw [if_neg c6]; exact k3

/-! ## Helper lemmas: the record and the loop -/

/-- The confirm step of CycleMode changes the target record only when it also
ends the loop. -/
theorem sel_cycle_confirm_record (fuel : Nat) (s s2 : SelState)
    (h : sel_cycle_confirm fuel s = some s2) : s2.t = s.t ∨ s2.done = true := by
  unfold sel_cycle_confirm at h
  dsimp only at h
  split_ifs at h
  all_goals first
    | (simp only [Option.some.injEq] at h; subst h; exact Or.inl rfl)
    | (simp only [Option.some.injEq] at h; subst h; exact Or.inr rfl)
    | skip
  split at h
  · simp at h
  · split at h
    · simp at h
    · simp only [Option.some.injEq] at h; subst h; exact Or.inr rfl
  · simp only [Option.some.injEq] at h; subst h; exact Or.inl rfl

/-- The analysis of an event in CycleMode changes the target record only when
it also ends the loop. -/
theorem sel_cycle_event_record (ui : UI) (fuel : Nat) (s s2 : SelState) (press : ui_event)
    (d : Int) (h : sel_cycle_event ui fuel s press = some (s2, d)) :
    s2.t = s.t ∨ s2.done = true := by
  revert h
  by_cases hm : press.is_mouse = true
  · apply sel_cycle_mouse_cases (fun r => r = some (s2, d) → (s2.t = s.t ∨ s2.done = true))
      ui fuel s press hm
    all_goals
      intros
      rename_i h
      simp only [Option.some.injEq, Prod.mk.injEq] at h
      obtain ⟨h1, _⟩ := h
      subst h1
      first | exact Or.inl rfl | exact Or.inr rfl
  · have hk : press.is_mouse = false := by simpa using hm
    rw [sel_cycle_event_key ui fuel s press hk]
    apply sel_cycle_key_cases (fun r => r = some (s2, d) → (s2.t = s.t ∨ s2.done = true))
    all_goals first
      | (intros
         rename_i h
         simp only [Option.some.injEq, Prod.mk.injEq] at h
         obtain ⟨h1, _⟩ := h
         subst h1
         exact Or.inl rfl)
      | (intro h
         simp only [Option.map_eq_some', Prod.mk.injEq] at h
         obtain ⟨a, ha, h1, _⟩ := h
         subst h1
         exact sel_cycle_confirm_record fuel s a ha)

/-- The direction part of CycleMode leaves the target record and the flag
`done` as they are. -/
theorem sel_cycle_direction_record (ui : UI) (fuel : Nat) (s s2 : SelState) (d : Int)
    (h : sel_cycle_direction ui fuel s d = some s2) : s2.t = s.t ∧ s2.done = s.done := by
  unfold sel_cycle_direction at h
  split at h
  · simp at h
  · dsimp only at h
    split_ifs at h
    · split at h
      · split at h
        · simp at h
        · split_ifs at h
          · split at h
            · split at h
              · simp at h
              · simp only [Option.some.injEq] at h; subst h; exact ⟨rfl, rfl⟩
            · simp only [Option.some.injEq] at h; subst h; exact ⟨rfl, rfl⟩
          · simp only [Option.some.injEq] at h; subst h; exact ⟨rfl, rfl⟩
      · simp only [Option.some.injEq] at h; subst h; exact ⟨rfl, rfl⟩
    · simp only [Option.some.injEq] at h; subst h; exact ⟨rfl, rfl⟩

/-- One iteration of CycleMode changes the target record only when it also
ends the loop. -/
theorem sel_cycle_record (ui : UI) (fuel : Nat) (s s2 : SelState) (press : ui_event)
    (h : sel_cycle ui fuel s press = some s2) : s2.t = s.t ∨ s2.done = true := by
  unfold sel_cycle at h
  split at h
  · simp at h
  · split at h
    · simp at h
    · dsimp only at h
      split at h
      · simp at h
      · split at h
        · simp at h
        · rename_i s3 d he
          have h3 := sel_cycle_event_record ui fuel _ s3 press d he
          split_ifs at h
          · have h4 := sel_cycle_direction_record ui fuel s3 s2 d h
            rw [h4.1, h4.2]
            exact h3
          · simp only [Option.some.injEq] at h
            subst h
            exact h3

/-- The direction part of FreeMode leaves the target record and the flag
`done` as they are. -/
theorem sel_free_direction_record (ui : UI) (fuel : Nat) (s s2 : SelState) (d : Int)
    (h : sel_free_direction ui fuel s d = some s2) : s2.t = s.t ∧ s2.done = s.done := by
  unfold sel_free_direction at h
  dsimp only at h
  split at h
  · simp at h
  · split at h
    · simp at h
    · simp only [Option.some.injEq] at h; subst h; exact ⟨rfl, rfl⟩
  · simp only [Option.some.injEq] at h; subst h; exact ⟨rfl, rfl⟩

/-- The analysis of an event in FreeMode changes the target record only when
it also ends the loop. -/
theorem sel_free_event_record (ui : UI) (fuel : Nat) (s s2 : SelState) (press : ui_event)
    (d : Int) (h : sel_free_event ui fuel s press = some (s2, d)) :
    s2.t = s.t ∨ s2.done = true := by
  revert h
  by_cases hm : press.is_mouse = true
  · apply sel_free_mouse_cases (fun r => r = some (s2, d) → (s2.t = s.t ∨ s2.done = true))
      ui fuel s press hm
    all_goals first
      | (intro h
         exact absurd h (by simp))
      | (intros
         rename_i h
         simp only [Option.some.injEq, Prod.mk.injEq] at h
         obtain ⟨h1, _⟩ := h
         subst h1
         first | exact Or.inl rfl | exact Or.inr rfl)
      | (intro y x changed w1 subs1 targets1 _ _
         refine ⟨?_, ?_, ?_⟩
         all_goals
           intros
           rename_i h
           simp only [Option.some.injEq, Prod.mk.injEq] at h
           obtain ⟨h1, _⟩ := h
           subst h1
           exact Or.inl rfl)
  · have hk : press.is_mouse = false := by simpa using hm
    rw [sel_free_event_key ui fuel s press hk]
    apply sel_free_key_cases (fun r => r = some (s2, d) → (s2.t = s.t ∨ s2.done = true))
    all_goals
      intros
      rename_i h
      simp only [Option.some.injEq, Prod.mk.injEq] at h
      obtain ⟨h1, _⟩ := h
      subst h1
      first | exact Or.inl rfl | exact Or.inr rfl

/-- One iteration of FreeMode changes the target record only when it also ends
the loop. -/
theorem sel_free_record (ui : UI) (fuel : Nat) (s s2 : SelState) (press : ui_event)
    (h : sel_free ui fuel s press = some s2) : s2.t = s.t ∨ s2.done = true := by
  unfold sel_free at h
  split at h
  · simp at h
  · rename_i s3 d he
    have h3 := sel_free_event_record ui fuel s s3 press d he
    split_ifs at h
    · have h4 := sel_free_direction_record ui fuel s3 s2 d h
      rw [h4.1, h4.2]
      exact h3
    · simp only [Option.some.injEq] at h
      subst h
      exact h3

/-- The loop is left at once in a state with `done` set. -/
theorem sel_loop_done (ui : UI) (fuel : Nat) (s : SelState) (evs : List ui_event)
    (h : s.done = true) : sel_loop ui fuel s evs = some (s, evs) := by
  cases evs with
  | nil => rw [sel_loop, if_pos h]
  | cons e es => rw [sel_loop, if_pos h]

/-- The cancel keys in CycleMode end the loop and leave the record. -/
theorem sel_cycle_cancel (ui : UI) (fuel : Nat) (s s2 : SelState) (press : ui_event)
    (hkey : press.is_mouse = false)
    (hc : press.code = keycode.ESCAPE ∨ press.code = keycode.chr 'q')
    (h : sel_cycle ui fuel s press = some s2) : s2.t = s.t ∧ s2.done = true := by
  unfold sel_cycle at h
  split at h
  · simp at h
  · split at h
    · simp at h
    · dsimp only at h
      split at h
      · simp at h
      · rw [sel_cycle_event_key ui fuel _ press hkey, sel_cycle_key, if_pos hc] at h
        dsimp only at h
        rw [if_neg (by decide)] at h
        simp only [Option.some.injEq] at h
        subst h
        exact ⟨rfl, rfl⟩

/-- The cancel keys in FreeMode end the loop and leave the record. -/
theorem sel_free_cancel (ui : UI) (fuel : Nat) (s s2 : SelState) (press : ui_event)
    (hkey : press.is_mouse = false)
    (hc : press.code = keycode.ESCAPE ∨ press.code = keycode.chr 'q')
    (h : sel_free ui fuel s press = some s2) : s2.t = s.t ∧ s2.done = true := by
  unfold sel_free at h
  rw [sel_free_event_key ui fuel _ press hkey, sel_free_key, if_pos hc] at h
  dsimp only at h
  rw [if_neg (by decide)] at h
  simp only [Option.some.injEq] at h
  subst h
  exact ⟨rfl, rfl⟩

/-- A run of the loop that reads the events up to a cancel key and no further
leaves the target record as it was when the loop was entered. -/
theorem sel_loop_cancel (ui : UI) (fuel : Nat) (c : ui_event) (rest : List ui_event)
    (hkey : c.is_mouse = false)
    (hc : c.code = keycode.ESCAPE ∨ c.code = keycode.chr 'q') :
    ∀ (pre : List ui_event) (s s1 : SelState), s.done = false →
      sel_loop ui fuel s (pre ++ c :: rest) = some (s1, rest) → s1.t = s.t := by
  intro pre
  induction pre with
  | nil =>
    intro s s1 hd h
    rw [List.nil_append, sel_loop, if_neg (by rw [hd]; decide)] at h
    cases hb : sel_branch s with
    | failure =>
      simp only [hb, Option.some.injEq, Prod.mk.injEq] at h
      have := congrArg List.length h.2
      simp at this
    | cycle =>
      simp only [hb] at h
      cases hs : sel_cycle ui fuel s c with
      | none => simp [hs] at h
      | some s2 =>
        simp only [hs] at h
        obtain ⟨ht, hd2⟩ := sel_cycle_cancel ui fuel s s2 c hkey hc hs
        rw [sel_loop_done ui fuel s2 rest hd2] at h
        simp only [Option.some.injEq, Prod.mk.injEq] at h
        rw [← h.1]
        exact ht
    | free =>
      simp only [hb] at h
      cases hs : sel_free ui fuel s c with
      | none => simp [hs] at h
      | some s2 =>
        simp only [hs] at h
        obtain ⟨ht, hd2⟩ := sel_free_cancel ui fuel s s2 c hkey hc hs
        rw [sel_loop_done ui fuel s2 rest hd2] at h
        simp only [Option.some.injEq, Prod.mk.injEq] at h
        rw [← h.1]
        exact ht
  | cons e es ih =>
    intro s s1 hd h
    rw [List.cons_append, sel_loop, if_neg (by rw [hd]; decide)] at h
    have hstep : ∀ s2 : SelState, (s2.t = s.t ∨ s2.done = true) →
        sel_loop ui fuel s2 (es ++ c :: rest) = some (s1, rest) → s1.t = s.t := by
      intro s2 hrec hl
      cases hd2 : s2.done with
      | true =>
        rw [sel_loop_done ui fuel s2 _ hd2] at hl
        simp only [Option.some.injEq, Prod.mk.injEq] at hl
        have := congrArg List.length hl.2
        simp at this
        omega
      | false =>
        have ht : s2.t = s.t := by
          rcases hrec with h1 | h1
          · exact h1
          · rw [hd2] at h1
            exact absurd h1 (by decide)
        rw [← ht]
        exact ih s2 s1 hd2 hl
    cases hb : sel_branch s with
    | failure =>
      simp only [hb, Option.some.injEq, Prod.mk.injEq] at h
      have := congrArg List.length h.2
      simp at this
      omega
    | cycle =>
      simp only [hb] at h
      cases hs : sel_cycle ui fuel s e with
      | none => simp [hs] at h
      | some s2 =>
        simp only [hs] at h
        exact hstep s2 (sel_cycle_record ui fuel s s2 e hs) h
    | free =>
      simp only [hb] at h
      cases hs : sel_free ui fuel s e with
      | none => simp [hs] at h
      | some s2 =>
        simp only [hs] at h
        exact hstep s2 (sel_free_record ui fuel s s2 e hs) h

/-- What a result of `target_set_interactive` is made of: the state at the
entry of the loop, the state in which the loop is left, and the value returned,
the flag `target_set` of that state. -/
theorem target_set_interactive_result (ui : UI) (fuel : Nat) (w : World)
    (subs : List sub_window) (t : TargetState) (mode : Nat) (x y : Int)
    (events : List ui_event) (r : SelResult)
    (h : target_set_interactive ui fuel w subs t mode x y events = some r) :
    ∃ s0 s1 : SelState, sel_enter ui fuel w subs t mode x y = some s0 ∧
      sel_loop ui fuel s0 events = some (s1, r.unread) ∧
      r.final.t = s1.t ∧ r.ret = s1.t.target_set := by
  unfold target_set_interactive at h
  cases he : sel_enter ui fuel w subs t mode x y with
  | none => simp [he] at h
  | some s0 =>
    simp only [he] at h
    cases hl : sel_loop ui fuel s0 events with
    | none => simp [hl] at h
    | some p =>
      obtain ⟨s1, un⟩ := p
      simp only [hl] at h
      cases hts : s1.t.target_set with
      | false =>
        rw [if_pos (by simp [hts])] at h
        simp only [Option.some.injEq] at h
        subst h
        exact ⟨s0, s1, rfl, hl, rfl, hts.symm⟩
      | true =>
        rw [if_neg (by simp [hts])] at h
        simp only [Option.some.injEq] at h
        subst h
        exact ⟨s0, s1, rfl, hl, rfl, hts.symm⟩

/-- The loop is entered with a cleared record and `done` unset. -/
theorem sel_enter_record (ui : UI) (fuel : Nat) (w : World) (subs : List sub_window)
    (t : TargetState) (mode : Nat) (x y : Int) (s0 : SelState)
    (he : sel_enter ui fuel w subs t mode x y = some s0) :
    s0.t = ⟨false, 0, 0, 0, 0⟩ ∧ s0.done = false := by
  unfold sel_enter at he
  dsimp only at he
  split at he
  · simp at he
  · simp only [Option.some.injEq] at he
    subst he
    exact ⟨by simp [target_set_monster, target_able], rfl⟩

/-! ## Theorems: the result of the selector -/

/-- C21: `target_set_interactive` returns TRUE exactly when `target_is_set()`
is true when it returns.  Every invocation first cancels the old target, so a
session that ends with the cancel event (`ESCAPE` or `q`, the last event the
session reads) returns FALSE with a cleared record, whatever the record held
before the call. -/
theorem interactive_returns_target_set (ui : UI) (fuel : Nat) (w : World)
    (subs : List sub_window) (t : TargetState) (mode : Nat) (x y : Int) :
    (∀ (events : List ui_event) (r : SelResult),
      target_set_interactive ui fuel w subs t mode x y events = some r →
        r.ret = target_is_set r.final.t) ∧
    (∀ (pre rest : List ui_event) (c : ui_event) (r : SelResult),
      c.is_mouse = false → (c.code = keycode.ESCAPE ∨ c.code = keycode.chr 'q') →
      target_set_interactive ui fuel w subs t mode x y (pre ++ c :: rest) = some r →
      r.unread = rest →
        r.ret = false ∧ target_is_set r.final.t = false ∧ r.final.t = ⟨false, 0, 0, 0, 0⟩) := by
  have hret : ∀ (events : List ui_event) (r : SelResult),
      target_set_interactive ui fuel w subs t mode x y events = some r →
        r.ret = target_is_set r.final.t := by
    intro events r h
    obtain ⟨s0, s1, _, _, h3, h4⟩ :=
      target_set_interactive_result ui fuel w subs t mode x y events r h
    rw [h4, h3]
    rfl
  refine ⟨hret, ?_⟩
  intro pre rest c r hkey hc h hun
  have hr := hret _ r h
  obtain ⟨s0, s1, he, hl, h3, _⟩ :=
    target_set_interactive_result ui fuel w subs t mode x y _ r h
  obtain ⟨h0t, h0d⟩ := sel_enter_record ui fuel w subs t mode x y s0 he
  rw [hun] at hl
  have ht : r.final.t = ⟨false, 0, 0, 0, 0⟩ := by
    rw [h3, sel_loop_cancel ui fuel c rest hkey hc pre s0 s1 h0d hl]
    exact h0t
  rw [hr, ht]
  exact ⟨rfl, rfl, rfl⟩

/-- Witness of C21: a session in the sample world, started with a target set on
monster 1: the candidate is stepped once and the session is cancelled with `q`;
the function returns FALSE and the record is clear. -/
theorem interactive_returns_target_set_witness :
    (target_set_interactive sampleUI 20 sampleWorld [] ⟨true, 1, 0, 4, 3⟩ 1 (-1) (-1)
      [key_press '+', key_press 'q']).map (fun r => (r.ret, r.final.t, r.unread)) =
      some (false, ⟨false, 0, 0, 0, 0⟩, []) := by
  have hs : (target_set_interactive sampleUI 20 sampleWorld [] ⟨true, 1, 0, 4, 3⟩ 1 (-1) (-1)
      [key_press '+', key_press 'q']).isSome = true := by decide
  obtain ⟨r, hr⟩ := Option.isSome_iff_exists.mp hs
  have hun : r.unread = [] := by
    have : (target_set_interactive sampleUI 20 sampleWorld [] ⟨true, 1, 0, 4, 3⟩ 1 (-1) (-1)
      [key_press '+', key_press 'q']).map (fun r => r.unread) = some [] := by decide
    rw [hr] at this
    simpa using this
  have h := (interactive_returns_target_set sampleUI 20 sampleWorld [] ⟨true, 1, 0, 4, 3⟩ 1
    (-1) (-1)).2 [key_press '+'] [] (key_press 'q') r rfl (Or.inr rfl) hr hun
  rw [hr]
  simp only [Option.map_some', Option.some.injEq, Prod.mk.injEq]
  exact ⟨h.1, h.2.2, hun⟩

/-! ## Theorems: confirm in a mode without restriction -/

/-- The analysis of an event in CycleMode leaves the point set and the mode as
they are, and yields a direction only for a direction key. -/
theorem sel_cycle_event_targets (ui : UI) (fuel : Nat) (s s2 : SelState) (press : ui_event)
    (d : Int) (h : sel_cycle_event ui fuel s press = some (s2, d)) :
    s2.targets = s.targets ∧ s2.mode = s.mode ∧
      (d ≠ 0 → press.is_mouse = false ∧ d = ui.target_dir press.code) := by
  revert h
  by_cases hm : press.is_mouse = true
  · apply sel_cycle_mouse_cases
      (fun r => r = some (s2, d) → (s2.targets = s.targets ∧ s2.mode = s.mode ∧
        (d ≠ 0 → press.is_mouse = false ∧ d = ui.target_dir press.code)))
      ui fuel s press hm
    all_goals
      intros
      rename_i h
      simp only [Option.some.injEq, Prod.mk.injEq] at h
      obtain ⟨h1, h2⟩ := h
      subst h1
      exact ⟨rfl, rfl, fun hd => absurd h2.symm hd⟩
  · have hk : press.is_mouse = false := by simpa using hm
    rw [sel_cycle_event_key ui fuel s press hk]
    apply sel_cycle_key_cases
      (fun r => r = some (s2, d) → (s2.targets = s.targets ∧ s2.mode = s.mode ∧
        (d ≠ 0 → press.is_mouse = false ∧ d = ui.target_dir press.code)))
    all_goals first
      | (intros
         rename_i h
         simp only [Option.some.injEq, Prod.mk.injEq] at h
         obtain ⟨h1, h2⟩ := h
         subst h1
         first
           | exact ⟨rfl, rfl, fun hd => absurd h2.symm hd⟩
           | exact ⟨rfl, rfl, fun _ => ⟨hk, h2.symm⟩⟩)
      | (intro h
         simp only [Option.map_eq_some', Prod.mk.injEq] at h
         obtain ⟨a, ha, h1, h2⟩ := h
         subst h1
         refine ⟨?_, ?_, fun hd => absurd h2.symm hd⟩
         · unfold sel_cycle_confirm at ha
           dsimp only at ha
           split_ifs at ha
           all_goals first
             | (simp only [Option.some.injEq] at ha; subst ha; rfl)
             | skip
           split at ha
           · simp at ha
           · split at ha
             · simp at ha
             · simp only [Option.some.injEq] at ha; subst ha; rfl
           · simp only [Option.some.injEq] at ha; subst ha; rfl
         · unfold sel_cycle_confirm at ha
           dsimp only at ha
           split_ifs at ha
           all_goals first
             | (simp only [Option.some.injEq] at ha; subst ha; rfl)
             | skip
           split at ha
           · simp at ha
           · split at ha
             · simp at ha
             · simp only [Option.some.injEq] at ha; subst ha; rfl
           · simp only [Option.some.injEq] at ha; subst ha; rfl)

/-! ## Theorems: the candidate set in CycleMode -/

/-- Counterexample to C26 as stated: a session in a world with traps at
`(y, x) = (7, 5)` and `(1, 5)`.  With the help lines on (key `?`) the viewport
is two rows shorter; stepping to the candidate `(7, 5)` makes
`adjust_panel_help` scroll the viewport three rows down and return TRUE.  The
session is then left with the four candidates of the old viewport, while a
rebuild for the new viewport yields three. -/
theorem cycle_scroll_rebuild_counterexample :
    (target_set_interactive sampleUI 20 trapWorld [] TargetState.initial 0 (-1) (-1)
      [key_press '?', key_press ' ', key_press ' ', key_press ' ', key_press 'q']).map
      (fun r => (r.final.w.offset_y, r.final.m, r.final.targets)) =
      some (3, 3, [⟨3, 3⟩, ⟨4, 3⟩, ⟨5, 1⟩, ⟨5, 7⟩]) ∧
    (adjust_panel_help sampleUI 20 trapWorld [] 7 5 true).map (fun r => (r.1, r.2.1.offset_y)) =
      some (true, 3) ∧
    target_set_interactive_prepare (trapWorld.scrolled 3 0) 20 0 =
      some [⟨3, 3⟩, ⟨4, 3⟩, ⟨5, 7⟩] := by
  refine ⟨by decide, by decide, by decide⟩

/-- C26 (amended): in CycleMode, when ensuring that the current candidate is
visible scrolls the viewport (`adjust_panel_help` returns TRUE), the candidate
set is not rebuilt: the cell is described and the next event is analysed with
the point set and the index `m` as they were, whether or not the viewport
moved, and after an event other than a direction key the point set is still
the one the iteration started with.  (A rebuild after a scroll is made in
FreeMode, and by a direction key of CycleMode that changes the panel.) -/
theorem cycle_scroll_keeps_candidates (ui : UI) (fuel : Nat) (s : SelState) (press : ui_event)
    (pt : loc) (changed : Bool) (w1 : World) (subs1 : List sub_window)
    (hm : 0 ≤ s.m) (hpt : s.targets[s.m.toNat]? = some pt)
    (hadj : adjust_panel_help ui fuel s.w s.subs pt.y pt.x s.help = some (changed, w1, subs1)) :
    sel_cycle ui fuel s press =
      (match sel_help_check fuel { s with y := pt.y, x := pt.x, w := w1, subs := subs1 } with
       | none => none
       | some _ =>
         match sel_cycle_event ui fuel { s with y := pt.y, x := pt.x, w := w1, subs := subs1 }
             press with
         | none => none
         | some (s2, d) => if d ≠ 0 then sel_cycle_direction ui fuel s2 d else some s2) ∧
    (∀ s2 : SelState, sel_cycle ui fuel s press = some s2 →
      (press.is_mouse = true ∨ ui.target_dir press.code = 0) →
      s2.targets = s.targets ∧
      (∃ s3 d, sel_cycle_event ui fuel { s with y := pt.y, x := pt.x, w := w1, subs := subs1 }
        press = some (s3, d) ∧ d = 0 ∧ s2 = s3)) := by
  have heq : sel_cycle ui fuel s press =
      (match sel_help_check fuel { s with y := pt.y, x := pt.x, w := w1, subs := subs1 } with
       | none => none
       | some _ =>
         match sel_cycle_event ui fuel { s with y := pt.y, x := pt.x, w := w1, subs := subs1 }
             press with
         | none => none
         | some (s2, d) => if d ≠ 0 then sel_cycle_direction ui fuel s2 d else some s2) := by
    unfold sel_cycle
    rw [if_pos hm, hpt]
    dsimp only
    rw [hadj]
  refine ⟨heq, ?_⟩
  intro s2 h hnd
  rw [heq] at h
  cases hh : sel_help_check fuel { s with y := pt.y, x := pt.x, w := w1, subs := subs1 } with
  | none => simp [hh] at h
  | some u =>
    simp only [hh] at h
    cases he : sel_cycle_event ui fuel { s with y := pt.y, x := pt.x, w := w1, subs := subs1 }
        press with
    | none => simp [he] at h
    | some p =>
      obtain ⟨s3, d⟩ := p
      simp only [he] at h
      obtain ⟨ht, _, hd⟩ := sel_cycle_event_targets ui fuel _ s3 press d he
      have hd0 : d = 0 := by
        by_contra hne
        obtain ⟨hk, hdir⟩ := hd hne
        rcases hnd with h1 | h1
        · rw [hk] at h1
          exact absurd h1 (by decide)
        · exact hne (hdir.trans h1)
      rw [if_neg (by rw [hd0]; decide)] at h
      simp only [Option.some.injEq] at h
      subst h
      exact ⟨ht, s3, d, rfl, hd0, rfl⟩

/-- Witness of C26 (amended): the sample state of CycleMode with the help
lines on and the index on a candidate at `(y, x) = (7, 5)`: the viewport
scrolls three rows, and after the key `m` the point set is the old one. -/
theorem cycle_scroll_keeps_candidates_witness :
    (adjust_panel_help sampleUI 20 sampleWorld [] 7 5 true).map (fun r => r.1) = some true ∧
    (sel_cycle sampleUI 20
      { sampleCycleState with help := true, m := 0, targets := [⟨5, 7⟩, ⟨4, 3⟩] }
      (key_press 'm')).map (fun s => (s.w.offset_y, s.targets)) =
      some (3, [⟨5, 7⟩, ⟨4, 3⟩]) := by
  refine ⟨by decide, ?_⟩
  have hs : (sel_cycle sampleUI 20
      { sampleCycleState with help := true, m := 0, targets := [⟨5, 7⟩, ⟨4, 3⟩] }
      (key_press 'm')).isSome = true := by decide
  obtain ⟨s2, h2⟩ := Option.isSome_iff_exists.mp hs
  have hw : (sel_cycle sampleUI 20
      { sampleCycleState with help := true, m := 0, targets := [⟨5, 7⟩, ⟨4, 3⟩] }
      (key_press 'm')).map (fun s => s.w.offset_y) = some 3 := by decide
  have h := ((cycle_scroll_keeps_candidates sampleUI 20
    { sampleCycleState with help := true, m := 0, targets := [⟨5, 7⟩, ⟨4, 3⟩] }
    (key_press 'm') ⟨5, 7⟩ true (sampleWorld.scrolled 3 0) [] (by decide) (by decide) rfl).2
    s2 h2 (Or.inr rfl)).1
  rw [h2] at hw ⊢
  simp only [Option.map_some', Option.some.injEq] at hw
  simp only [Option.map_some', Option.some.injEq, Prod.mk.injEq]
  exact ⟨hw, h⟩

/-! ## Theorems: a directional key without a candidate -/

/-- C27: in CycleMode, a directional key for which `target_pick` fails, and
fails again after the one-panel scroll and the rebuild of the candidates,
leaves the index `m` unchanged, does not end the loop and does not alter the
target record; `modify_panel` is called with the offsets the viewport had
before the key, and when it moves the window there, as the undo of a scroll
does, the viewport is as before the key and the candidates are those of that
viewport.  When no panel change is possible the state is left as it is.
`target_pick` is called at most twice per key. -/
theorem cycle_direction_failure (ui : UI) (fuel : Nat) (s : SelState) (d : Int) (old : loc)
    (hm : 0 ≤ s.m) (hold : s.targets[s.m.toNat]? = some old)
    (hfail : target_pick old.y old.x (ui.ddy d) (ui.ddx d) s.targets < 0) :
    (ui.change_panel s.w d = none → sel_cycle_direction ui fuel s d = some s) ∧
    (∀ (ny nx : Int) (targets2 targets3 : List loc),
      ui.change_panel s.w d = some (ny, nx) →
      target_set_interactive_prepare (s.w.scrolled ny nx) fuel s.mode = some targets2 →
      target_pick old.y old.x (ui.ddy d) (ui.ddx d) targets2 < 0 →
      ui.modify_panel (s.w.scrolled ny nx) (main_window ui (s.w.scrolled ny nx))
          s.w.offset_y s.w.offset_x =
        modify_panel_spec (main_window ui (s.w.scrolled ny nx)) s.w.offset_y s.w.offset_x →
      target_set_interactive_prepare s.w fuel s.mode = some targets3 →
      ∃ s2, sel_cycle_direction ui fuel s d = some s2 ∧ s2.m = s.m ∧ s2.w = s.w ∧
        s2.done = s.done ∧ s2.t = s.t ∧ s2.targets = targets3) ∧
    (∀ s2, sel_cycle_direction ui fuel s d = some s2 → s2.done = s.done ∧ s2.t = s.t) ∧
    (sel_cycle_direction_counted ui fuel s d).map Prod.fst = sel_cycle_direction ui fuel s d ∧
    (∀ r, sel_cycle_direction_counted ui fuel s d = some r → r.2 ≤ 2) := by
  have hw : ∀ w : World, w.scrolled w.offset_y w.offset_x = w := by
    intro w
    cases w
    rfl
  have hww : ∀ (w : World) (a b e f : Int), (w.scrolled a b).scrolled e f = w.scrolled e f := by
    intro w a b e f
    rfl
  refine ⟨?_, ?_, ?_, ?_, ?_⟩
  · intro hcp
    unfold sel_cycle_direction
    rw [if_pos hm, hold]
    dsimp only
    rw [if_pos hfail, hcp]
  · intro ny nx targets2 targets3 hcp hp2 hfail2 hmp hp3
    by_cases hsame : s.w.offset_y = ny ∧ s.w.offset_x = nx
    · have hw2 : s.w.scrolled ny nx = s.w := by
        rw [← hsame.1, ← hsame.2]
        exact hw s.w
      have hmp2 : ui.modify_panel (s.w.scrolled ny nx) (main_window ui (s.w.scrolled ny nx))
          s.w.offset_y s.w.offset_x = none := by
        rw [hmp]
        unfold modify_panel_spec main_window
        rw [if_pos]
        exact ⟨hsame.1, hsame.2⟩
      have h23 : targets2 = targets3 := by
        rw [hw2, hp3] at hp2
        exact (Option.some.inj hp2).symm
      refine ⟨{ s with w := s.w.scrolled ny nx, targets := targets2 }, ?_, rfl, hw2, rfl, rfl, h23⟩
      unfold sel_cycle_direction
      rw [if_pos hm, hold]
      dsimp only
      rw [if_pos hfail, hcp]
      dsimp only
      rw [hp2]
      dsimp only
      rw [if_pos hfail2, hmp2]
    · have hmp2 : ui.modify_panel (s.w.scrolled ny nx) (main_window ui (s.w.scrolled ny nx))
          s.w.offset_y s.w.offset_x = some (s.w.offset_y, s.w.offset_x) := by
        rw [hmp]
        unfold modify_panel_spec main_window
        rw [if_neg]
        exact hsame
      have hw3 : (s.w.scrolled ny nx).scrolled s.w.offset_y s.w.offset_x = s.w := by
        rw [hww]
        exact hw s.w
      refine ⟨{ s with w := (s.w.scrolled ny nx).scrolled s.w.offset_y s.w.offset_x,
                       targets := targets3 }, ?_, rfl, hw3, rfl, rfl, rfl⟩
      unfold sel_cycle_direction
      rw [if_pos hm, hold]
      dsimp only
      rw [if_pos hfail, hcp]
      dsimp only
      rw [hp2]
      dsimp only
      rw [if_pos hfail2, hmp2]
      dsimp only
      rw [hw3, hp3]
  · intro s2 h
    have := sel_cycle_direction_record ui fuel s s2 d h
    exact ⟨this.2, this.1⟩
  · unfold sel_cycle_direction_counted sel_cycle_direction
    rw [if_pos hm, hold]
    dsimp only
    rw [if_pos hfail, if_pos hfail]
    cases hcp : ui.change_panel s.w d with
    | none => rfl
    | some o =>
      obtain ⟨ny, nx⟩ := o
      dsimp only
      cases hp2 : target_set_interactive_prepare (s.w.scrolled ny nx) fuel s.mode with
      | none => rfl
      | some targets2 =>
        dsimp only
        split_ifs
        · cases hmp : ui.modify_panel (s.w.scrolled ny nx) (main_window ui (s.w.scrolled ny nx))
              s.w.offset_y s.w.offset_x with
          | none => rfl
          | some o2 =>
            obtain ⟨ry, rx⟩ := o2
            dsimp only
            cases hp3 : target_set_interactive_prepare ((s.w.scrolled ny nx).scrolled ry rx) fuel
                s.mode with
            | none => rfl
            | some targets3 => rfl
        · rfl
  · intro r h
    unfold sel_cycle_direction_counted at h
    rw [if_pos hm, hold] at h
    dsimp only at h
    rw [if_pos hfail] at h
    split at h
    · split at h
      · simp at h
      · split_ifs at h
        · split at h
          · split at h
            · simp at h
            · simp only [Option.some.injEq] at h; subst h; exact le_refl _
          · simp only [Option.some.injEq] at h; subst h; exact le_refl _
        · simp only [Option.some.injEq] at h; subst h; exact le_refl _
    · simp only [Option.some.injEq] at h; subst h; exact Nat.le_succ 1

/-- Witness of C27: the sample state of CycleMode with the index on the
rightmost candidate `(y, x) = (5, 9)` and the key of direction 6 (right), with
a `change_panel` that scrolls half a screen: both picks fail, the viewport is
back at offset `(0, 0)` and the index is still 2. -/
theorem cycle_direction_failure_witness :
    (sel_cycle_direction sampleScrollUI 20 sampleCycleState 6).map
      (fun s => (s.m, s.w.offset_y, s.w.offset_x, s.done, s.t)) =
      some (2, 0, 0, false, ⟨false, 0, 0, 0, 0⟩) ∧
    (sel_cycle_direction_counted sampleScrollUI 20 sampleCycleState 6).map Prod.snd = some 2 := by
  obtain ⟨s2, h1, h2, h3, h4, h5, _⟩ :=
    (cycle_direction_failure sampleScrollUI 20 sampleCycleState 6 ⟨9, 5⟩ (by decide) (by decide)
      (by decide)).2.1 0 6 [] [⟨4, 3⟩] rfl (by decide) (by decide) rfl (by decide)
  refine ⟨?_, by decide⟩
  rw [h1]
  simp only [Option.map_some', Option.some.injEq, Prod.mk.injEq]
  rw [h2, h3, h4, h5]
  exact ⟨rfl, rfl, rfl, rfl, rfl⟩

/-! ## Theorems: the cursor in FreeMode -/

/-- The direction part of FreeMode moves the cursor to `sel_free_target`. -/
theorem sel_free_direction_eq (ui : UI) (fuel : Nat) (s : SelState) (d : Int) :
    sel_free_direction ui fuel s d =
      match adjust_panel_help ui fuel s.w s.subs (sel_free_target ui s d).1
          (sel_free_target ui s d).2 s.help with
      | none => none
      | some (true, w1, subs1) =>
        match target_set_interactive_prepare w1 fuel s.mode with
        | none => none
        | some targets1 =>
          some { s with x := (sel_free_target ui s d).2, y := (sel_free_target ui s d).1,
                        w := w1, subs := subs1, targets := targets1 }
      | some (false, w1, subs1) =>
        some { s with x := (sel_free_target ui s d).2, y := (sel_free_target ui s d).1,
                      w := w1, subs := subs1 } := rfl

/-- C28: in FreeMode a directional key moves the cursor by at most one cell
along each axis and keeps it strictly inside the map: for a cursor with
`1 <= x <= W - 2` and `1 <= y <= H - 2` (`W`, `H` the effective map width and
height) and a direction whose entries in `ddx`, `ddy` are -1, 0 or 1, the new
cursor satisfies the same bounds.  The step returns the state with that cursor
whenever the viewport adjustment and the rebuild of the candidates return. -/
theorem free_direction_stays_inside (ui : UI) (fuel : Nat) (s : SelState) (d : Int)
    (hdy : -1 ≤ ui.ddy d ∧ ui.ddy d ≤ 1) (hdx : -1 ≤ ui.ddx d ∧ ui.ddx d ≤ 1)
    (hx : 1 ≤ s.x ∧ s.x ≤ (map_dims ui s.w).2 - 2)
    (hy : 1 ≤ s.y ∧ s.y ≤ (map_dims ui s.w).1 - 2) :
    (1 ≤ (sel_free_target ui s d).2 ∧ (sel_free_target ui s d).2 ≤ (map_dims ui s.w).2 - 2 ∧
      1 ≤ (sel_free_target ui s d).1 ∧ (sel_free_target ui s d).1 ≤ (map_dims ui s.w).1 - 2 ∧
      |(sel_free_target ui s d).2 - s.x| ≤ 1 ∧ |(sel_free_target ui s d).1 - s.y| ≤ 1) ∧
    (∀ s2 : SelState, sel_free_direction ui fuel s d = some s2 →
      (s2.y, s2.x) = sel_free_target ui s d ∧ map_dims ui s2.w = map_dims ui s.w ∧
      1 ≤ s2.x ∧ s2.x ≤ (map_dims ui s2.w).2 - 2 ∧ 1 ≤ s2.y ∧ s2.y ≤ (map_dims ui s2.w).1 - 2 ∧
      |s2.x - s.x| ≤ 1 ∧ |s2.y - s.y| ≤ 1) ∧
    (∀ (c : Bool) (w1 : World) (subs1 : List sub_window),
      adjust_panel_help ui fuel s.w s.subs (sel_free_target ui s d).1 (sel_free_target ui s d).2
        s.help = some (c, w1, subs1) →
      (c = true → target_set_interactive_prepare w1 fuel s.mode ≠ none) →
      (sel_free_direction ui fuel s d).isSome = true) := by
  have hb : 1 ≤ (sel_free_target ui s d).2 ∧
      (sel_free_target ui s d).2 ≤ (map_dims ui s.w).2 - 2 ∧
      1 ≤ (sel_free_target ui s d).1 ∧ (sel_free_target ui s d).1 ≤ (map_dims ui s.w).1 - 2 ∧
      |(sel_free_target ui s d).2 - s.x| ≤ 1 ∧ |(sel_free_target ui s d).1 - s.y| ≤ 1 := by
    unfold sel_free_target
    dsimp only
    generalize (map_dims ui s.w).1 = H at hy ⊢
    generalize (map_dims ui s.w).2 = W at hx ⊢
    generalize ui.ddy d = dy0 at hdy ⊢
    generalize ui.ddx d = dx0 at hdx ⊢
    have hdy2 : ∀ dy : Int, (dy = 0 ∨ dy = dy0) →
        1 ≤ (if s.y + dy ≥ H - 1 then s.y + dy - 1 else if s.y + dy ≤ 0 then s.y + dy + 1
          else s.y + dy) ∧
        (if s.y + dy ≥ H - 1 then s.y + dy - 1 else if s.y + dy ≤ 0 then s.y + dy + 1
          else s.y + dy) ≤ H - 2 ∧
        |(if s.y + dy ≥ H - 1 then s.y + dy - 1 else if s.y + dy ≤ 0 then s.y + dy + 1
          else s.y + dy) - s.y| ≤ 1 := by
      intro dy hdy3
      rw [abs_le]
      split_ifs <;> omega
    have hdx2 : ∀ dx : Int, (dx = 0 ∨ dx = dx0) →
        1 ≤ (if s.x + dx ≥ W - 1 then s.x + dx - 1 else if s.x + dx ≤ 0 then s.x + dx + 1
          else s.x + dx) ∧
        (if s.x + dx ≥ W - 1 then s.x + dx - 1 else if s.x + dx ≤ 0 then s.x + dx + 1
          else s.x + dx) ≤ W - 2 ∧
        |(if s.x + dx ≥ W - 1 then s.x + dx - 1 else if s.x + dx ≤ 0 then s.x + dx + 1
          else s.x + dx) - s.x| ≤ 1 := by
      intro dx hdx3
      rw [abs_le]
      split_ifs <;> omega
    have h1 := hdy2 (if ui.depth = 0 ∧ s.w.cave_feat (s.y + dy0) s.x = ui.FEAT_PERM_SOLID
      then 0 else dy0) (by split_ifs; exact Or.inl rfl; exact Or.inr rfl)
    have h2 := hdx2 (if ui.depth = 0 ∧ s.w.cave_feat s.y (s.x + dx0) = ui.FEAT_PERM_SOLID
      then 0 else dx0) (by split_ifs; exact Or.inl rfl; exact Or.inr rfl)
    exact ⟨h2.1, h2.2.1, h1.1, h1.2.1, h2.2.2, h1.2.2⟩
  refine ⟨hb, ?_, ?_⟩
  · intro s2 h
    rw [sel_free_direction_eq] at h
    have key : ∀ (c : Bool) (w1 : World) (subs1 : List sub_window),
        adjust_panel_help ui fuel s.w s.subs (sel_free_target ui s d).1 (sel_free_target ui s d).2
          s.help = some (c, w1, subs1) →
        s2.x = (sel_free_target ui s d).2 → s2.y = (sel_free_target ui s d).1 → s2.w = w1 →
        (s2.y, s2.x) = sel_free_target ui s d ∧ map_dims ui s2.w = map_dims ui s.w ∧
        1 ≤ s2.x ∧ s2.x ≤ (map_dims ui s2.w).2 - 2 ∧ 1 ≤ s2.y ∧
        s2.y ≤ (map_dims ui s2.w).1 - 2 ∧ |s2.x - s.x| ≤ 1 ∧ |s2.y - s.y| ≤ 1 := by
      intro c w1 subs1 hadj ex ey ew
      obtain ⟨wy, wx, hw1⟩ := adjust_panel_help_world ui fuel s.w s.subs _ _ s.help c w1 subs1 hadj
      have hd : map_dims ui s2.w = map_dims ui s.w := by
        rw [ew, hw1]
        rfl
      rw [hd, ex, ey]
      exact ⟨rfl, rfl, hb⟩
    split at h
    · simp at h
    · rename_i w1 subs1 hadj
      split at h
      · simp at h
      · simp only [Option.some.injEq] at h
        subst h
        exact key true w1 subs1 hadj rfl rfl rfl
    · rename_i w1 subs1 hadj
      simp only [Option.some.injEq] at h
      subst h
      exact key false w1 subs1 hadj rfl rfl rfl
  · intro c w1 subs1 hadj hprep
    rw [sel_free_direction_eq, hadj]
    cases c with
    | false => rfl
    | true =>
      dsimp only
      cases hp : target_set_interactive_prepare w1 fuel s.mode with
      | none => exact absurd hp (hprep rfl)
      | some targets1 => rfl

/-- Witness of C28: the sample state of FreeMode with the cursor at
`(y, x) = (5, 5)` and the direction 6 (right): the cursor moves to `(5, 6)`. -/
theorem free_direction_stays_inside_witness :
    sel_free_target sampleUI sampleFreeState 6 = (5, 6) ∧
    (1 ≤ (sel_free_target sampleUI sampleFreeState 6).2 ∧
      (sel_free_target sampleUI sampleFreeState 6).2 ≤
        (map_dims sampleUI sampleFreeState.w).2 - 2 ∧
      1 ≤ (sel_free_target sampleUI sampleFreeState 6).1 ∧
      (sel_free_target sampleUI sampleFreeState 6).1 ≤
        (map_dims sampleUI sampleFreeState.w).1 - 2 ∧
      |(sel_free_target sampleUI sampleFreeState 6).2 - sampleFreeState.x| ≤ 1 ∧
      |(sel_free_target sampleUI sampleFreeState 6).1 - sampleFreeState.y| ≤ 1) ∧
    (sel_free_direction sampleUI 20 sampleFreeState 6).isSome = true :=
  ⟨by decide,
   (free_direction_stays_inside sampleUI 20 sampleFreeState 6 (by decide) (by decide)
     (by decide) (by decide)).1,
   (free_direction_stays_inside sampleUI 20 sampleFreeState 6 (by decide) (by decide)
     (by decide) (by decide)).2.2 false sampleWorld [] rfl (fun h => absurd h (by decide))⟩

/-! ## Theorems: the closest target -/

/-- C33: `target_set_closest(mode)` first cancels the existing target, so its
result does not depend on the record it is called with.  It returns TRUE
exactly when the candidate set is non-empty and its first (nearest) candidate
holds a monster index `> 0` that is `target_able`; the record then has
`target_set = TRUE`, `target_who` that monster, `target_what = 0` and the
location of the monster, which is the candidate's cell when the cave grid and
the monster table agree on where the monster is.  Whenever it returns FALSE
the record is clear.  It returns whenever the candidate scan does.  The
monster table has at most 65536 slots, the range of `target_who`. -/
theorem closest_targets_first_candidate (w : World) (fuel : Nat) (t : TargetState) (mode : Nat)
    (hm : w.m_list.length ≤ 65536) :
    (∀ t2 : TargetState, target_set_closest w fuel t mode = target_set_closest w fuel t2 mode) ∧
    (∀ targets : List loc, target_set_interactive_prepare w fuel mode = some targets →
      ∃ (b : Bool) (t1 : TargetState), target_set_closest w fuel t mode = some (b, t1) ∧
        (b = true ↔ ∃ (p : loc) (rest : List loc), targets = p :: rest ∧
          0 < w.cave_m_idx p.y p.x ∧ target_able w (w.cave_m_idx p.y p.x) = true) ∧
        (b = false → t1 = ⟨false, 0, 0, 0, 0⟩) ∧
        (b = true → ∀ (p : loc) (rest : List loc), targets = p :: rest →
          t1 = ⟨true, w.cave_m_idx p.y p.x, 0,
            ((w.mon (w.cave_m_idx p.y p.x).toNat).fx.val : Int),
            ((w.mon (w.cave_m_idx p.y p.x).toNat).fy.val : Int)⟩ ∧
          ((((w.mon (w.cave_m_idx p.y p.x).toNat).fx.val : Int) = p.x ∧
            ((w.mon (w.cave_m_idx p.y p.x).toNat).fy.val : Int) = p.y) →
            t1 = ⟨true, w.cave_m_idx p.y p.x, 0, p.x, p.y⟩))) ∧
    (∀ (b : Bool) (t1 : TargetState), target_set_closest w fuel t mode = some (b, t1) →
      target_set_interactive_prepare w fuel mode ≠ none ∧
      (b = false → t1.target_set = false ∧ t1.target_who = 0 ∧ t1.target_what = 0)) := by
  have hclear : ∀ t3 : TargetState, target_set_monster w t3 0 = ⟨false, 0, 0, 0, 0⟩ := by
    intro t3
    simp [target_set_monster, target_able]
  have hres : ∀ targets : List loc, target_set_interactive_prepare w fuel mode = some targets →
      ∃ (b : Bool) (t1 : TargetState), target_set_closest w fuel t mode = some (b, t1) ∧
        (b = true ↔ ∃ (p : loc) (rest : List loc), targets = p :: rest ∧
          0 < w.cave_m_idx p.y p.x ∧ target_able w (w.cave_m_idx p.y p.x) = true) ∧
        (b = false → t1 = ⟨false, 0, 0, 0, 0⟩) ∧
        (b = true → ∀ (p : loc) (rest : List loc), targets = p :: rest →
          t1 = ⟨true, w.cave_m_idx p.y p.x, 0,
            ((w.mon (w.cave_m_idx p.y p.x).toNat).fx.val : Int),
            ((w.mon (w.cave_m_idx p.y p.x).toNat).fy.val : Int)⟩ ∧
          ((((w.mon (w.cave_m_idx p.y p.x).toNat).fx.val : Int) = p.x ∧
            ((w.mon (w.cave_m_idx p.y p.x).toNat).fy.val : Int) = p.y) →
            t1 = ⟨true, w.cave_m_idx p.y p.x, 0, p.x, p.y⟩)) := by
    intro targets hp
    cases targets with
    | nil =>
      refine ⟨false, ⟨false, 0, 0, 0, 0⟩, ?_, ?_, fun _ => rfl, fun h => absurd h (by decide)⟩
      · unfold target_set_closest
        rw [hp]
        dsimp only
        rw [hclear]
      · constructor
        · intro h
          exact absurd h (by decide)
        · rintro ⟨p, rest, h, _⟩
          exact absurd h (by simp)
    | cons p rest =>
      by_cases hbad : w.cave_m_idx p.y p.x ≤ 0 ∨ target_able w (w.cave_m_idx p.y p.x) = false
      · refine ⟨false, ⟨false, 0, 0, 0, 0⟩, ?_, ?_, fun _ => rfl, fun h => absurd h (by decide)⟩
        · unfold target_set_closest
          rw [hp]
          dsimp only
          rw [if_pos hbad, hclear]
        · constructor
          · intro h
            exact absurd h (by decide)
          · rintro ⟨p2, rest2, h, h1, h2⟩
            simp only [List.cons.injEq] at h
            rw [← h.1] at h1 h2
            rcases hbad with h3 | h3
            · omega
            · rw [h2] at h3
              exact absurd h3 (by decide)
      · have hpos : 0 < w.cave_m_idx p.y p.x := by
          by_contra hn
          exact hbad (Or.inl (by omega))
        have hable : target_able w (w.cave_m_idx p.y p.x) = true := by
          cases hc : target_able w (w.cave_m_idx p.y p.x) with
          | true => rfl
          | false => exact absurd (Or.inr hc) hbad
        have hlt := target_able_lt_length w _ hable
        have hset : ∀ t3 : TargetState, target_set_monster w t3 (w.cave_m_idx p.y p.x) =
            ⟨true, w.cave_m_idx p.y p.x, 0,
              ((w.mon (w.cave_m_idx p.y p.x).toNat).fx.val : Int),
              ((w.mon (w.cave_m_idx p.y p.x).toNat).fy.val : Int)⟩ := by
          intro t3
          unfold target_set_monster
          simp only [hpos, hable, decide_True, Bool.and_self, if_true, s16b_byte]
          rw [u16b_of_range (le_of_lt hpos) (by omega)]
        refine ⟨true, ⟨true, w.cave_m_idx p.y p.x, 0,
          ((w.mon (w.cave_m_idx p.y p.x).toNat).fx.val : Int),
          ((w.mon (w.cave_m_idx p.y p.x).toNat).fy.val : Int)⟩, ?_, ?_,
          fun h => absurd h (by decide), ?_⟩
        · unfold target_set_closest
          rw [hp]
          dsimp only
          rw [if_neg hbad, hset]
        · constructor
          · intro _
            exact ⟨p, rest, rfl, hpos, hable⟩
          · intro _
            rfl
        · intro _ p2 rest2 h
          simp only [List.cons.injEq] at h
          rw [← h.1]
          refine ⟨rfl, ?_⟩
          rintro ⟨e1, e2⟩
          rw [e1, e2]
  refine ⟨?_, hres, ?_⟩
  · intro t2
    unfold target_set_closest
    rw [hclear t, hclear t2]
  · intro b t1 h
    cases hp : target_set_interactive_prepare w fuel mode with
    | none =>
      unfold target_set_closest at h
      rw [hp] at h
      simp at h
    | some targets =>
      obtain ⟨b2, t2, h2, _, h4, _⟩ := hres targets hp
      rw [h2] at h
      simp only [Option.some.injEq, Prod.mk.injEq] at h
      refine ⟨by simp, ?_⟩
      intro hb
      rw [← h.1] at hb
      rw [← h.2, h4 hb]
      exact ⟨rfl, rfl, rfl⟩

/-- Witness of C33: in the sample world in monster-restricted mode the nearest
candidate is the cell `(y, x) = (3, 4)` of monster 1, which is targeted,
whatever target was set before. -/
theorem closest_targets_first_candidate_witness :
    target_set_closest sampleWorld 20 ⟨true, 0, 0, 9, 9⟩ 1 = some (true, ⟨true, 1, 0, 4, 3⟩) := by
  obtain ⟨b, t1, h1, h2, _, h4⟩ :=
    (closest_targets_first_candidate sampleWorld 20 ⟨true, 0, 0, 9, 9⟩ 1 (by decide)).2.1
      [⟨4, 3⟩] (by decide)
  have hb : b = true := h2.mpr ⟨⟨4, 3⟩, [], rfl, by decide, by decide⟩
  have ht := (h4 hb ⟨4, 3⟩ [] rfl).2 ⟨by decide, by decide⟩
  rw [h1, hb, ht]
  rfl

/-! ## Helper lemmas: the iterations of the loop -/

/-- A run of the loop that iterates over the events `pre` continues from the
state they lead to. -/
theorem sel_steps_loop (ui : UI) (fuel : Nat) (rest : List ui_event) :
    ∀ (pre : List ui_event) (s s1 : SelState), sel_steps ui fuel s pre = some s1 →
      sel_loop ui fuel s (pre ++ rest) = sel_loop ui fuel s1 rest := by
  intro pre
  induction pre with
  | nil =>
    intro s s1 h
    simp only [sel_steps, Option.some.injEq] at h
    rw [h, List.nil_append]
  | cons e es ih =>
    intro s s1 h
    rw [sel_steps] at h
    cases hd : s.done with
    | true => simp [hd] at h
    | false =>
      rw [if_neg (by rw [hd]; decide)] at h
      rw [List.cons_append, sel_loop, if_neg (by rw [hd]; decide)]
      cases hb : sel_branch s with
      | failure => simp [hb] at h
      | cycle =>
        simp only [hb] at h ⊢
        cases hs : sel_cycle ui fuel s e with
        | none => simp [hs] at h
        | some s2 =>
          simp only [hs] at h ⊢
          exact ih s2 s1 h
      | free =>
        simp only [hb] at h ⊢
        cases hs : sel_free ui fuel s e with
        | none => simp [hs] at h
        | some s2 =>
          simp only [hs] at h ⊢
          exact ih s2 s1 h

/-- A property of the states that every iteration keeps holds after any number
of iterations. -/
theorem sel_steps_invariant (ui : UI) (fuel : Nat) (P : SelState → Prop)
    (hc : ∀ (s s2 : SelState) (e : ui_event), P s → s.done = false →
      sel_branch s = SelBranch.cycle → sel_cycle ui fuel s e = some s2 → P s2)
    (hf : ∀ (s s2 : SelState) (e : ui_event), P s → s.done = false →
      sel_branch s = SelBranch.free → sel_free ui fuel s e = some s2 → P s2) :
    ∀ (evs : List ui_event) (s s1 : SelState), P s → sel_steps ui fuel s evs = some s1 →
      P s1 := by
  intro evs
  induction evs with
  | nil =>
    intro s s1 hP h
    simp only [sel_steps, Option.some.injEq] at h
    rw [← h]
    exact hP
  | cons e es ih =>
    intro s s1 hP h
    rw [sel_steps] at h
    cases hd : s.done with
    | true => simp [hd] at h
    | false =>
      rw [if_neg (by rw [hd]; decide)] at h
      cases hb : sel_branch s with
      | failure => simp [hb] at h
      | cycle =>
        simp only [hb] at h
        cases hs : sel_cycle ui fuel s e with
        | none => simp [hs] at h
        | some s2 =>
          simp only [hs] at h
          exact ih s2 s1 (hc s s2 e hP hd hb hs) h
      | free =>
        simp only [hb] at h
        cases hs : sel_free ui fuel s e with
        | none => simp [hs] at h
        | some s2 =>
          simp only [hs] at h
          exact ih s2 s1 (hf s s2 e hP hd hb hs) h

/-- One more iteration after the iterations over `pre`. -/
theorem sel_steps_snoc (ui : UI) (fuel : Nat) (e : ui_event) (s1 s2 : SelState)
    (hd : s1.done = false)
    (hstep : (sel_branch s1 = SelBranch.cycle ∧ sel_cycle ui fuel s1 e = some s2) ∨
      (sel_branch s1 = SelBranch.free ∧ sel_free ui fuel s1 e = some s2)) :
    ∀ (pre : List ui_event) (s : SelState), sel_steps ui fuel s pre = some s1 →
      sel_steps ui fuel s (pre ++ [e]) = some s2 := by
  intro pre
  induction pre with
  | nil =>
    intro s h
    simp only [sel_steps, Option.some.injEq] at h
    rw [h, List.nil_append, sel_steps, if_neg (by rw [hd]; decide)]
    rcases hstep with ⟨hb, hs⟩ | ⟨hb, hs⟩
    · simp only [hb, hs]
      rfl
    · simp only [hb, hs]
      rfl
  | cons e0 es ih =>
    intro s h
    rw [sel_steps] at h
    cases hd0 : s.done with
    | true => simp [hd0] at h
    | false =>
      rw [if_neg (by rw [hd0]; decide)] at h
      rw [List.cons_append, sel_steps, if_neg (by rw [hd0]; decide)]
      cases hb : sel_branch s with
      | failure => simp [hb] at h
      | cycle =>
        simp only [hb] at h ⊢
        cases hs : sel_cycle ui fuel s e0 with
        | none => simp [hs] at h
        | some s3 =>
          simp only [hs] at h ⊢
          exact ih s3 h
      | free =>
        simp only [hb] at h ⊢
        cases hs : sel_free ui fuel s e0 with
        | none => simp [hs] at h
        | some s3 =>
          simp only [hs] at h ⊢
          exact ih s3 h

/-- The confirm step of CycleMode changes the record, the flag `done` and the
bell count only. -/
theorem sel_cycle_confirm_frame (fuel : Nat) (s s2 : SelState)
    (h : sel_cycle_confirm fuel s = some s2) :
    s2.w = s.w ∧ s2.mode = s.mode ∧ s2.m = s.m ∧ s2.flag = s.flag ∧ s2.targets = s.targets := by
  unfold sel_cycle_confirm at h
  dsimp only at h
  split_ifs at h
  all_goals first
    | (simp only [Option.some.injEq] at h; subst h; exact ⟨rfl, rfl, rfl, rfl, rfl⟩)
    | skip
  split at h
  · simp at h
  · split at h
    · simp at h
    · simp only [Option.some.injEq] at h; subst h; exact ⟨rfl, rfl, rfl, rfl, rfl⟩
  · simp only [Option.some.injEq] at h; subst h; exact ⟨rfl, rfl, rfl, rfl, rfl⟩

/-- The analysis of an event in CycleMode leaves the mode and the flag
constants of the world as they are. -/
theorem sel_cycle_event_static (ui : UI) (fuel : Nat) (s s2 : SelState) (press : ui_event)
    (d : Int) (h : sel_cycle_event ui fuel s press = some (s2, d)) :
    s2.mode = s.mode ∧ s2.w.TARGET_OBJ = s.w.TARGET_OBJ := by
  revert h
  by_cases hm : press.is_mouse = true
  · apply sel_cycle_mouse_cases
      (fun r => r = some (s2, d) → (s2.mode = s.mode ∧ s2.w.TARGET_OBJ = s.w.TARGET_OBJ))
      ui fuel s press hm
    all_goals
      intros
      rename_i h
      simp only [Option.some.injEq, Prod.mk.injEq] at h
      obtain ⟨h1, _⟩ := h
      subst h1
      exact ⟨rfl, rfl⟩
  · have hk : press.is_mouse = false := by simpa using hm
    rw [sel_cycle_event_key ui fuel s press hk]
    apply sel_cycle_key_cases
      (fun r => r = some (s2, d) → (s2.mode = s.mode ∧ s2.w.TARGET_OBJ = s.w.TARGET_OBJ))
    all_goals first
      | (intros
         rename_i h
         simp only [Option.some.injEq, Prod.mk.injEq] at h
         obtain ⟨h1, _⟩ := h
         subst h1
         exact ⟨rfl, rfl⟩)
      | (intro h
         simp only [Option.map_eq_some', Prod.mk.injEq] at h
         obtain ⟨a, ha, h1, _⟩ := h
         subst h1
         obtain ⟨e1, e2, _⟩ := sel_cycle_confirm_frame fuel s a ha
         rw [e1, e2]
         exact ⟨rfl, rfl⟩)

/-- The direction part of CycleMode leaves the mode and the flag constants of
the world as they are. -/
theorem sel_cycle_direction_static (ui : UI) (fuel : Nat) (s s2 : SelState) (d : Int)
    (h : sel_cycle_direction ui fuel s d = some s2) :
    s2.mode = s.mode ∧ s2.w.TARGET_OBJ = s.w.TARGET_OBJ := by
  unfold sel_cycle_direction at h
  split at h
  · simp at h
  · dsimp only at h
    split_ifs at h
    · split at h
      · split at h
        · simp at h
        · split_ifs at h
          · split at h
            · split at h
              · simp at h
              · simp only [Option.some.injEq] at h; subst h; exact ⟨rfl, rfl⟩
            · simp only [Option.some.injEq] at h; subst h; exact ⟨rfl, rfl⟩
          · simp only [Option.some.injEq] at h; subst h; exact ⟨rfl, rfl⟩
      · simp only [Option.some.injEq] at h; subst h; exact ⟨rfl, rfl⟩
    · simp only [Option.some.injEq] at h; subst h; exact ⟨rfl, rfl⟩

/-- One iteration of CycleMode leaves the mode and the flag constants of the
world as they are. -/
theorem sel_cycle_static (ui : UI) (fuel : Nat) (s s2 : SelState) (press : ui_event)
    (h : sel_cycle ui fuel s press = some s2) :
    s2.mode = s.mode ∧ s2.w.TARGET_OBJ = s.w.TARGET_OBJ := by
  unfold sel_cycle at h
  split at h
  · simp at h
  · split at h
    · simp at h
    · rename_i c w1 subs1 hadj
      obtain ⟨wy, wx, hw1⟩ := adjust_panel_help_world ui fuel s.w s.subs _ _ s.help c w1 subs1 hadj
      dsimp only at h
      split at h
      · simp at h
      · split at h
        · simp at h
        · rename_i s3 d he
          have h3 := sel_cycle_event_static ui fuel _ s3 press d he
          have h5 : s3.mode = s.mode ∧ s3.w.TARGET_OBJ = s.w.TARGET_OBJ := by
            refine ⟨h3.1, ?_⟩
            rw [h3.2]
            show w1.TARGET_OBJ = s.w.TARGET_OBJ
            rw [hw1]
            rfl
          split_ifs at h
          · have h4 := sel_cycle_direction_static ui fuel s3 s2 d h
            rw [h4.1, h4.2]
            exact h5
          · simp only [Option.some.injEq] at h
            subst h
            exact h5

/-- The analysis of an event in FreeMode leaves the mode and the flag
constants of the world as they are. -/
theorem sel_free_event_static (ui : UI) (fuel : Nat) (s s2 : SelState) (press : ui_event)
    (d : Int) (h : sel_free_event ui fuel s press = some (s2, d)) :
    s2.mode = s.mode ∧ s2.w.TARGET_OBJ = s.w.TARGET_OBJ := by
  revert h
  by_cases hm : press.is_mouse = true
  · apply sel_free_mouse_cases
      (fun r => r = some (s2, d) → (s2.mode = s.mode ∧ s2.w.TARGET_OBJ = s.w.TARGET_OBJ))
      ui fuel s press hm
    all_goals first
      | (intro h
         exact absurd h (by simp))
      | (intros
         rename_i h
         simp only [Option.some.injEq, Prod.mk.injEq] at h
         obtain ⟨h1, _⟩ := h
         subst h1
         exact ⟨rfl, rfl⟩)
      | (intro y x changed w1 subs1 targets1 hadj _
         obtain ⟨wy, wx, hw1⟩ :=
           adjust_panel_help_world ui fuel s.w s.subs y x s.help changed w1 subs1 hadj
         have hobj : w1.TARGET_OBJ = s.w.TARGET_OBJ := by
           rw [hw1]
           rfl
         refine ⟨?_, ?_, ?_⟩
         all_goals
           intros
           rename_i h
           simp only [Option.some.injEq, Prod.mk.injEq] at h
           obtain ⟨h1, _⟩ := h
           subst h1
           exact ⟨rfl, hobj⟩)
  · have hk : press.is_mouse = false := by simpa using hm
    rw [sel_free_event_key ui fuel s press hk]
    apply sel_free_key_cases
      (fun r => r = some (s2, d) → (s2.mode = s.mode ∧ s2.w.TARGET_OBJ = s.w.TARGET_OBJ))
    all_goals
      intros
      rename_i h
      simp only [Option.some.injEq, Prod.mk.injEq] at h
      obtain ⟨h1, _⟩ := h
      subst h1
      exact ⟨rfl, rfl⟩

/-- The direction part of FreeMode leaves the mode and the flag constants of
the world as they are. -/
theorem sel_free_direction_static (ui : UI) (fuel : Nat) (s s2 : SelState) (d : Int)
    (h : sel_free_direction ui fuel s d = some s2) :
    s2.mode = s.mode ∧ s2.w.TARGET_OBJ = s.w.TARGET_OBJ := by
  rw [sel_free_direction_eq] at h
  split at h
  · simp at h
  · rename_i w1 subs1 hadj
    obtain ⟨wy, wx, hw1⟩ := adjust_panel_help_world ui fuel s.w s.subs _ _ s.help _ w1 subs1 hadj
    split at h
    · simp at h
    · simp only [Option.some.injEq] at h
      subst h
      refine ⟨rfl, ?_⟩
      show w1.TARGET_OBJ = s.w.TARGET_OBJ
      rw [hw1]
      rfl
  · rename_i w1 subs1 hadj
    obtain ⟨wy, wx, hw1⟩ := adjust_panel_help_world ui fuel s.w s.subs _ _ s.help _ w1 subs1 hadj
    simp only [Option.some.injEq] at h
    subst h
    refine ⟨rfl, ?_⟩
    show w1.TARGET_OBJ = s.w.TARGET_OBJ
    rw [hw1]
    rfl

/-- One iteration of FreeMode leaves the mode and the flag constants of the
world as they are. -/
theorem sel_free_static (ui : UI) (fuel : Nat) (s s2 : SelState) (press : ui_event)
    (h : sel_free ui fuel s press = some s2) :
    s2.mode = s.mode ∧ s2.w.TARGET_OBJ = s.w.TARGET_OBJ := by
  unfold sel_free at h
  split at h
  · simp at h
  · rename_i s3 d he
    have h3 := sel_free_event_static ui fuel s s3 press d he
    split_ifs at h
    · have h4 := sel_free_direction_static ui fuel s3 s2 d h
      rw [h4.1, h4.2]
      exact h3
    · simp only [Option.some.injEq] at h
      subst h
      exact h3

/-- After any number of iterations from a state with a clear record, the record
is clear as long as `done` is not set, and the mode and the flag constants are
those of the first state. -/
theorem sel_steps_static (ui : UI) (fuel : Nat) (s0 s : SelState) (evs : List ui_event)
    (h0 : s0.t = ⟨false, 0, 0, 0, 0⟩) (h : sel_steps ui fuel s0 evs = some s) :
    (s.done = false → s.t = ⟨false, 0, 0, 0, 0⟩) ∧ s.mode = s0.mode ∧
      s.w.TARGET_OBJ = s0.w.TARGET_OBJ := by
  refine sel_steps_invariant ui fuel
    (fun s => (s.done = false → s.t = ⟨false, 0, 0, 0, 0⟩) ∧ s.mode = s0.mode ∧
      s.w.TARGET_OBJ = s0.w.TARGET_OBJ) ?_ ?_ evs s0 s ⟨fun _ => h0, rfl, rfl⟩ h
  · intro s1 s2 e hP hd _ hs
    obtain ⟨h1, h2⟩ := sel_cycle_static ui fuel s1 s2 e hs
    refine ⟨?_, by rw [h1]; exact hP.2.1, by rw [h2]; exact hP.2.2⟩
    intro hd2
    rcases sel_cycle_record ui fuel s1 s2 e hs with h3 | h3
    · rw [h3]
      exact hP.1 hd
    · rw [hd2] at h3
      exact absurd h3 (by decide)
  · intro s1 s2 e hP hd _ hs
    obtain ⟨h1, h2⟩ := sel_free_static ui fuel s1 s2 e hs
    refine ⟨?_, by rw [h1]; exact hP.2.1, by rw [h2]; exact hP.2.2⟩
    intro hd2
    rcases sel_free_record ui fuel s1 s2 e hs with h3 | h3
    · rw [h3]
      exact hP.1 hd
    · rw [hd2] at h3
      exact absurd h3 (by decide)

/-- The failure branch ends the loop at once, reading no event. -/
theorem sel_loop_failure (ui : UI) (fuel : Nat) (s : SelState) (evs : List ui_event)
    (hd : s.done = false) (hb : sel_branch s = SelBranch.failure) :
    sel_loop ui fuel s evs = some (sel_failure s, evs) := by
  cases evs with
  | nil =>
    rw [sel_loop, if_neg (by rw [hd]; decide)]
    simp only [hb]
  | cons e es =>
    rw [sel_loop, if_neg (by rw [hd]; decide)]
    simp only [hb]

/-- The state at the entry of the loop: the mode without `TARGET_GRID`, the
world the call is made in, and the flag `flag`, unset when a start cell or the
flag `TARGET_GRID` is given. -/
theorem sel_enter_state (ui : UI) (fuel : Nat) (w : World) (subs : List sub_window)
    (t : TargetState) (mode : Nat) (x y : Int) (s0 : SelState)
    (he : sel_enter ui fuel w subs t mode x y = some s0) :
    s0.w = w ∧ s0.mode = clear_flag mode ui.TARGET_GRID ∧ s0.m = 0 ∧
      (((x ≠ -1 ∧ y ≠ -1) ∨ mode &&& ui.TARGET_GRID ≠ 0) → s0.flag = false) := by
  unfold sel_enter at he
  dsimp only at he
  split at he
  · simp at he
  · simp only [Option.some.injEq] at he
    subst he
    refine ⟨rfl, ?_, rfl, ?_⟩
    · show (if mode &&& ui.TARGET_GRID ≠ 0 then clear_flag mode ui.TARGET_GRID else mode) = _
      split
      · rfl
      · rename_i hg
        exact (clear_flag_of_unset mode ui.TARGET_GRID (not_not.mp hg)).symm
    · intro htrig
      show (if mode &&& ui.TARGET_GRID ≠ 0 then false
        else (decide (x = -1) || decide (y = -1))) = false
      by_cases hg : mode &&& ui.TARGET_GRID ≠ 0
      · rw [if_pos hg]
      · rw [if_neg hg]
        rcases htrig with ⟨hx, hy⟩ | hg2
        · simp [hx, hy]
        · exact absurd hg2 hg

/-- A click in CycleMode, not of button 2 or 3, keeps `done` and yields no
direction; it clears `flag` unless the clicked cell, to which the cursor goes,
is found in the point set. -/
theorem sel_cycle_event_click (ui : UI) (fuel : Nat) (s s2 : SelState) (e : ui_event) (d : Int)
    (hmouse : e.is_mouse = true) (hb2 : e.button ≠ 2) (hb3 : e.button ≠ 3)
    (h : sel_cycle_event ui fuel s e = some (s2, d)) :
    d = 0 ∧ s2.done = s.done ∧
      (s2.flag = false ∨ ∃ i : Nat, sel_find s.targets s2.y s2.x = some i) := by
  revert h
  unfold sel_cycle_event
  rw [if_pos hmouse]
  lift_lets
  intro button mods cy cx m_idx h
  have hbut : ¬ (button = 2) := by
    show ¬ ((if e.button = 3 then 2 else e.button) = 2)
    rw [if_neg hb3]
    exact hb2
  rw [if_neg hbut] at h
  by_cases hc : s.w.cave_m_idx cy cx ≠ 0 ∨ s.w.cave_o_idx cy cx ≠ 0
  · rw [if_pos hc] at h
    cases hf : sel_find s.targets cy cx with
    | none =>
      rw [hf] at h
      simp only [Option.some.injEq, Prod.mk.injEq] at h
      obtain ⟨h1, h2⟩ := h
      subst h1
      exact ⟨h2.symm, rfl, Or.inl rfl⟩
    | some i =>
      rw [hf] at h
      simp only [Option.some.injEq, Prod.mk.injEq] at h
      obtain ⟨h1, h2⟩ := h
      subst h1
      exact ⟨h2.symm, rfl, Or.inr ⟨i, hf⟩⟩
  · rw [if_neg hc] at h
    simp only [Option.some.injEq, Prod.mk.injEq] at h
    obtain ⟨h1, h2⟩ := h
    subst h1
    exact ⟨h2.symm, rfl, Or.inl rfl⟩

/-- The keys `o` and `p` in CycleMode keep `done`, clear `flag` and yield no
direction. -/
theorem sel_cycle_event_leave (ui : UI) (fuel : Nat) (s s2 : SelState) (e : ui_event) (d : Int)
    (hkey : e.is_mouse = false)
    (hcode : e.code = keycode.chr 'o' ∨ e.code = keycode.chr 'p')
    (h : sel_cycle_event ui fuel s e = some (s2, d)) :
    d = 0 ∧ s2.done = s.done ∧ s2.flag = false := by
  rw [sel_cycle_event_key ui fuel s e hkey] at h
  rcases hcode with hc | hc
  · rw [hc] at h
    have hk : sel_cycle_key ui fuel s (keycode.chr 'o') = some ({ s with flag := false }, 0) := rfl
    rw [hk] at h
    simp only [Option.some.injEq, Prod.mk.injEq] at h
    obtain ⟨h1, h2⟩ := h
    subst h1
    exact ⟨h2.symm, rfl, rfl⟩
  · rw [hc] at h
    have hk : sel_cycle_key ui fuel s (keycode.chr 'p') =
        some ({ s with w := s.w.scrolled (ui.verify_panel s.w).1 (ui.verify_panel s.w).2,
                       y := s.w.py, x := s.w.px, flag := false }, 0) := rfl
    rw [hk] at h
    simp only [Option.some.injEq, Prod.mk.injEq] at h
    obtain ⟨h1, h2⟩ := h
    subst h1
    exact ⟨h2.symm, rfl, rfl⟩

/-! ## Theorems: object-restricted mode outside CycleMode -/

/-- C32: in object-restricted mode FreeMode is never usable.  Whenever the loop
comes to an iteration outside CycleMode, that iteration takes the failure
branch: the session ends there without reading a further event, the failure
message is reported once and `target_set_interactive` returns FALSE with a
clear record, whatever the candidate set holds.  The loop is outside CycleMode
at its first iteration when a start cell or the flag `TARGET_GRID` is given,
and at the iteration that follows the toggle-mode key `o`, the recenter key
`p`, or a click (not of button 2 or 3) on a cell that is not in the candidate
list.  The flags `TARGET_GRID` and `TARGET_OBJ` are distinct bits. -/
theorem object_mode_no_free_mode (ui : UI) (fuel : Nat) (w : World) (subs : List sub_window)
    (t : TargetState) (mode : Nat) (x y : Int) (s0 : SelState)
    (hbits : ui.TARGET_GRID &&& w.TARGET_OBJ = 0) (hobj : mode &&& w.TARGET_OBJ ≠ 0)
    (he : sel_enter ui fuel w subs t mode x y = some s0) :
    (∀ (pre rest : List ui_event) (s : SelState), sel_steps ui fuel s0 pre = some s →
      s.done = false → sel_branch s ≠ SelBranch.cycle →
      sel_branch s = SelBranch.failure ∧
      ∃ r, target_set_interactive ui fuel w subs t mode x y (pre ++ rest) = some r ∧
        r.ret = false ∧ r.reports = 1 ∧ r.unread = rest ∧
        r.final.failure_message = true ∧ r.final.t = ⟨false, 0, 0, 0, 0⟩ ∧
        r.final.targets = s.targets) ∧
    (((x ≠ -1 ∧ y ≠ -1) ∨ mode &&& ui.TARGET_GRID ≠ 0) →
      s0.done = false ∧ sel_branch s0 ≠ SelBranch.cycle) ∧
    (∀ (pre : List ui_event) (s s2 : SelState) (e : ui_event),
      sel_steps ui fuel s0 pre = some s → s.done = false → sel_branch s = SelBranch.cycle →
      sel_cycle ui fuel s e = some s2 →
      ((e.is_mouse = false ∧ (e.code = keycode.chr 'o' ∨ e.code = keycode.chr 'p')) ∨
        (e.is_mouse = true ∧ e.button ≠ 2 ∧ e.button ≠ 3 ∧
          sel_find s.targets s2.y s2.x = none)) →
      sel_steps ui fuel s0 (pre ++ [e]) = some s2 ∧ s2.done = false ∧
        sel_branch s2 ≠ SelBranch.cycle) := by
  obtain ⟨h0t, h0d⟩ := sel_enter_record ui fuel w subs t mode x y s0 he
  obtain ⟨h0w, h0m, _, h0f⟩ := sel_enter_state ui fuel w subs t mode x y s0 he
  have hobj0 : s0.mode &&& s0.w.TARGET_OBJ ≠ 0 := by
    rw [h0w, h0m, clear_flag_and mode ui.TARGET_GRID w.TARGET_OBJ hbits]
    exact hobj
  refine ⟨?_, ?_, ?_⟩
  · intro pre rest s hsteps hd hb
    obtain ⟨hst, hsm, hso⟩ := sel_steps_static ui fuel s0 s pre h0t hsteps
    have hbf : sel_branch s = SelBranch.failure := by
      unfold sel_branch at hb ⊢
      by_cases hc : s.flag = true ∧ s.targets.length ≠ 0
      · rw [if_pos hc] at hb
        exact absurd rfl hb
      · rw [if_neg hc, if_pos (by rw [hsm, hso]; exact hobj0)]
    refine ⟨hbf, ?_⟩
    have hl : sel_loop ui fuel s0 (pre ++ rest) = some (sel_failure s, rest) := by
      rw [sel_steps_loop ui fuel rest pre s0 s hsteps]
      exact sel_loop_failure ui fuel s rest hd hbf
    refine ⟨⟨false,
      { sel_failure s with
        w := (sel_failure s).w.scrolled (ui.verify_panel (sel_failure s).w).1
          (ui.verify_panel (sel_failure s).w).2 }, 1, rest⟩, ?_, rfl, rfl, rfl, rfl, hst hd, rfl⟩
    unfold target_set_interactive
    rw [he]
    dsimp only
    rw [hl]
    dsimp only
    have hts : (sel_failure s).t.target_set = false := by
      show s.t.target_set = false
      rw [hst hd]
    rw [if_pos (by rw [hts]; rfl)]
    rfl
  · intro htrig
    refine ⟨h0d, ?_⟩
    unfold sel_branch
    rw [if_neg (by rw [h0f htrig]; simp)]
    split <;> simp
  · intro pre s s2 e hsteps hd hb hs htrig
    have hflag : s2.done = false ∧ s2.flag = false := by
      unfold sel_cycle at hs
      split at hs
      · simp at hs
      · split at hs
        · simp at hs
        · dsimp only at hs
          split at hs
          · simp at hs
          · split at hs
            · simp at hs
            · rename_i s3 d hev
              rcases htrig with ⟨hk, hcode⟩ | ⟨hmouse, hb2, hb3, hfind⟩
              · obtain ⟨hd0, hd3, hf3⟩ := sel_cycle_event_leave ui fuel _ s3 e d hk hcode hev
                rw [if_neg (by rw [hd0]; decide)] at hs
                simp only [Option.some.injEq] at hs
                subst hs
                exact ⟨hd3.trans hd, hf3⟩
              · obtain ⟨hd0, hd3, hf3⟩ :=
                  sel_cycle_event_click ui fuel _ s3 e d hmouse hb2 hb3 hev
                rw [if_neg (by rw [hd0]; decide)] at hs
                simp only [Option.some.injEq] at hs
                subst hs
                refine ⟨hd3.trans hd, ?_⟩
                rcases hf3 with hf3 | ⟨i, hi⟩
                · exact hf3
                · rw [show sel_find s.targets s3.y s3.x = none from hfind] at hi
                  exact absurd hi (by simp)
    refine ⟨sel_steps_snoc ui fuel e s s2 hd (Or.inl ⟨hb, hs⟩) pre s0 hsteps, hflag.1, ?_⟩
    unfold sel_branch
    rw [if_neg (by rw [hflag.2]; simp)]
    split <;> simp

/-- Witness of C32: a call in object-restricted mode with the start cell
`(5, 5)` in a world with one object candidate: the session ends at its first
iteration, reads no event, reports the failure once and returns FALSE, and the
candidate set holds the cell of the object. -/
theorem object_mode_no_free_mode_witness :
    (target_set_interactive sampleUI 20 objectWorld [] TargetState.initial 32 5 5
      [key_press 't']).map (fun r => (r.ret, r.reports, r.unread, r.final.targets)) =
      some (false, 1, [key_press 't'], [⟨6, 3⟩]) := by
  have hs : (sel_enter sampleUI 20 objectWorld [] TargetState.initial 32 5 5).isSome = true := by
    decide
  obtain ⟨s0, he⟩ := Option.isSome_iff_exists.mp hs
  have ht : s0.targets = [⟨6, 3⟩] := by
    have : (sel_enter sampleUI 20 objectWorld [] TargetState.initial 32 5 5).map
        (fun s => s.targets) = some [⟨6, 3⟩] := by decide
    rw [he] at this
    simpa using this
  have h := object_mode_no_free_mode sampleUI 20 objectWorld [] TargetState.initial 32 5 5 s0
    (by decide) (by decide) he
  obtain ⟨hd, hb⟩ := h.2.1 (Or.inl ⟨by decide, by decide⟩)
  obtain ⟨_, r, hr, h1, h2, h3, _, _, h6⟩ := h.1 [] [key_press 't'] s0 rfl hd hb
  rw [List.nil_append] at hr
  rw [hr]
  simp only [Option.map_some', Option.some.injEq, Prod.mk.injEq]
  exact ⟨h1, h2, h3, h6.trans ht⟩

/-! ## Helper lemmas: the index into the point set -/

/-- The scan loop of `target_pick` returns the index it was given or the
position of a scanned candidate. -/
theorem target_pick_loop_range (y1 x1 dy dx : Int) :
    ∀ (ps : List loc) (i b_i b_v : Int), 0 ≤ i → (b_i = -1 ∨ (0 ≤ b_i ∧ b_i < i)) →
      (target_pick_loop y1 x1 dy dx ps i b_i b_v = -1 ∨
        (0 ≤ target_pick_loop y1 x1 dy dx ps i b_i b_v ∧
          target_pick_loop y1 x1 dy dx ps i b_i b_v < i + (ps.length : Int))) := by
  intro ps
  induction ps with
  | nil =>
    intro i b_i b_v _ hb
    simp only [target_pick_loop, List.length_nil, Nat.cast_zero, add_zero]
    exact hb
  | cons p ps ih =>
    intro i b_i b_v hi hb
    have hkeep := ih (i + 1) b_i b_v (by omega) (by omega)
    have hnew := ih (i + 1) i (target_pick_v y1 x1 p) (by omega) (by omega)
    have hlen : i + ((p :: ps).length : Int) = i + 1 + (ps.length : Int) := by
      simp only [List.length_cons, Nat.cast_add, Nat.cast_one]
      ring
    rw [hlen, target_pick_loop]
    dsimp only
    split_ifs <;> first | exact hkeep | exact hnew

/-- A result of `target_pick` that is not negative is a position in the point
set. -/
theorem target_pick_range (y1 x1 dy dx : Int) (targets : List loc)
    (h : ¬ (target_pick y1 x1 dy dx targets < 0)) :
    0 ≤ target_pick y1 x1 dy dx targets ∧
      target_pick y1 x1 dy dx targets < (targets.length : Int) := by
  have hr := target_pick_loop_range y1 x1 dy dx targets 0 (-1) 9999 (le_refl 0) (Or.inl rfl)
  unfold target_pick at h ⊢
  unfold s16b at h ⊢
  rcases hr with hr | hr
  · rw [hr] at h
    exact absurd (by decide) h
  · omega

/-- The nearest-candidate loop of the key `m` returns an index that is not
negative, and a position in the point set when a distance below 999 was
found. -/
theorem sel_nearest_range (ui : UI) (y x : Int) :
    ∀ (ps : List loc) (i m bd : Int), 0 ≤ i → 0 ≤ m → bd ≤ 999 → (bd ≠ 999 → m < i) →
      0 ≤ (sel_nearest ui y x ps i m bd).1 ∧
        ((sel_nearest ui y x ps i m bd).2 ≠ 999 →
          (sel_nearest ui y x ps i m bd).1 < i + (ps.length : Int)) := by
  intro ps
  induction ps with
  | nil =>
    intro i m bd _ hm _ hb
    simp only [sel_nearest, List.length_nil, Nat.cast_zero, add_zero]
    exact ⟨hm, hb⟩
  | cons p ps ih =>
    intro i m bd hi hm hbd hb
    have hlen : i + ((p :: ps).length : Int) = i + 1 + (ps.length : Int) := by
      simp only [List.length_cons, Nat.cast_add, Nat.cast_one]
      ring
    rw [hlen, sel_nearest]
    by_cases ht : ui.distance y x p.y p.x < bd
    · rw [if_pos ht]
      exact ih (i + 1) i (ui.distance y x p.y p.x) (by omega) hi (by omega) (by intro _; omega)
    · rw [if_neg ht]
      exact ih (i + 1) m bd (by omega) hm hbd (by intro h; have := hb h; omega)

theorem findIdx_range (f : loc → Bool) :
    ∀ (l : List loc) (start i : Nat), List.findIdx? f l start = some i →
      start ≤ i ∧ i < start + l.length := by
  intro l
  induction l with
  | nil =>
    intro start i h
    simp [List.findIdx?] at h
  | cons a as ih =>
    intro start i h
    rw [List.findIdx?] at h
    by_cases hf : f a = true
    · rw [if_pos hf] at h
      simp only [Option.some.injEq] at h
      simp only [List.length_cons]
      omega
    · rw [if_neg hf] at h
      have := ih (start + 1) i h
      simp only [List.length_cons]
      omega

/-- The search for the clicked cell returns a position in the point set. -/
theorem sel_find_range (targets : List loc) (y x : Int) (i : Nat)
    (h : sel_find targets y x = some i) : i < targets.length := by
  have := findIdx_range _ targets 0 i h
  omega

/-- The analysis of an event in CycleMode, started with the index inside the
point set, keeps the index condition, and leaves the state as it is when it
yields a direction. -/
theorem sel_cycle_event_index (ui : UI) (fuel : Nat) (s s2 : SelState) (press : ui_event)
    (d : Int) (hr : 0 ≤ s.m ∧ s.m < (s.targets.length : Int))
    (h : sel_cycle_event ui fuel s press = some (s2, d)) :
    index_ok s2 ∧ (d ≠ 0 → s2 = s) := by
  revert h
  by_cases hm : press.is_mouse = true
  · apply sel_cycle_mouse_cases (fun r => r = some (s2, d) → (index_ok s2 ∧ (d ≠ 0 → s2 = s)))
      ui fuel s press hm
    all_goals first
      | (intros
         rename_i h
         simp only [Option.some.injEq, Prod.mk.injEq] at h
         obtain ⟨h1, h2⟩ := h
         subst h1
         exact ⟨⟨hr.1, fun _ => Or.inr hr.2⟩, fun hd => absurd h2.symm hd⟩)
      | (intro y x i hfind h
         simp only [Option.some.injEq, Prod.mk.injEq] at h
         obtain ⟨h1, h2⟩ := h
         subst h1
         have hi := sel_find_range s.targets y x i hfind
         refine ⟨⟨?_, fun _ => Or.inr ?_⟩, fun hd => absurd h2.symm hd⟩
         · show (0 : Int) ≤ (i : Int)
           omega
         · show (i : Int) < (s.targets.length : Int)
           omega)
  · have hk : press.is_mouse = false := by simpa using hm
    rw [sel_cycle_event_key ui fuel s press hk]
    apply sel_cycle_key_cases (fun r => r = some (s2, d) → (index_ok s2 ∧ (d ≠ 0 → s2 = s)))
    all_goals first
      | (intro h
         simp only [Option.some.injEq, Prod.mk.injEq] at h
         obtain ⟨h1, h2⟩ := h
         subst h1
         exact ⟨⟨hr.1, fun _ => Or.inr hr.2⟩, fun hd => absurd h2.symm hd⟩)
      | (intro h
         simp only [Option.some.injEq, Prod.mk.injEq] at h
         obtain ⟨h1, h2⟩ := h
         subst h1
         refine ⟨⟨?_, fun _ => ?_⟩, fun hd => absurd h2.symm hd⟩
         · show (0 : Int) ≤ (if s.m + 1 = (s.targets.length : Int) then 0 else s.m + 1)
           split_ifs <;> omega
         · show (if s.m + 1 = (s.targets.length : Int) then 0 else s.m + 1) = 0 ∨
             (if s.m + 1 = (s.targets.length : Int) then 0 else s.m + 1) <
               (s.targets.length : Int)
           split_ifs <;> omega)
      | (intro h
         simp only [Option.some.injEq, Prod.mk.injEq] at h
         obtain ⟨h1, h2⟩ := h
         subst h1
         refine ⟨⟨?_, fun _ => ?_⟩, fun hd => absurd h2.symm hd⟩
         · show (0 : Int) ≤ (if s.m = 0 then (s.targets.length : Int) - 1 else s.m - 1)
           split_ifs <;> omega
         · show (if s.m = 0 then (s.targets.length : Int) - 1 else s.m - 1) = 0 ∨
             (if s.m = 0 then (s.targets.length : Int) - 1 else s.m - 1) <
               (s.targets.length : Int)
           split_ifs <;> omega)
      | (intro h
         simp only [Option.map_eq_some', Prod.mk.injEq] at h
         obtain ⟨a, ha, h1, h2⟩ := h
         subst h1
         obtain ⟨_, _, e3, e4, e5⟩ := sel_cycle_confirm_frame fuel s a ha
         refine ⟨⟨by rw [e3]; exact hr.1, fun _ => Or.inr (by rw [e3, e5]; exact hr.2)⟩,
           fun hd => absurd h2.symm hd⟩)
      | (intro _ h
         simp only [Option.some.injEq, Prod.mk.injEq] at h
         obtain ⟨h1, _⟩ := h
         subst h1
         exact ⟨⟨hr.1, fun _ => Or.inr hr.2⟩, fun _ => rfl⟩)

/-- The direction part of CycleMode, started with the index inside the point
set, keeps the index condition unless `target_pick` fails twice. -/
theorem sel_cycle_direction_index (ui : UI) (fuel : Nat) (s s2 : SelState) (d : Int)
    (hr : 0 ≤ s.m ∧ s.m < (s.targets.length : Int))
    (h : sel_cycle_direction ui fuel s d = some s2) :
    index_ok s2 ∨ pick_fails_twice ui fuel s d := by
  unfold sel_cycle_direction at h
  rw [if_pos hr.1] at h
  cases hold : s.targets[s.m.toNat]? with
  | none => simp [hold] at h
  | some old =>
    simp only [hold] at h
    by_cases hi : target_pick old.y old.x (ui.ddy d) (ui.ddx d) s.targets < 0
    · rw [if_pos hi] at h
      cases hcp : ui.change_panel s.w d with
      | none =>
        simp only [hcp, Option.some.injEq] at h
        subst h
        exact Or.inl ⟨hr.1, fun _ => Or.inr hr.2⟩
      | some o =>
        obtain ⟨ny, nx⟩ := o
        simp only [hcp] at h
        cases hp : target_set_interactive_prepare (s.w.scrolled ny nx) fuel s.mode with
        | none => simp [hp] at h
        | some targets2 =>
          simp only [hp] at h
          by_cases hi2 : target_pick old.y old.x (ui.ddy d) (ui.ddx d) targets2 < 0
          · exact Or.inr ⟨old, ny, nx, targets2, hold, hi, hcp, hp, hi2⟩
          · rw [if_neg hi2] at h
            simp only [Option.some.injEq] at h
            subst h
            have hrange := target_pick_range old.y old.x (ui.ddy d) (ui.ddx d) targets2 hi2
            exact Or.inl ⟨hrange.1, fun _ => Or.inr hrange.2⟩
    · rw [if_neg hi] at h
      simp only [Option.some.injEq] at h
      subst h
      have hrange := target_pick_range old.y old.x (ui.ddy d) (ui.ddx d) s.targets hi
      exact Or.inl ⟨hrange.1, fun _ => Or.inr hrange.2⟩

/-- One iteration of CycleMode keeps the index condition, unless its event is
a direction key for which `target_pick` fails twice. -/
theorem sel_cycle_index (ui : UI) (fuel : Nat) (s s2 : SelState) (press : ui_event)
    (hok : index_ok s) (hb : sel_branch s = SelBranch.cycle)
    (h : sel_cycle ui fuel s press = some s2) :
    index_ok s2 ∨
      (press.is_mouse = false ∧ ui.target_dir press.code ≠ 0 ∧
        ∃ s1 : SelState, s1.m = s.m ∧ s1.targets = s.targets ∧ s1.mode = s.mode ∧
          pick_fails_twice ui fuel s1 (ui.target_dir press.code)) := by
  have hcyc : s.flag = true ∧ s.targets.length ≠ 0 := by
    unfold sel_branch at hb
    by_cases hc : s.flag = true ∧ s.targets.length ≠ 0
    · exact hc
    · rw [if_neg hc] at hb
      split at hb <;> exact absurd hb (by decide)
  have hr : 0 ≤ s.m ∧ s.m < (s.targets.length : Int) := by
    refine ⟨hok.1, ?_⟩
    rcases hok.2 hcyc.1 with h0 | h0
    · have := hcyc.2
      omega
    · exact h0
  unfold sel_cycle at h
  split at h
  · simp at h
  · split at h
    · simp at h
    · dsimp only at h
      split at h
      · simp at h
      · split at h
        · simp at h
        · rename_i s3 d he
          have hev := fun hq => sel_cycle_event_index ui fuel _ s3 press d hq he
          obtain ⟨h3, hsame⟩ := hev hr
          obtain ⟨_, _, hdir⟩ := sel_cycle_event_targets ui fuel _ s3 press d he
          split_ifs at h with hd
          · have hs3 := hsame hd
            obtain ⟨hk, hdc⟩ := hdir hd
            have hr3 : 0 ≤ s3.m ∧ s3.m < (s3.targets.length : Int) := by
              rw [hs3]
              exact hr
            rcases sel_cycle_direction_index ui fuel s3 s2 d hr3 h with h4 | h4
            · exact Or.inl h4
            · refine Or.inr ⟨hk, by rw [← hdc]; exact hd, s3, by rw [hs3], by rw [hs3],
                by rw [hs3], by rw [← hdc]; exact h4⟩
          · simp only [Option.some.injEq] at h
            subst h
            exact Or.inl h3

/-- The analysis of an event in FreeMode, started with an index that is 0 when
`flag` is set, keeps that, or sets the index afresh inside the point set. -/
theorem sel_free_event_index (ui : UI) (fuel : Nat) (s s2 : SelState) (press : ui_event)
    (d : Int) (hF : 0 ≤ s.m ∧ (s.flag = true → s.m = 0))
    (h : sel_free_event ui fuel s press = some (s2, d)) :
    (0 ≤ s2.m ∧ (s2.flag = true → s2.m = 0)) ∨ (d = 0 ∧ index_ok s2) := by
  revert h
  by_cases hm : press.is_mouse = true
  · apply sel_free_mouse_cases
      (fun r => r = some (s2, d) →
        ((0 ≤ s2.m ∧ (s2.flag = true → s2.m = 0)) ∨ (d = 0 ∧ index_ok s2)))
      ui fuel s press hm
    all_goals first
      | (intro h
         exact absurd h (by simp))
      | (intros
         rename_i h
         simp only [Option.some.injEq, Prod.mk.injEq] at h
         obtain ⟨h1, _⟩ := h
         subst h1
         exact Or.inl hF)
      | (intro y x changed w1 subs1 targets1 _ _
         refine ⟨?_, ?_, ?_⟩
         · intro i hfind h
           simp only [Option.some.injEq, Prod.mk.injEq] at h
           obtain ⟨h1, h2⟩ := h
           subst h1
           have hi := sel_find_range targets1 y x i hfind
           refine Or.inr ⟨h2.symm, ?_, fun _ => Or.inr ?_⟩
           · show (0 : Int) ≤ (i : Int)
             omega
           · show (i : Int) < (targets1.length : Int)
             omega
         · intro h
           simp only [Option.some.injEq, Prod.mk.injEq] at h
           obtain ⟨h1, _⟩ := h
           subst h1
           exact Or.inl hF
         · intro h
           simp only [Option.some.injEq, Prod.mk.injEq] at h
           obtain ⟨h1, _⟩ := h
           subst h1
           exact Or.inl ⟨hF.1, fun hf => absurd hf Bool.false_ne_true⟩)
  · have hk : press.is_mouse = false := by simpa using hm
    rw [sel_free_event_key ui fuel s press hk]
    apply sel_free_key_cases
      (fun r => r = some (s2, d) →
        ((0 ≤ s2.m ∧ (s2.flag = true → s2.m = 0)) ∨ (d = 0 ∧ index_ok s2)))
    all_goals first
      | (intros
         rename_i h
         simp only [Option.some.injEq, Prod.mk.injEq] at h
         obtain ⟨h1, _⟩ := h
         subst h1
         exact Or.inl hF)
      | (intro h
         simp only [Option.some.injEq, Prod.mk.injEq] at h
         obtain ⟨h1, h2⟩ := h
         subst h1
         have hn := sel_nearest_range ui s.y s.x s.targets 0 0 999 (le_refl 0) (le_refl 0)
           (le_refl 999) (fun hne => absurd rfl hne)
         refine Or.inr ⟨h2.symm, hn.1, fun hf => Or.inr ?_⟩
         have hne : (sel_nearest ui s.y s.x s.targets 0 0 999).2 ≠ 999 := of_decide_eq_true hf
         have := hn.2 hne
         show (sel_nearest ui s.y s.x s.targets 0 0 999).1 < (s.targets.length : Int)
         omega)

/-- The direction part of FreeMode leaves the index and `flag` as they are. -/
theorem sel_free_direction_index (ui : UI) (fuel : Nat) (s s2 : SelState) (d : Int)
    (h : sel_free_direction ui fuel s d = some s2) : s2.m = s.m ∧ s2.flag = s.flag := by
  rw [sel_free_direction_eq] at h
  split at h
  · simp at h
  · split at h
    · simp at h
    · simp only [Option.some.injEq] at h
      subst h
      exact ⟨rfl, rfl⟩
  · simp only [Option.some.injEq] at h
    subst h
    exact ⟨rfl, rfl⟩

/-- One iteration of FreeMode keeps the index condition. -/
theorem sel_free_index (ui : UI) (fuel : Nat) (s s2 : SelState) (press : ui_event)
    (hok : index_ok s) (hb : sel_branch s = SelBranch.free)
    (h : sel_free ui fuel s press = some s2) : index_ok s2 := by
  have hnc : ¬ (s.flag = true ∧ s.targets.length ≠ 0) := by
    intro hc
    unfold sel_branch at hb
    rw [if_pos hc] at hb
    exact absurd hb (by decide)
  have hF : 0 ≤ s.m ∧ (s.flag = true → s.m = 0) := by
    refine ⟨hok.1, fun hf => ?_⟩
    have hlen : s.targets.length = 0 := by
      by_contra hne
      exact hnc ⟨hf, hne⟩
    have hpos := hok.1
    rcases hok.2 hf with h0 | h0
    · exact h0
    · omega
  unfold sel_free at h
  split at h
  · simp at h
  · rename_i s3 d he
    have h3 := sel_free_event_index ui fuel s s3 press d hF he
    split_ifs at h with hd
    · obtain ⟨e1, e2⟩ := sel_free_direction_index ui fuel s3 s2 d h
      rcases h3 with h3 | ⟨h3, _⟩
      · exact ⟨by rw [e1]; exact h3.1, fun hf => Or.inl (by rw [e1]; exact h3.2 (by rw [← e2]; exact hf))⟩
      · exact absurd h3 hd
    · simp only [Option.some.injEq] at h
      subst h
      rcases h3 with h3 | ⟨_, h3⟩
      · exact ⟨h3.1, fun hf => Or.inl (h3.2 hf)⟩
      · exact h3

/-- Where `change_panel` never changes the panel, every state the loop reaches
from the entry meets the index condition, and in CycleMode the index is a
position in the point set. -/
theorem sel_steps_index_fixed_panel (ui : UI) (fuel : Nat) (w : World)
    (subs : List sub_window) (t : TargetState) (mode : Nat) (x y : Int) (s0 s : SelState)
    (evs : List ui_event) (hfix : ∀ (w2 : World) (d : Int), ui.change_panel w2 d = none)
    (he : sel_enter ui fuel w subs t mode x y = some s0)
    (h : sel_steps ui fuel s0 evs = some s) :
    index_ok s ∧
      (sel_branch s = SelBranch.cycle → 0 ≤ s.m ∧ s.m < (s.targets.length : Int)) := by
  have h0 : index_ok s0 := by
    have hm0 := (sel_enter_state ui fuel w subs t mode x y s0 he).2.2.1
    exact ⟨by rw [hm0], fun _ => Or.inl hm0⟩
  have hok : index_ok s := by
    refine sel_steps_invariant ui fuel index_ok ?_ ?_ evs s0 s h0 h
    · intro s1 s2 e hP _ hb hs
      rcases sel_cycle_index ui fuel s1 s2 e hP hb hs with h1 | ⟨_, _, s3, _, _, _, h1⟩
      · exact h1
      · obtain ⟨_, _, _, _, _, _, hcp, _, _⟩ := h1
        rw [hfix] at hcp
        exact absurd hcp (by simp)
    · intro s1 s2 e hP _ hb hs
      exact sel_free_index ui fuel s1 s2 e hP hb hs
  refine ⟨hok, fun hb => ⟨hok.1, ?_⟩⟩
  have hcyc : s.flag = true ∧ s.targets.length ≠ 0 := by
    unfold sel_branch at hb
    by_cases hc : s.flag = true ∧ s.targets.length ≠ 0
    · exact hc
    · rw [if_neg hc] at hb
      split at hb <;> exact absurd hb (by decide)
  rcases hok.2 hcyc.1 with h1 | h1
  · have := hcyc.2
    omega
  · exact h1

/-! ## Theorems: the index into the point set in CycleMode -/

set_option maxRecDepth 100000 in
/-- C31, the code at the failing input: on a 24x80 terminal (a 22x66 viewport)
over a 66x198 map, with the player at row 10, column 10 and visible traps at
rows 1 and 21 of column 10, the selector is entered in look mode without a
start cell and holds the three cells as candidates, in CycleMode with
`m = 0`.  The keys are `?`, `+`, `+` and a fourth key, none of which
`target_set_interactive_aux` keeps to itself.  After `?`, `+`, `+` the index
is 2, inside the set; the iteration that reads the fourth key scrolls the
viewport to row 10 for the help lines and keeps the three candidates, as the
key `m` shows.  When the fourth key is the direction `2`, `target_pick` fails
twice, the panel is put back and the candidates are rebuilt for it: the loop
is still in CycleMode with `m = 2`, but the point set now has two entries, so
`targets->pts[m]` lies outside it and the session has no defined result. -/
theorem cycle_index_out_of_range :
    (sel_enter termUI 20 lookWorld [] TargetState.initial 2 (-1) (-1)).map
        (fun s => (sel_branch s, s.m, s.targets)) =
      some (SelBranch.cycle, 0, [⟨10, 10⟩, ⟨10, 1⟩, ⟨10, 21⟩]) ∧
    ((sel_enter termUI 20 lookWorld [] TargetState.initial 2 (-1) (-1)).bind
        (fun s0 => sel_steps termUI 20 s0
          [key_press '?', key_press '+', key_press '+'])).map
        (fun s => (s.done, sel_branch s, s.m, s.w.offset_y, s.targets)) =
      some (false, SelBranch.cycle, 2, 0, [⟨10, 10⟩, ⟨10, 1⟩, ⟨10, 21⟩]) ∧
    ((sel_enter termUI 20 lookWorld [] TargetState.initial 2 (-1) (-1)).bind
        (fun s0 => sel_steps termUI 20 s0
          [key_press '?', key_press '+', key_press '+', key_press 'm'])).map
        (fun s => (s.done, sel_branch s, s.m, s.w.offset_y, s.targets)) =
      some (false, SelBranch.cycle, 2, 10, [⟨10, 10⟩, ⟨10, 1⟩, ⟨10, 21⟩]) ∧
    ((sel_enter termUI 20 lookWorld [] TargetState.initial 2 (-1) (-1)).bind
        (fun s0 => sel_steps termUI 20 s0
          [key_press '?', key_press '+', key_press '+', key_press '2'])).map
        (fun s => (s.done, sel_branch s, s.m, s.targets,
          (s.targets[s.m.toNat]?).isSome)) =
      some (false, SelBranch.cycle, 2, [⟨10, 10⟩, ⟨10, 21⟩], false) ∧
    (target_set_interactive termUI 20 lookWorld [] TargetState.initial 2 (-1) (-1)
        [key_press '?', key_press '+', key_press '+', key_press '2', key_press 'q']).isSome =
      false := by
  refine ⟨?_, ?_, ?_, ?_, ?_⟩ <;> decide

/-! ## Helper lemmas: the candidates of monster-restricted mode -/

/-- Scrolling the main window changes neither the flag nor the monsters. -/
theorem kill_cells_scrolled (w : World) (wy wx : Int) (mode : Nat) (targets : List loc)
    (h : kill_cells w mode targets) : kill_cells (w.scrolled wy wx) mode targets := h

end Target
